import Mathlib

/-!
Asteroids: the simulation step of `asteroids.go`.

A shallow embedding of `Game.Update`, `Game.resetGame`, `Game.checkCollision`
and `Game.splitAsteroid`.

Modelling conventions.

* `float64` is modelled twice.  In the exact program (section `Program`) it is
  a linearly ordered field `α` with a floor function, and no operation rounds.
  In the rounded program (section `Rounded`, the same code with a suffix `R`)
  the result of every operation goes through a rounding function; with `rnd64`
  this is IEEE 754 binary64 arithmetic, round to nearest, ties to even.  `NaN`
  and the infinities are not represented.  The theorems take `α = ℝ`.
* `math.Sqrt`, `math.Cos`, `math.Sin` and `math.Pi` are supplied by a record
  `MathLib α`; `realMath` is their exact interpretation in `ℝ`, `float64Math`
  the correctly rounded one.
* The claims about control flow, order and counting are stated of the exact
  program, through the values of `checkCollision`.  The claims whose content is
  the arithmetic itself (the collision test, the split, the controls, the new
  asteroids, the ship test) are stated of the rounded program.
* `math.Mod` is the C `fmod`: the remainder of the *truncated* quotient, which
  takes the sign of the dividend.  It is exact in IEEE arithmetic.
* `int` is the 64-bit two's-complement integer: `g.score++` wraps.
* `time.Time` is a number of nanoseconds (`Int`); one clock reading `now` is
  taken per call of `Update`, and `time.Since t` is `now - t`.
* `ebiten.IsKeyPressed` is read from an `Input` record.
* `rand.Float64()` takes the next element of a stream `Rng α = Nat → α`; the
  functions that draw return the advanced stream.
* A slice is a `List`; an index out of range (a run-time panic in Go) is `none`.
-/

set_option linter.unusedSectionVars false

namespace Asteroids

/-! ## Data model -/

/-- The `Ship` struct. -/
structure Ship (α : Type) where
  x : α
  y : α
  angle : α
  velocityX : α
  velocityY : α

/-- The `Bullet` struct. -/
structure Bullet (α : Type) where
  x : α
  y : α
  dx : α
  dy : α

/-- The `Asteroid` struct. -/
structure Asteroid (α : Type) where
  x : α
  y : α
  dx : α
  dy : α
  radius : α

/-- The `Game` struct.  Times are nanoseconds. -/
structure Game (α : Type) where
  ship : Ship α
  bullets : List (Bullet α)
  asteroids : List (Asteroid α)
  score : Int
  isGameOver : Bool
  screenWidth : Int
  screenHeight : Int
  lastBullet : Int
  lastAsteroid : Int

/-- The keys sampled by `ebiten.IsKeyPressed` during one `Update`, and the clock. -/
structure Input where
  keyLeft : Bool
  keyRight : Bool
  keyUp : Bool
  keyDown : Bool
  keySpace : Bool
  keyR : Bool
  now : Int

/-- The functions and the constant of package `math` used by the program. -/
structure MathLib (α : Type) where
  sqrt : α → α
  cos : α → α
  sin : α → α
  pi : α

/-- The source of `rand.Float64()` results. -/
abbrev Rng (α : Type) := Nat → α

/-- One call of `rand.Float64()`: the value drawn and the rest of the stream. -/
def nextRand {α : Type} (rng : Rng α) : α × Rng α :=
  (rng 0, fun n => rng (n + 1))

/-- Wrap-around of the 64-bit signed `int`. -/
def wrapInt64 (n : Int) : Int :=
  (n + 2 ^ 63) % 2 ^ 64 - 2 ^ 63

/-- The largest `int`. -/
def maxInt64 : Int := 2 ^ 63 - 1

/-- The smallest `int`. -/
def minInt64 : Int := -(2 ^ 63)

/-- The cooldown `300 * time.Millisecond`, in nanoseconds. -/
def timeSinceLastBullet : Int := 300 * 1000000

/-- The interval `3 * time.Second`, in nanoseconds. -/
def asteroidSpawnInterval : Int := 3 * 1000000000

section Program

variable {α : Type} [LinearOrderedField α] [FloorRing α]

/-- Rounding toward zero, as in the quotient of `fmod`. -/
def trunc (x : α) : α :=
  if 0 ≤ x then ((⌊x⌋ : Int) : α) else ((⌈x⌉ : Int) : α)

/-- The function `math.Mod x y`: `x - y * trunc (x / y)`; the result has the sign of `x`. -/
def mathMod (x y : α) : α :=
  x - y * trunc (x / y)

/-- The method `Game.checkCollision`. -/
def checkCollision (M : MathLib α) (x1 y1 x2 y2 radius : α) : Bool :=
  let dx := x1 - x2
  let dy := y1 - y2
  let distance := M.sqrt (dx * dx + dy * dy)
  decide (distance < radius)

/-- The method `Game.splitAsteroid` on the asteroid slice: `none` when `index` is
out of range. -/
def splitAsteroid (M : MathLib α) (index : Nat) (rng : Rng α)
    (asteroids : List (Asteroid α)) : Option (List (Asteroid α) × Rng α) :=
  match asteroids[index]? with
  | none => none
  | some asteroid =>
    let rest := asteroids.take index ++ asteroids.drop (index + 1)
    if asteroid.radius > 10 then
      let speed := M.sqrt (asteroid.dx * asteroid.dx + asteroid.dy * asteroid.dy) + 0.5
      let (r1, rng1) := nextRand rng
      let angle1 := r1 * 2 * M.pi
      let (r2, rng2) := nextRand rng1
      let angle2 := r2 * 2 * M.pi
      some (rest ++
        [{ x := asteroid.x, y := asteroid.y,
           dx := speed * M.cos angle1, dy := speed * M.sin angle1,
           radius := asteroid.radius / 2 },
         { x := asteroid.x, y := asteroid.y,
           dx := speed * M.cos angle2, dy := speed * M.sin angle2,
           radius := asteroid.radius / 2 }], rng2)
    else
      some (rest, rng)

/-- The asteroid literal built in `Update` and in `resetGame`: four draws, in the
order angle, speed, x, y. -/
def newAsteroid (M : MathLib α) (rng : Rng α) (screenWidth screenHeight : Int) :
    Asteroid α × Rng α :=
  let (r1, rng1) := nextRand rng
  let angle := r1 * 2 * M.pi
  let (r2, rng2) := nextRand rng1
  let speed := r2 * 2 + 1
  let (r3, rng3) := nextRand rng2
  let (r4, rng4) := nextRand rng3
  ({ x := r3 * (screenWidth : α), y := r4 * (screenHeight : α),
     dx := speed * M.cos angle, dy := speed * M.sin angle, radius := 30 }, rng4)

/-- The loop `for i := 0; i < 10; i++` of `resetGame`, with `n` iterations left. -/
def resetLoop (M : MathLib α) (screenWidth screenHeight : Int) :
    Nat → Rng α → List (Asteroid α) → List (Asteroid α) × Rng α
  | 0, rng, asteroids => (asteroids, rng)
  | n + 1, rng, asteroids =>
    let (a, rng1) := newAsteroid M rng screenWidth screenHeight
    resetLoop M screenWidth screenHeight n rng1 (asteroids ++ [a])

/-- The method `Game.resetGame`. -/
def resetGame (M : MathLib α) (rng : Rng α) (g : Game α) : Game α × Rng α :=
  let (asteroids, rng1) := resetLoop M g.screenWidth g.screenHeight 10 rng []
  ({ g with
     ship := { x := (g.screenWidth : α) / 2, y := (g.screenHeight : α) / 2,
               angle := 0, velocityX := 0, velocityY := 0 },
     bullets := [],
     asteroids := asteroids,
     score := 0,
     isGameOver := false }, rng1)

/-- Part of `Update`, "ship controls": the four key tests, which change the angle and
the velocity. -/
def shipControls (M : MathLib α) (inp : Input) (s : Ship α) : Ship α :=
  let shipSpeedMultiplier : α := 0.2
  let s := if inp.keyLeft then { s with angle := s.angle - 0.1 } else s
  let s := if inp.keyRight then { s with angle := s.angle + 0.1 } else s
  let s := if inp.keyUp then
      { s with velocityX := s.velocityX + M.cos s.angle * shipSpeedMultiplier,
               velocityY := s.velocityY + M.sin s.angle * shipSpeedMultiplier }
    else s
  let s := if inp.keyDown then
      { s with velocityX := s.velocityX - M.cos s.angle * 0.2,
               velocityY := s.velocityY - M.sin s.angle * 0.2 }
    else s
  s

/-- Part of `Update`: the ship's integration, friction and screen wrap. -/
def shipMove (screenWidth screenHeight : Int) (s : Ship α) : Ship α :=
  let s := { s with x := s.x + s.velocityX }
  let s := { s with y := s.y + s.velocityY }
  let s := { s with velocityX := s.velocityX * 0.99 }
  let s := { s with velocityY := s.velocityY * 0.99 }
  let s := { s with x := mathMod (s.x + (screenWidth : α)) (screenWidth : α) }
  let s := { s with y := mathMod (s.y + (screenHeight : α)) (screenHeight : α) }
  s

/-- Part of `Update`: the ship part. -/
def shipPhase (M : MathLib α) (inp : Input) (g : Game α) : Game α :=
  { g with ship := shipMove g.screenWidth g.screenHeight (shipControls M inp g.ship) }

/-- Part of `Update`, "shoot bullets". -/
def firePhase (M : MathLib α) (inp : Input) (g : Game α) : Game α :=
  let bulletSpeedMultiplier : α := 5.0
  if inp.keySpace then
    if g.bullets.length = 0 ∨ inp.now - g.lastBullet > timeSinceLastBullet then
      { g with
        bullets := g.bullets ++
          [{ x := g.ship.x, y := g.ship.y,
             dx := M.cos g.ship.angle * bulletSpeedMultiplier,
             dy := M.sin g.ship.angle * bulletSpeedMultiplier }],
        lastBullet := inp.now }
    else g
  else g

/-- The loop of "update bullets": `newBullets` after ranging over the bullets. -/
def updateBullets (screenWidth screenHeight : Int) (newBullets : List (Bullet α)) :
    List (Bullet α) → List (Bullet α)
  | [] => newBullets
  | bullet :: rest =>
    let bullet := { bullet with x := bullet.x + bullet.dx }
    let bullet := { bullet with y := bullet.y + bullet.dy }
    if bullet.x ≥ 0 ∧ bullet.x < (screenWidth : α) ∧ bullet.y ≥ 0 ∧
        bullet.y < (screenHeight : α) then
      updateBullets screenWidth screenHeight (newBullets ++ [bullet]) rest
    else
      updateBullets screenWidth screenHeight newBullets rest

/-- Part of `Update`, "update bullets". -/
def bulletPhase (g : Game α) : Game α :=
  { g with bullets := updateBullets g.screenWidth g.screenHeight [] g.bullets }

/-- Part of `Update`, "generate new asteroids". -/
def spawnPhase (M : MathLib α) (inp : Input) (rng : Rng α) (g : Game α) :
    Game α × Rng α :=
  if inp.now - g.lastAsteroid > asteroidSpawnInterval then
    let (a, rng1) := newAsteroid M rng g.screenWidth g.screenHeight
    ({ g with asteroids := g.asteroids ++ [a], lastAsteroid := inp.now }, rng1)
  else (g, rng)

/-- The body of the loop of "update asteroids". -/
def moveAsteroid (screenWidth screenHeight : Int) (a : Asteroid α) : Asteroid α :=
  let a := { a with x := a.x + a.dx }
  let a := { a with y := a.y + a.dy }
  let a := { a with x := mathMod (a.x + (screenWidth : α)) (screenWidth : α) }
  let a := { a with y := mathMod (a.y + (screenHeight : α)) (screenHeight : α) }
  a

/-- Part of `Update`, "update asteroids". -/
def asteroidPhase (g : Game α) : Game α :=
  { g with asteroids := g.asteroids.map (moveAsteroid g.screenWidth g.screenHeight) }

/-- The state of the collision loops: the game, the random stream, and the
indices passed to `splitAsteroid` so far, oldest first (a record of the calls;
the program does not read it). -/
structure Coll (α : Type) where
  game : Game α
  rng : Rng α
  splits : List Nat

/-- The inner loop `for j := ...; j >= 0; j--` of "check collisions" for the
bullet at index `i`, about to run with `j = n - 1` (finished when `n = 0`). -/
def innerLoop (M : MathLib α) (i : Nat) : Nat → Coll α → Option (Coll α)
  | 0, c => some c
  | j + 1, c =>
    match c.game.bullets[i]?, c.game.asteroids[j]? with
    | some b, some a =>
      if checkCollision M b.x b.y a.x a.y a.radius then
        let bullets := c.game.bullets.take i ++ c.game.bullets.drop (i + 1)
        match splitAsteroid M j c.rng c.game.asteroids with
        | none => none
        | some (asteroids, rng) =>
          some { game := { c.game with bullets := bullets, asteroids := asteroids,
                                       score := wrapInt64 (c.game.score + 1) },
                 rng := rng, splits := c.splits ++ [j] }
      else innerLoop M i j c
    | _, _ => none

/-- The outer loop `for i := ...; i >= 0; i--` of "check collisions", about to
run with `i = n - 1` (finished when `n = 0`). -/
def outerLoop (M : MathLib α) : Nat → Coll α → Option (Coll α)
  | 0, c => some c
  | i + 1, c =>
    match innerLoop M i c.game.asteroids.length c with
    | none => none
    | some c1 => outerLoop M i c1

/-- Part of `Update`, "check collisions". -/
def collisionPhase (M : MathLib α) (rng : Rng α) (g : Game α) : Option (Coll α) :=
  outerLoop M g.bullets.length { game := g, rng := rng, splits := [] }

/-- The loop of "game over if ship collides with an asteroid": whether it sets
`isGameOver`. -/
def shipHit (M : MathLib α) (s : Ship α) : List (Asteroid α) → Bool
  | [] => false
  | asteroid :: rest =>
    if checkCollision M s.x s.y asteroid.x asteroid.y asteroid.radius then true
    else shipHit M s rest

/-- Part of `Update`, "game over if ship collides with an asteroid". -/
def shipCollisionPhase (M : MathLib α) (g : Game α) : Game α :=
  if shipHit M g.ship g.asteroids then { g with isGameOver := true } else g

/-- The state in which "check collisions" starts during a `Update` of a game
that is not over. -/
def beforeCollisions (M : MathLib α) (inp : Input) (rng : Rng α) (g : Game α) :
    Game α × Rng α :=
  let g1 := shipPhase M inp g
  let g2 := firePhase M inp g1
  let g3 := bulletPhase g2
  let r := spawnPhase M inp rng g3
  (asteroidPhase r.1, r.2)

/-- The method `Game.Update`: the new game and the advanced random stream, or `none` if an
index is out of range. -/
def Update (M : MathLib α) (inp : Input) (rng : Rng α) (g : Game α) :
    Option (Game α × Rng α) :=
  if g.isGameOver then
    if inp.keyR then some (resetGame M rng g) else some (g, rng)
  else
    let r := beforeCollisions M inp rng g
    match collisionPhase M r.2 r.1 with
    | none => none
    | some c => some (shipCollisionPhase M c.game, c.rng)

/-- The game built by `main`: the 1720 x 1060 screen, the ship at (400, 300),
five asteroids made like those of `resetGame` but with positions drawn in
800 x 600 (the loop of `resetLoop` with these numbers); `zeroTime` is the zero
value of `time.Time`, which both timestamps hold. -/
def initGame (M : MathLib α) (rng : Rng α) (zeroTime : Int) : Game α × Rng α :=
  let r := resetLoop M 800 600 5 rng []
  ({ ship := { x := 400, y := 300, angle := 0, velocityX := 0, velocityY := 0 },
     bullets := [], asteroids := r.1, score := 0, isGameOver := false,
     screenWidth := 1720, screenHeight := 1060,
     lastBullet := zeroTime, lastAsteroid := zeroTime }, r.2)

/-- The calls of `Update` made by `ebiten.RunGame`, one per sampled input, as
long as none panics. -/
def runFrames (M : MathLib α) : List Input → Rng α → Game α → Option (Game α × Rng α)
  | [], rng, g => some (g, rng)
  | inp :: rest, rng, g =>
    match Update M inp rng g with
    | none => none
    | some r => runFrames M rest r.2 r.1

/-- The two children that `splitAsteroid` appends for `a`, with the draws `r1`, `r2`. -/
def children (M : MathLib α) (a : Asteroid α) (r1 r2 : α) : List (Asteroid α) :=
  [{ x := a.x, y := a.y,
     dx := (M.sqrt (a.dx * a.dx + a.dy * a.dy) + 0.5) * M.cos (r1 * 2 * M.pi),
     dy := (M.sqrt (a.dx * a.dx + a.dy * a.dy) + 0.5) * M.sin (r1 * 2 * M.pi),
     radius := a.radius / 2 },
   { x := a.x, y := a.y,
     dx := (M.sqrt (a.dx * a.dx + a.dy * a.dy) + 0.5) * M.cos (r2 * 2 * M.pi),
     dy := (M.sqrt (a.dx * a.dx + a.dy * a.dy) + 0.5) * M.sin (r2 * 2 * M.pi),
     radius := a.radius / 2 }]

/-- A property of asteroids that the children of a split inherit from the parent. -/
def SplitClosed (P : Asteroid α → Prop) : Prop :=
  ∀ (a : Asteroid α) (dx dy : α), P a → 10 < a.radius →
    P { x := a.x, y := a.y, dx := dx, dy := dy, radius := a.radius / 2 }

end Program

/-! ## The program in float64 arithmetic

The definitions of the section above, once more, with the rounding of float64
made explicit.  `R` is the rounding function: the result of every float64
operation `+`, `-`, `*`, `/`, every literal with a fraction part (`0.1`, `0.2`,
`0.5`, `0.99`, `5.0`) and every conversion `float64(n)` of an `int` goes
through `R`.  Integer literals (`1`, `2`, `10`, `30`) are exact; `math.Mod` is
exact; a comparison rounds nothing.  Each operation is rounded on its own, as
the compiler does on amd64 (no fused multiply-add).  The library functions
come from the record `MathLib`, as before.

With `R = id` these are the definitions of the section above (`UpdateR_id`);
with `R = rnd64` and `float64Math` they are the program in IEEE 754 binary64
arithmetic, round to nearest, ties to even.  Overflow to an infinity and `NaN`
are not represented. -/

section Float64

variable {α : Type} [LinearOrderedField α] [FloorRing α]

/-- Rounding to the nearest integer, a tie going to the even one. -/
def roundHalfEven (y : α) : Int :=
  let n := ⌊y⌋
  let f := y - (n : α)
  if f < 1 / 2 then n else if 1 / 2 < f then n + 1 else if n % 2 = 0 then n else n + 1

/-- The float64 nearest to `x`, a tie going to the even significand: with `e`
the binary exponent of `x`, at least -1022 (below that the numbers are
subnormal), `x` is rounded to a multiple of `2^(e - 52)`. -/
def rnd64 (x : α) : α :=
  if x = 0 then 0
  else
    let e := max (Int.log 2 |x|) (-1022)
    let u := (2 : α) ^ (e - 52)
    (roundHalfEven (x / u) : α) * u

end Float64

section Rounded

variable {α : Type} [LinearOrderedField α] [FloorRing α]

/-- The method `Game.checkCollision`, in rounded arithmetic. -/
def checkCollisionR (R : α → α) (M : MathLib α) (x1 y1 x2 y2 radius : α) : Bool :=
  let dx := R (x1 - x2)
  let dy := R (y1 - y2)
  let distance := M.sqrt (R (R (dx * dx) + R (dy * dy)))
  decide (distance < radius)

/-- The method `Game.splitAsteroid`, in rounded arithmetic. -/
def splitAsteroidR (R : α → α) (M : MathLib α) (index : Nat) (rng : Rng α)
    (asteroids : List (Asteroid α)) : Option (List (Asteroid α) × Rng α) :=
  match asteroids[index]? with
  | none => none
  | some asteroid =>
    let rest := asteroids.take index ++ asteroids.drop (index + 1)
    if asteroid.radius > 10 then
      let speed :=
        R (M.sqrt (R (R (asteroid.dx * asteroid.dx) + R (asteroid.dy * asteroid.dy))) + R 0.5)
      let (r1, rng1) := nextRand rng
      let angle1 := R (R (r1 * 2) * M.pi)
      let (r2, rng2) := nextRand rng1
      let angle2 := R (R (r2 * 2) * M.pi)
      some (rest ++
        [{ x := asteroid.x, y := asteroid.y,
           dx := R (speed * M.cos angle1), dy := R (speed * M.sin angle1),
           radius := R (asteroid.radius / 2) },
         { x := asteroid.x, y := asteroid.y,
           dx := R (speed * M.cos angle2), dy := R (speed * M.sin angle2),
           radius := R (asteroid.radius / 2) }], rng2)
    else
      some (rest, rng)

/-- The asteroid literal built in `Update` and in `resetGame`, in rounded
arithmetic. -/
def newAsteroidR (R : α → α) (M : MathLib α) (rng : Rng α) (screenWidth screenHeight : Int) :
    Asteroid α × Rng α :=
  let (r1, rng1) := nextRand rng
  let angle := R (R (r1 * 2) * M.pi)
  let (r2, rng2) := nextRand rng1
  let speed := R (R (r2 * 2) + 1)
  let (r3, rng3) := nextRand rng2
  let (r4, rng4) := nextRand rng3
  ({ x := R (r3 * R (screenWidth : α)), y := R (r4 * R (screenHeight : α)),
     dx := R (speed * M.cos angle), dy := R (speed * M.sin angle), radius := 30 }, rng4)

/-- The loop of `resetGame`, in rounded arithmetic. -/
def resetLoopR (R : α → α) (M : MathLib α) (screenWidth screenHeight : Int) :
    Nat → Rng α → List (Asteroid α) → List (Asteroid α) × Rng α
  | 0, rng, asteroids => (asteroids, rng)
  | n + 1, rng, asteroids =>
    let (a, rng1) := newAsteroidR R M rng screenWidth screenHeight
    resetLoopR R M screenWidth screenHeight n rng1 (asteroids ++ [a])

/-- The method `Game.resetGame`, in rounded arithmetic. -/
def resetGameR (R : α → α) (M : MathLib α) (rng : Rng α) (g : Game α) : Game α × Rng α :=
  let (asteroids, rng1) := resetLoopR R M g.screenWidth g.screenHeight 10 rng []
  ({ g with
     ship := { x := R (R (g.screenWidth : α) / 2), y := R (R (g.screenHeight : α) / 2),
               angle := 0, velocityX := 0, velocityY := 0 },
     bullets := [],
     asteroids := asteroids,
     score := 0,
     isGameOver := false }, rng1)

/-- Part of `Update`, "ship controls", in rounded arithmetic. -/
def shipControlsR (R : α → α) (M : MathLib α) (inp : Input) (s : Ship α) : Ship α :=
  let shipSpeedMultiplier : α := R 0.2
  let s := if inp.keyLeft then { s with angle := R (s.angle - R 0.1) } else s
  let s := if inp.keyRight then { s with angle := R (s.angle + R 0.1) } else s
  let s := if inp.keyUp then
      { s with velocityX := R (s.velocityX + R (M.cos s.angle * shipSpeedMultiplier)),
               velocityY := R (s.velocityY + R (M.sin s.angle * shipSpeedMultiplier)) }
    else s
  let s := if inp.keyDown then
      { s with velocityX := R (s.velocityX - R (M.cos s.angle * R 0.2)),
               velocityY := R (s.velocityY - R (M.sin s.angle * R 0.2)) }
    else s
  s

/-- Part of `Update`: the ship's integration, friction and screen wrap, in
rounded arithmetic. -/
def shipMoveR (R : α → α) (screenWidth screenHeight : Int) (s : Ship α) : Ship α :=
  let s := { s with x := R (s.x + s.velocityX) }
  let s := { s with y := R (s.y + s.velocityY) }
  let s := { s with velocityX := R (s.velocityX * R 0.99) }
  let s := { s with velocityY := R (s.velocityY * R 0.99) }
  let s := { s with x := mathMod (R (s.x + R (screenWidth : α))) (R (screenWidth : α)) }
  let s := { s with y := mathMod (R (s.y + R (screenHeight : α))) (R (screenHeight : α)) }
  s

/-- Part of `Update`: the ship part, in rounded arithmetic. -/
def shipPhaseR (R : α → α) (M : MathLib α) (inp : Input) (g : Game α) : Game α :=
  { g with ship := shipMoveR R g.screenWidth g.screenHeight (shipControlsR R M inp g.ship) }

/-- Part of `Update`, "shoot bullets", in rounded arithmetic. -/
def firePhaseR (R : α → α) (M : MathLib α) (inp : Input) (g : Game α) : Game α :=
  let bulletSpeedMultiplier : α := R 5.0
  if inp.keySpace then
    if g.bullets.length = 0 ∨ inp.now - g.lastBullet > timeSinceLastBullet then
      { g with
        bullets := g.bullets ++
          [{ x := g.ship.x, y := g.ship.y,
             dx := R (M.cos g.ship.angle * bulletSpeedMultiplier),
             dy := R (M.sin g.ship.angle * bulletSpeedMultiplier) }],
        lastBullet := inp.now }
    else g
  else g

/-- The loop of "update bullets", in rounded arithmetic. -/
def updateBulletsR (R : α → α) (screenWidth screenHeight : Int)
    (newBullets : List (Bullet α)) : List (Bullet α) → List (Bullet α)
  | [] => newBullets
  | bullet :: rest =>
    let bullet := { bullet with x := R (bullet.x + bullet.dx) }
    let bullet := { bullet with y := R (bullet.y + bullet.dy) }
    if bullet.x ≥ 0 ∧ bullet.x < R (screenWidth : α) ∧ bullet.y ≥ 0 ∧
        bullet.y < R (screenHeight : α) then
      updateBulletsR R screenWidth screenHeight (newBullets ++ [bullet]) rest
    else
      updateBulletsR R screenWidth screenHeight newBullets rest

/-- Part of `Update`, "update bullets", in rounded arithmetic. -/
def bulletPhaseR (R : α → α) (g : Game α) : Game α :=
  { g with bullets := updateBulletsR R g.screenWidth g.screenHeight [] g.bullets }

/-- Part of `Update`, "generate new asteroids", in rounded arithmetic. -/
def spawnPhaseR (R : α → α) (M : MathLib α) (inp : Input) (rng : Rng α) (g : Game α) :
    Game α × Rng α :=
  if inp.now - g.lastAsteroid > asteroidSpawnInterval then
    let (a, rng1) := newAsteroidR R M rng g.screenWidth g.screenHeight
    ({ g with asteroids := g.asteroids ++ [a], lastAsteroid := inp.now }, rng1)
  else (g, rng)

/-- The body of the loop of "update asteroids", in rounded arithmetic. -/
def moveAsteroidR (R : α → α) (screenWidth screenHeight : Int) (a : Asteroid α) :
    Asteroid α :=
  let a := { a with x := R (a.x + a.dx) }
  let a := { a with y := R (a.y + a.dy) }
  let a := { a with x := mathMod (R (a.x + R (screenWidth : α))) (R (screenWidth : α)) }
  let a := { a with y := mathMod (R (a.y + R (screenHeight : α))) (R (screenHeight : α)) }
  a

/-- Part of `Update`, "update asteroids", in rounded arithmetic. -/
def asteroidPhaseR (R : α → α) (g : Game α) : Game α :=
  { g with asteroids := g.asteroids.map (moveAsteroidR R g.screenWidth g.screenHeight) }

/-- The inner loop of "check collisions", in rounded arithmetic. -/
def innerLoopR (R : α → α) (M : MathLib α) (i : Nat) : Nat → Coll α → Option (Coll α)
  | 0, c => some c
  | j + 1, c =>
    match c.game.bullets[i]?, c.game.asteroids[j]? with
    | some b, some a =>
      if checkCollisionR R M b.x b.y a.x a.y a.radius then
        let bullets := c.game.bullets.take i ++ c.game.bullets.drop (i + 1)
        match splitAsteroidR R M j c.rng c.game.asteroids with
        | none => none
        | some (asteroids, rng) =>
          some { game := { c.game with bullets := bullets, asteroids := asteroids,
                                       score := wrapInt64 (c.game.score + 1) },
                 rng := rng, splits := c.splits ++ [j] }
      else innerLoopR R M i j c
    | _, _ => none

/-- The outer loop of "check collisions", in rounded arithmetic. -/
def outerLoopR (R : α → α) (M : MathLib α) : Nat → Coll α → Option (Coll α)
  | 0, c => some c
  | i + 1, c =>
    match innerLoopR R M i c.game.asteroids.length c with
    | none => none
    | some c1 => outerLoopR R M i c1

/-- Part of `Update`, "check collisions", in rounded arithmetic. -/
def collisionPhaseR (R : α → α) (M : MathLib α) (rng : Rng α) (g : Game α) :
    Option (Coll α) :=
  outerLoopR R M g.bullets.length { game := g, rng := rng, splits := [] }

/-- The loop of "game over if ship collides with an asteroid", in rounded
arithmetic: whether it sets `isGameOver`. -/
def shipHitR (R : α → α) (M : MathLib α) (s : Ship α) : List (Asteroid α) → Bool
  | [] => false
  | asteroid :: rest =>
    if checkCollisionR R M s.x s.y asteroid.x asteroid.y asteroid.radius then true
    else shipHitR R M s rest

/-- Part of `Update`, "game over if ship collides with an asteroid", in rounded
arithmetic. -/
def shipCollisionPhaseR (R : α → α) (M : MathLib α) (g : Game α) : Game α :=
  if shipHitR R M g.ship g.asteroids then { g with isGameOver := true } else g

/-- The state in which "check collisions" starts during a `Update` of a game
that is not over, in rounded arithmetic. -/
def beforeCollisionsR (R : α → α) (M : MathLib α) (inp : Input) (rng : Rng α)
    (g : Game α) : Game α × Rng α :=
  let g1 := shipPhaseR R M inp g
  let g2 := firePhaseR R M inp g1
  let g3 := bulletPhaseR R g2
  let r := spawnPhaseR R M inp rng g3
  (asteroidPhaseR R r.1, r.2)

/-- The method `Game.Update`, in rounded arithmetic. -/
def UpdateR (R : α → α) (M : MathLib α) (inp : Input) (rng : Rng α) (g : Game α) :
    Option (Game α × Rng α) :=
  if g.isGameOver then
    if inp.keyR then some (resetGameR R M rng g) else some (g, rng)
  else
    let r := beforeCollisionsR R M inp rng g
    match collisionPhaseR R M r.2 r.1 with
    | none => none
    | some c => some (shipCollisionPhaseR R M c.game, c.rng)

end Rounded

/-! ## The bullet motion as the specification words it -/

section SpecSide

variable {α : Type} [LinearOrderedField α]

/-- A bullet advanced by its velocity; the velocity is unchanged. -/
def specAdvance (b : Bullet α) : Bullet α :=
  { x := b.x + b.dx, y := b.y + b.dy, dx := b.dx, dy := b.dy }

/-- Whether a bullet lies in `[0, width) x [0, height)`. -/
def specOnScreen (screenWidth screenHeight : Int) (b : Bullet α) : Bool :=
  decide (0 ≤ b.x ∧ b.x < (screenWidth : α) ∧ 0 ≤ b.y ∧ b.y < (screenHeight : α))

/-- The bullets advanced by their velocity, filtered to those on the screen,
in the original order. -/
def specBulletMotion (screenWidth screenHeight : Int) (bullets : List (Bullet α)) :
    List (Bullet α) :=
  (bullets.map specAdvance).filter (specOnScreen screenWidth screenHeight)

/-- The bound on the ship that holds in every reachable state: a screen of at
least 21 x 21, the ship on the screen, and a speed of at most 20. -/
def shipBound (M : MathLib α) (g : Game α) : Prop :=
  21 ≤ g.screenWidth ∧ 21 ≤ g.screenHeight ∧
  (0 ≤ g.ship.x ∧ g.ship.x < (g.screenWidth : α)) ∧
  (0 ≤ g.ship.y ∧ g.ship.y < (g.screenHeight : α)) ∧
  M.sqrt (g.ship.velocityX * g.ship.velocityX + g.ship.velocityY * g.ship.velocityY) ≤ 20

/-! The collision resolution as one test per bullet. -/

/-- The state `c` with the bullets replaced by `bullets`. -/
def withBullets (bullets : List (Bullet α)) (c : Coll α) : Coll α :=
  { c with game := { c.game with bullets := bullets } }

/-- One test of a bullet: the asteroids of index below `n`, scanned from the
largest index down; the index of the first asteroid that contains the bullet. -/
def specScan (M : MathLib α) (b : Bullet α) (asteroids : List (Asteroid α)) :
    Nat → Option Nat
  | 0 => none
  | j + 1 =>
    match asteroids[j]? with
    | some a =>
      if checkCollision M b.x b.y a.x a.y a.radius then some j
      else specScan M b asteroids j
    | none => specScan M b asteroids j

/-- The effect of a hit on asteroid `j`, the removal of the bullet apart: the
asteroid is split, the score is incremented, the call is recorded. -/
def specHit (M : MathLib α) (j : Nat) (c : Coll α) : Coll α :=
  match splitAsteroid M j c.rng c.game.asteroids with
  | none => c
  | some r =>
    { game := { c.game with asteroids := r.1, score := wrapInt64 (c.game.score + 1) },
      rng := r.2, splits := c.splits ++ [j] }

/-- The resolution of a list of bullets, given in the order in which they are
tested: each bullet of the list is tested once, against the asteroids left by
the bullets before it; a bullet that hits is dropped, the others are kept.
Returns the kept bullets (in the same order) and the final state. -/
def specResolve (M : MathLib α) : List (Bullet α) → Coll α → List (Bullet α) × Coll α
  | [], c => ([], c)
  | b :: rest, c =>
    match specScan M b c.game.asteroids c.game.asteroids.length with
    | none => (b :: (specResolve M rest c).1, (specResolve M rest c).2)
    | some j => specResolve M rest (specHit M j c)

/-! Which bullets and asteroids a frame's collisions leave. -/

/-- Whether the bullet lies in none of the asteroids, by the collision test. -/
def hitsNone (M : MathLib α) (asteroids : List (Asteroid α)) (b : Bullet α) : Bool :=
  asteroids.all (fun a => !checkCollision M b.x b.y a.x a.y a.radius)

/-- Whether the asteroid contains none of the bullets, by the collision test. -/
def holdsNone (M : MathLib α) (bullets : List (Bullet α)) (a : Asteroid α) : Bool :=
  bullets.all (fun b => !checkCollision M b.x b.y a.x a.y a.radius)

/-- The asteroid list `B` comes from `A` by the calls `splitAsteroid j` for the
`j` of the list, in order: each call removes exactly the asteroid at its index,
which contains one of the bullets, keeps all the others unchanged and in order,
and appends `extra`, asteroids at the place of the removed one with half its
radius. -/
def hitChain (M : MathLib α) (bullets : List (Bullet α)) :
    List Nat → List (Asteroid α) → List (Asteroid α) → Prop
  | [], A, B => B = A
  | j :: js, A, B =>
    ∃ (h : j < A.length) (extra : List (Asteroid α)),
      (∃ b ∈ bullets, checkCollision M b.x b.y (A[j]).x (A[j]).y (A[j]).radius = true) ∧
      (∀ a ∈ extra, a.x = (A[j]).x ∧ a.y = (A[j]).y ∧ a.radius = (A[j]).radius / 2) ∧
      hitChain M bullets js (A.eraseIdx j ++ extra) B

end SpecSide

/-! ## Concrete inputs -/

section Concrete

variable (α : Type) [LinearOrderedField α]

/-- No key pressed, at time `now`. -/
def noKeys (now : Int) : Input :=
  { keyLeft := false, keyRight := false, keyUp := false, keyDown := false,
    keySpace := false, keyR := false, now := now }

/-- Only the fire key pressed, at time `now`. -/
def fireKey (now : Int) : Input :=
  { keyLeft := false, keyRight := false, keyUp := false, keyDown := false,
    keySpace := true, keyR := false, now := now }

/-- Only the restart key pressed, at time `now`. -/
def restartKey (now : Int) : Input :=
  { keyLeft := false, keyRight := false, keyUp := false, keyDown := false,
    keySpace := false, keyR := true, now := now }

/-- The random stream that always returns `0`. -/
def zeroRng : Rng α := fun _ => 0

/-- A game on the default 1720 x 1060 screen with the given ship, bullets,
asteroids and score, not over, both timestamps `0`. -/
def mkGame (ship : Ship α) (bullets : List (Bullet α)) (asteroids : List (Asteroid α))
    (score : Int) : Game α :=
  { ship := ship, bullets := bullets, asteroids := asteroids, score := score,
    isGameOver := false, screenWidth := 1720, screenHeight := 1060,
    lastBullet := 0, lastAsteroid := 0 }

/-- A ship at the left edge moving left by 1721 per frame, more than the screen
is wide. -/
def overshootGame : Game α :=
  mkGame α { x := 0, y := 0, angle := 0, velocityX := -1721, velocityY := 0 } [] [] 0

/-- A ship at rest at (400, 300) and one asteroid that leaves the screen at the
top left corner in the next frame. -/
def cornerGame : Game α :=
  mkGame α { x := 400, y := 300, angle := 0, velocityX := 0, velocityY := 0 } []
    [{ x := 1, y := 1, dx := -2, dy := -2, radius := 30 }] 0

/-- An asteroid at (100, 100) with velocity (3, 4) and the given radius. -/
def rock (radius : α) : Asteroid α :=
  { x := 100, y := 100, dx := 3, dy := 4, radius := radius }

/-- An asteroid at (500, 500) at rest, of radius 30. -/
def stillRock : Asteroid α :=
  { x := 500, y := 500, dx := 0, dy := 0, radius := 30 }

/-- A game that is over, on the default screen, with a moving ship, one bullet,
two asteroids and score 7. -/
def overGame : Game α :=
  { ship := { x := 10, y := 20, angle := 1, velocityX := 2, velocityY := -3 },
    bullets := [{ x := 5, y := 5, dx := 5, dy := 0 }],
    asteroids := [rock α 30, stillRock α],
    score := 7, isGameOver := true, screenWidth := 1720, screenHeight := 1060,
    lastBullet := 100, lastAsteroid := 200 }

/-- A ship at rest at (1718, 500), two units from the right edge, facing right;
no bullets, no asteroids. -/
def edgeGame : Game α :=
  mkGame α { x := 1718, y := 500, angle := 0, velocityX := 0, velocityY := 0 } [] [] 0

/-- A ship at rest at (400, 300), one bullet in flight fired at time
`1000000000`, no asteroids. -/
def flightGame : Game α :=
  { ship := { x := 400, y := 300, angle := 0, velocityX := 0, velocityY := 0 },
    bullets := [{ x := 405, y := 300, dx := 5, dy := 0 }],
    asteroids := [], score := 0, isGameOver := false,
    screenWidth := 1720, screenHeight := 1060,
    lastBullet := 1000000000, lastAsteroid := 0 }

/-- A ship at rest at (400, 300), one bullet that reaches (100, 100) in the
next frame, and one asteroid of radius 8 at rest at (100, 100); the score is
given. -/
def hitGame (score : Int) : Game α :=
  mkGame α { x := 400, y := 300, angle := 0, velocityX := 0, velocityY := 0 }
    [{ x := 95, y := 100, dx := 5, dy := 0 }]
    [{ x := 100, y := 100, dx := 0, dy := 0, radius := 8 }] score

/-- The state `hitGame` with a second asteroid, first in the list, of radius 30
at (500, 500) with velocity (3, 4), far from the bullet. -/
def passGame : Game α :=
  mkGame α { x := 400, y := 300, angle := 0, velocityX := 0, velocityY := 0 }
    [{ x := 95, y := 100, dx := 5, dy := 0 }]
    [{ x := 500, y := 500, dx := 3, dy := 4, radius := 30 },
     { x := 100, y := 100, dx := 0, dy := 0, radius := 8 }] 0

/-- All four direction keys pressed, at time `now`. -/
def allArrows (now : Int) : Input :=
  { keyLeft := true, keyRight := true, keyUp := true, keyDown := true,
    keySpace := false, keyR := false, now := now }

/-- A ship at rest at (400, 300) inside an asteroid of radius 30 at rest at the
same place; no bullets. -/
def crashGame : Game α :=
  mkGame α { x := 400, y := 300, angle := 0, velocityX := 0, velocityY := 0 } []
    [{ x := 400, y := 300, dx := 0, dy := 0, radius := 30 }] 0

/-- A ship at (400, 300) drifting right at 100 per frame; no bullets, no
asteroids. -/
def driftGame : Game α :=
  mkGame α { x := 400, y := 300, angle := 0, velocityX := 100, velocityY := 0 } [] [] 0

/-- The game `crashGame` with the last spawn at time `0`, seen at a later time. -/
def spawnDue : Input := noKeys 4000000000

/-- At the start of the collision loop: one bullet at (100, 100) that lies
inside the first asteroid (radius 30, same place) and inside the second
(radius 8, five units to the right), and outside the third. -/
def overlapGame : Game α :=
  mkGame α { x := 400, y := 300, angle := 0, velocityX := 0, velocityY := 0 }
    [{ x := 100, y := 100, dx := 5, dy := 0 }]
    [{ x := 100, y := 100, dx := 0, dy := 0, radius := 30 },
     { x := 105, y := 100, dx := 0, dy := 0, radius := 8 },
     { x := 500, y := 500, dx := 0, dy := 0, radius := 30 }] 0

/-- Only the thrust key pressed, at time `now`. -/
def thrustKey (now : Int) : Input :=
  { keyLeft := false, keyRight := false, keyUp := true, keyDown := false,
    keySpace := false, keyR := false, now := now }

end Concrete

/-! ## Concrete inputs for float64 arithmetic -/

section FloatStates

variable (α : Type) [LinearOrderedField α]

/-- The left and the right key pressed, at time `now`. -/
def bothTurns (now : Int) : Input :=
  { keyLeft := true, keyRight := true, keyUp := false, keyDown := false,
    keySpace := false, keyR := false, now := now }

/-- The thrust and the reverse key pressed, at time `now`. -/
def bothThrusts (now : Int) : Input :=
  { keyLeft := false, keyRight := false, keyUp := true, keyDown := true,
    keySpace := false, keyR := false, now := now }

/-- A ship at rest at (400, 300); no bullets, no asteroids. -/
def idleGame : Game α :=
  mkGame α { x := 400, y := 300, angle := 0, velocityX := 0, velocityY := 0 } [] [] 0

/-- A ship at rest whose distance to the centre of the only asteroid, at rest
at (0, 0), is exactly the radius of the asteroid: in units of `2^-20` the ship
is at (284718807, 379625076) and the radius is 474531345, and
`284718807^2 + 379625076^2 = 474531345^2`.  The three numbers are float64
values (271.529013633728, 362.0386848449707 and 452.5483560562134). -/
def grazeGame : Game α :=
  mkGame α { x := 284718807 / 1048576, y := 94906269 / 262144, angle := 0,
             velocityX := 0, velocityY := 0 } []
    [{ x := 0, y := 0, dx := 0, dy := 0, radius := 474531345 / 1048576 }] 0

/-- A ship at rest at (400, 300) whose angle is the float64 `0.01`; no bullets,
no asteroids. -/
def turnGame : Game α :=
  mkGame α { x := 400, y := 300, angle := 5764607523034235 / 576460752303423488,
             velocityX := 0, velocityY := 0 } [] [] 0

/-- A ship at (400, 300) with angle 0 whose velocity is the float64 `0.05` to
the right; no bullets, no asteroids. -/
def dampGame : Game α :=
  mkGame α { x := 400, y := 300, angle := 0,
             velocityX := 3602879701896397 / 72057594037927936, velocityY := 0 } [] [] 0

/-- The random stream whose second draw is `1 - 2^-53`, the largest float64
below 1, and whose other draws are 0. -/
def edgeRng : Rng α := fun n => if n = 1 then 1 - 1 / 2 ^ 53 else 0

/-- The random stream that always returns `2^-20`. -/
def smallRng : Rng α := fun _ => 1 / 2 ^ 20

end FloatStates

/-- The interpretation of package `math` in the real numbers.  The program
above is computable over any ordered field; only these library functions on
`ℝ` are not. -/
noncomputable def realMath : MathLib ℝ where
  sqrt := Real.sqrt
  cos := Real.cos
  sin := Real.sin
  pi := Real.pi

/-- Package `math` in float64: `math.Sqrt` is the correctly rounded square
root (IEEE 754 requires it), `math.Pi` is the float64 nearest to `π`, and
`math.Cos`, `math.Sin` are taken as the correctly rounded cosine and sine (the
theorems evaluate them only at 0 and at one small argument, where the library
returns these values). -/
noncomputable def float64Math : MathLib ℝ where
  sqrt := fun x => rnd64 (Real.sqrt x)
  cos := fun x => rnd64 (Real.cos x)
  sin := fun x => rnd64 (Real.sin x)
  pi := rnd64 Real.pi

/-! ## `math.Mod` -/

section ModLemmas

variable {α : Type} [LinearOrderedField α] [FloorRing α]

theorem trunc_of_nonneg {x : α} (h : 0 ≤ x) : trunc x = ((⌊x⌋ : Int) : α) := by
  simp [trunc, h]

theorem trunc_of_neg {x : α} (h : x < 0) : trunc x = ((⌈x⌉ : Int) : α) := by
  simp [trunc, not_le.mpr h]

/-- For a non-negative dividend `math.Mod` is the usual remainder. -/
theorem mathMod_of_nonneg {x w : α} (hw : 0 < w) (hx : 0 ≤ x) :
    0 ≤ mathMod x w ∧ mathMod x w < w := by
  have hq : 0 ≤ x / w := div_nonneg hx hw.le
  have h1 : ((⌊x / w⌋ : Int) : α) ≤ x / w := Int.floor_le _
  have h2 : x / w < ((⌊x / w⌋ : Int) : α) + 1 := Int.lt_floor_add_one _
  have hx' : x = w * (x / w) := by field_simp
  unfold mathMod
  rw [trunc_of_nonneg hq]
  constructor
  · have : w * ((⌊x / w⌋ : Int) : α) ≤ w * (x / w) := mul_le_mul_of_nonneg_left h1 hw.le
    linarith
  · have : w * (x / w) < w * (((⌊x / w⌋ : Int) : α) + 1) := mul_lt_mul_of_pos_left h2 hw
    linarith

/-- For a negative dividend the result of `math.Mod` is not positive. -/
theorem mathMod_of_neg {x w : α} (hw : 0 < w) (hx : x < 0) :
    -w < mathMod x w ∧ mathMod x w ≤ 0 := by
  have hq : x / w < 0 := div_neg_of_neg_of_pos hx hw
  have h1 : x / w ≤ ((⌈x / w⌉ : Int) : α) := Int.le_ceil _
  have h2 : ((⌈x / w⌉ : Int) : α) < x / w + 1 := Int.ceil_lt_add_one _
  have hx' : x = w * (x / w) := by field_simp
  unfold mathMod
  rw [trunc_of_neg hq]
  constructor
  · have : w * ((⌈x / w⌉ : Int) : α) < w * (x / w + 1) := mul_lt_mul_of_pos_left h2 hw
    linarith
  · have : w * (x / w) ≤ w * ((⌈x / w⌉ : Int) : α) := mul_le_mul_of_nonneg_left h1 hw.le
    linarith

/-- The wrap `math.Mod (x + w) w` lands in `[0, w)` when `x` is at least `-w`. -/
theorem wrap_in_range {x w : α} (hw : 0 < w) (hx : -w ≤ x) :
    0 ≤ mathMod (x + w) w ∧ mathMod (x + w) w < w :=
  mathMod_of_nonneg hw (by linarith)

/-- A dividend in `(-w, 0)` is returned unchanged. -/
theorem mathMod_small_neg {x w : α} (hw : 0 < w) (hx : x < 0) (hx' : -w < x) :
    mathMod x w = x := by
  have hq : x / w < 0 := div_neg_of_neg_of_pos hx hw
  have hq' : -1 < x / w := by
    rw [lt_div_iff₀ hw]; linarith
  have hc : ⌈x / w⌉ = 0 := by
    rw [Int.ceil_eq_iff]; constructor
    · simpa using hq'
    · simpa using hq.le
  unfold mathMod
  rw [trunc_of_neg hq, hc]; simp

/-- A position already in `[0, w)` is not changed by the wrap. -/
theorem mathMod_add_self_of_range {x w : α} (hw : 0 < w) (hx : 0 ≤ x) (hx' : x < w) :
    mathMod (x + w) w = x := by
  have hq : 0 ≤ (x + w) / w := div_nonneg (by linarith) hw.le
  have hf : ⌊(x + w) / w⌋ = 1 := by
    rw [Int.floor_eq_iff]
    constructor
    · rw [le_div_iff₀ hw]; push_cast; linarith
    · rw [div_lt_iff₀ hw]; push_cast; linarith
  unfold mathMod
  rw [trunc_of_nonneg hq, hf]; push_cast; ring

end ModLemmas

/-! ## The 64-bit score -/

theorem wrapInt64_of_range {n : Int} (h1 : minInt64 ≤ n) (h2 : n ≤ maxInt64) :
    wrapInt64 n = n := by
  unfold wrapInt64 minInt64 maxInt64 at *
  omega

theorem wrapInt64_add (a b : Int) : wrapInt64 (wrapInt64 a + b) = wrapInt64 (a + b) := by
  unfold wrapInt64
  omega

/-- Without overflow, `k` increments of the score add `k`. -/
theorem iterate_incr_of_range (k : Nat) : ∀ (s : Int), minInt64 ≤ s → s + k ≤ maxInt64 →
    (fun s => wrapInt64 (s + 1))^[k] s = s + k := by
  induction k with
  | zero => intro s _ _; simp
  | succ k ih =>
    intro s h1 h2
    have hs : wrapInt64 (s + 1) = s + 1 :=
      wrapInt64_of_range (by omega) (by push_cast at h2; omega)
    rw [Function.iterate_succ_apply, hs, ih (s + 1) (by omega) (by push_cast at h2 ⊢; omega)]
    push_cast; ring

/-! ## `splitAsteroid` and the collision loops -/

section LoopLemmas

variable {α : Type} [LinearOrderedField α]

theorem splitAsteroid_big (M : MathLib α) (index : Nat) (rng : Rng α)
    (asteroids : List (Asteroid α)) (h : index < asteroids.length)
    (hr : 10 < asteroids[index].radius) :
    splitAsteroid M index rng asteroids =
      some (asteroids.eraseIdx index ++ children M asteroids[index] (rng 0) (rng 1),
            fun n => rng (n + 2)) := by
  unfold splitAsteroid
  rw [List.getElem?_eq_getElem h]
  simp only [gt_iff_lt, hr, if_true, nextRand, children, List.eraseIdx_eq_take_drop_succ]

theorem splitAsteroid_small (M : MathLib α) (index : Nat) (rng : Rng α)
    (asteroids : List (Asteroid α)) (h : index < asteroids.length)
    (hr : asteroids[index].radius ≤ 10) :
    splitAsteroid M index rng asteroids = some (asteroids.eraseIdx index, rng) := by
  unfold splitAsteroid
  rw [List.getElem?_eq_getElem h]
  simp only [gt_iff_lt, not_lt.mpr hr, if_false, List.eraseIdx_eq_take_drop_succ]

theorem splitAsteroid_total (M : MathLib α) (index : Nat) (rng : Rng α)
    (asteroids : List (Asteroid α)) (h : index < asteroids.length) :
    ∃ r, splitAsteroid M index rng asteroids = some r := by
  rcases le_or_lt (asteroids[index].radius) 10 with hr | hr
  · exact ⟨_, splitAsteroid_small M index rng asteroids h hr⟩
  · exact ⟨_, splitAsteroid_big M index rng asteroids h hr⟩

theorem splitAsteroid_preserves (M : MathLib α) (P : Asteroid α → Prop)
    (hP : SplitClosed P) (index : Nat) (rng : Rng α) (asteroids : List (Asteroid α))
    (r : List (Asteroid α) × Rng α) (hall : ∀ a ∈ asteroids, P a)
    (hs : splitAsteroid M index rng asteroids = some r) : ∀ a ∈ r.1, P a := by
  have h : index < asteroids.length := by
    by_contra hc
    have : asteroids[index]? = none := List.getElem?_eq_none (not_lt.mp hc)
    simp [splitAsteroid, this] at hs
  have herase : ∀ a ∈ asteroids.eraseIdx index, P a := fun a ha =>
    hall a ((List.eraseIdx_sublist asteroids index).subset ha)
  have hpar : P asteroids[index] := hall _ (List.getElem_mem h)
  rcases le_or_lt (asteroids[index].radius) 10 with hr | hr
  · rw [splitAsteroid_small M index rng asteroids h hr] at hs
    cases hs
    exact herase
  · rw [splitAsteroid_big M index rng asteroids h hr] at hs
    cases hs
    intro a ha
    simp only [List.mem_append, children, List.mem_cons, List.mem_singleton,
      List.not_mem_nil, or_false] at ha
    rcases ha with ha | ha | ha
    · exact herase a ha
    · rw [ha]; exact hP _ _ _ hpar hr
    · rw [ha]; exact hP _ _ _ hpar hr

/-- The shape of the result of the inner loop: either no asteroid is hit and
nothing changes, or bullet `i` is removed, one asteroid `j` is split, and the
score is incremented. -/
theorem innerLoop_shape (M : MathLib α) (i : Nat) (c : Coll α)
    (hi : i < c.game.bullets.length) :
    ∀ n, n ≤ c.game.asteroids.length →
      innerLoop M i n c = some c ∨
      ∃ j asteroids rng, j < n ∧
        splitAsteroid M j c.rng c.game.asteroids = some (asteroids, rng) ∧
        innerLoop M i n c =
          some { game := { c.game with bullets := c.game.bullets.eraseIdx i,
                                       asteroids := asteroids,
                                       score := wrapInt64 (c.game.score + 1) },
                 rng := rng, splits := c.splits ++ [j] } := by
  intro n
  induction n with
  | zero => intro _; left; rfl
  | succ j ih =>
    intro hn
    have hj : j < c.game.asteroids.length := hn
    by_cases hc : checkCollision M (c.game.bullets[i]).x (c.game.bullets[i]).y
        (c.game.asteroids[j]).x (c.game.asteroids[j]).y (c.game.asteroids[j]).radius = true
    · right
      obtain ⟨r, hr⟩ := splitAsteroid_total M j c.rng c.game.asteroids hj
      refine ⟨j, r.1, r.2, Nat.lt_succ_self j, hr, ?_⟩
      simp only [innerLoop, List.getElem?_eq_getElem hi, List.getElem?_eq_getElem hj, hc,
        if_true, hr, List.eraseIdx_eq_take_drop_succ]
    · have hstep : innerLoop M i (j + 1) c = innerLoop M i j c := by
        simp only [innerLoop, List.getElem?_eq_getElem hi, List.getElem?_eq_getElem hj, hc]
        rfl
      rcases ih (Nat.le_of_succ_le hn) with h | ⟨k, asteroids, rng, hk, hs, h⟩
      · left; rw [hstep, h]
      · right
        exact ⟨k, asteroids, rng, Nat.lt_succ_of_lt hk, hs, by rw [hstep, h]⟩

/-- The inner loop when the asteroid it tests first is hit. -/
theorem innerLoop_hit (M : MathLib α) (i j : Nat) (c : Coll α) (b : Bullet α)
    (a : Asteroid α) (hb : c.game.bullets[i]? = some b) (ha : c.game.asteroids[j]? = some a)
    (hc : checkCollision M b.x b.y a.x a.y a.radius = true)
    (r : List (Asteroid α) × Rng α)
    (hs : splitAsteroid M j c.rng c.game.asteroids = some r) :
    innerLoop M i (j + 1) c =
      some { game := { c.game with
                       bullets := c.game.bullets.take i ++ c.game.bullets.drop (i + 1),
                       asteroids := r.1,
                       score := wrapInt64 (c.game.score + 1) },
             rng := r.2, splits := c.splits ++ [j] } := by
  simp only [innerLoop, hb, ha, hc, if_true, hs]

/-- One step of the inner loop when the asteroid tested is not hit. -/
theorem innerLoop_step_miss (M : MathLib α) (i j : Nat) (c : Coll α)
    (hi : i < c.game.bullets.length) (hj : j < c.game.asteroids.length)
    (hc : checkCollision M (c.game.bullets[i]).x (c.game.bullets[i]).y
      (c.game.asteroids[j]).x (c.game.asteroids[j]).y (c.game.asteroids[j]).radius = false) :
    innerLoop M i (j + 1) c = innerLoop M i j c := by
  simp only [innerLoop, List.getElem?_eq_getElem hi, List.getElem?_eq_getElem hj, hc]
  rfl

/-- The inner loop skips the asteroids that are not hit, down to index `j`. -/
theorem innerLoop_skip (M : MathLib α) (i j : Nat) (c : Coll α)
    (hi : i < c.game.bullets.length) :
    ∀ n, j ≤ n → n ≤ c.game.asteroids.length →
      (∀ k (hk : k < c.game.asteroids.length), j ≤ k → k < n →
        checkCollision M (c.game.bullets[i]).x (c.game.bullets[i]).y
          (c.game.asteroids[k]).x (c.game.asteroids[k]).y (c.game.asteroids[k]).radius
          = false) →
      innerLoop M i n c = innerLoop M i j c := by
  intro n
  induction n with
  | zero =>
    intro hjn _ _
    have : j = 0 := Nat.le_zero.mp hjn
    rw [this]
  | succ m ih =>
    intro hjn hn hmiss
    rcases Nat.eq_or_lt_of_le hjn with e | hlt
    · rw [e]
    · have hjm : j ≤ m := Nat.le_of_lt_succ hlt
      have hm : m < c.game.asteroids.length := hn
      rw [innerLoop_step_miss M i m c hi hm (hmiss m hm hjm (Nat.lt_succ_self m))]
      exact ih hjm (Nat.le_of_succ_le hn)
        (fun k hk h1 h2 => hmiss k hk h1 (Nat.lt_succ_of_lt h2))

/-- What the whole collision loop guarantees, for a property `P` of asteroids
that children inherit. -/
theorem outerLoop_spec (M : MathLib α) (P : Asteroid α → Prop) (hP : SplitClosed P) :
    ∀ (n : Nat) (c : Coll α), n ≤ c.game.bullets.length →
      (∀ a ∈ c.game.asteroids, P a) →
      ∃ c1, outerLoop M n c = some c1 ∧
        c1.game.ship = c.game.ship ∧
        c1.game.isGameOver = c.game.isGameOver ∧
        c1.game.screenWidth = c.game.screenWidth ∧
        c1.game.screenHeight = c.game.screenHeight ∧
        c1.game.lastBullet = c.game.lastBullet ∧
        c1.game.lastAsteroid = c.game.lastAsteroid ∧
        c1.game.bullets.Sublist c.game.bullets ∧
        (∃ calls, c1.splits = c.splits ++ calls ∧
          calls.length + c1.game.bullets.length = c.game.bullets.length ∧
          calls.length ≤ n ∧
          c1.game.score = (fun s => wrapInt64 (s + 1))^[calls.length] c.game.score) ∧
        (∀ a ∈ c1.game.asteroids, P a) := by
  intro n
  induction n with
  | zero =>
    intro c _ hall
    refine ⟨c, rfl, rfl, rfl, rfl, rfl, rfl, rfl, List.Sublist.refl _, ⟨[], ?_⟩, hall⟩
    exact ⟨by simp, by simp, by simp, rfl⟩
  | succ i ih =>
    intro c hn hall
    have hi : i < c.game.bullets.length := hn
    rcases innerLoop_shape M i c hi c.game.asteroids.length (le_refl _) with
      h | ⟨j, asteroids, rng, _, hs, h⟩
    · obtain ⟨c1, h1, hship, hover, hw, hh, hlb, hla, hsub, ⟨calls, hc1, hc2, hc3, hc4⟩, hall1⟩ :=
        ih c (Nat.le_of_succ_le hn) hall
      refine ⟨c1, ?_, hship, hover, hw, hh, hlb, hla, hsub,
        ⟨calls, hc1, hc2, Nat.le_succ_of_le hc3, hc4⟩, hall1⟩
      simp only [outerLoop, h, h1]
    · have hall2 := splitAsteroid_preserves M P hP j c.rng c.game.asteroids _ hall hs
      have hlen : (c.game.bullets.eraseIdx i).length = c.game.bullets.length - 1 :=
        by rw [List.length_eraseIdx, if_pos hi]
      obtain ⟨c1, h1, hship, hover, hw, hh, hlb, hla, hsub, ⟨calls, hc1, hc2, hc3, hc4⟩, hall1⟩ :=
        ih { game := { c.game with bullets := c.game.bullets.eraseIdx i,
                                   asteroids := asteroids,
                                   score := wrapInt64 (c.game.score + 1) },
             rng := rng, splits := c.splits ++ [j] }
          (show i ≤ (c.game.bullets.eraseIdx i).length by rw [hlen]; omega) hall2
      refine ⟨c1, ?_, hship, hover, hw, hh, hlb, hla,
        hsub.trans (List.eraseIdx_sublist _ _), ⟨j :: calls, ?_, ?_, ?_, ?_⟩, hall1⟩
      · simp only [outerLoop, h, h1]
      · rw [hc1]; simp
      · simp only [List.length_cons]; rw [hlen] at hc2; omega
      · simp only [List.length_cons]; omega
      · rw [hc4]; simp only [List.length_cons, Function.iterate_succ_apply]

/-- What `splitAsteroid` returns is the list without the element at `index`,
followed by what it appends. -/
theorem splitAsteroid_result (M : MathLib α) (index : Nat) (rng : Rng α)
    (asteroids : List (Asteroid α)) (r : List (Asteroid α) × Rng α)
    (hs : splitAsteroid M index rng asteroids = some r) :
    index < asteroids.length ∧ ∃ extra, r.1 = asteroids.eraseIdx index ++ extra := by
  have h : index < asteroids.length := by
    by_contra hc
    have : asteroids[index]? = none := List.getElem?_eq_none (not_lt.mp hc)
    simp [splitAsteroid, this] at hs
  refine ⟨h, ?_⟩
  rcases le_or_lt (asteroids[index].radius) 10 with hr | hr
  · rw [splitAsteroid_small M index rng asteroids h hr] at hs
    cases hs
    exact ⟨[], by simp⟩
  · rw [splitAsteroid_big M index rng asteroids h hr] at hs
    cases hs
    exact ⟨_, rfl⟩

/-- The asteroids after the collision loop: a part of the asteroids it started
with, unchanged and in order, followed by asteroids created by splits; without
any call of `splitAsteroid` the asteroids are unchanged. -/
theorem outerLoop_asteroids (M : MathLib α) (L : List (Asteroid α)) :
    ∀ (n : Nat) (c c1 : Coll α), n ≤ c.game.bullets.length →
      outerLoop M n c = some c1 →
      ((∃ s f, c.game.asteroids = s ++ f ∧ s.Sublist L ∧
          L.length ≤ s.length + c.splits.length) →
        ∃ s f, c1.game.asteroids = s ++ f ∧ s.Sublist L ∧
          L.length ≤ s.length + c1.splits.length) ∧
      c.splits.length ≤ c1.splits.length ∧
      (c1.splits.length = c.splits.length → c1.game.asteroids = c.game.asteroids) := by
  intro n
  induction n with
  | zero =>
    intro c c1 _ h
    have e : c1 = c := (Option.some.inj h).symm
    subst e
    exact ⟨fun h => h, le_refl _, fun _ => rfl⟩
  | succ i ih =>
    intro c c1 hn h
    have hi : i < c.game.bullets.length := hn
    rcases innerLoop_shape M i c hi c.game.asteroids.length (le_refl _) with
      h1 | ⟨j, asteroids, rng, _, hs, h1⟩
    · have h2 : outerLoop M i c = some c1 := by
        simpa only [outerLoop, h1] using h
      exact ih c c1 (Nat.le_of_succ_le hn) h2
    · have h2 : outerLoop M i
          { game := { c.game with bullets := c.game.bullets.eraseIdx i,
                                  asteroids := asteroids,
                                  score := wrapInt64 (c.game.score + 1) },
            rng := rng, splits := c.splits ++ [j] } = some c1 := by
        simpa only [outerLoop, h1] using h
      have hlen : (c.game.bullets.eraseIdx i).length = c.game.bullets.length - 1 := by
        rw [List.length_eraseIdx, if_pos hi]
      obtain ⟨k1, k2, -⟩ := ih _ c1
        (show i ≤ (c.game.bullets.eraseIdx i).length by rw [hlen]; omega) h2
      obtain ⟨hj, extra, hex⟩ := splitAsteroid_result M j c.rng c.game.asteroids _ hs
      have k2' : c.splits.length + 1 ≤ c1.splits.length := by
        simpa using k2
      refine ⟨?_, by omega, fun hc => by omega⟩
      rintro ⟨s, f, hsf, hsub, hcount⟩
      apply k1
      show ∃ s f, asteroids = s ++ f ∧ s.Sublist L ∧
        L.length ≤ s.length + (c.splits ++ [j]).length
      have hex' : asteroids = c.game.asteroids.eraseIdx j ++ extra := hex
      rw [hex', hsf]
      rcases lt_or_le j s.length with hjs | hjs
      · rw [List.eraseIdx_append_of_lt_length hjs, List.append_assoc]
        refine ⟨_, _, rfl, (List.eraseIdx_sublist s j).trans hsub, ?_⟩
        rw [List.length_eraseIdx, if_pos hjs, List.length_append]
        simp only [List.length_cons, List.length_nil]
        omega
      · rw [List.eraseIdx_append_of_length_le hjs, List.append_assoc]
        refine ⟨_, _, rfl, hsub, ?_⟩
        rw [List.length_append]
        simp only [List.length_cons, List.length_nil]
        omega

theorem specScan_lt (M : MathLib α) (b : Bullet α) (asteroids : List (Asteroid α)) :
    ∀ n j, specScan M b asteroids n = some j → j < n := by
  intro n
  induction n with
  | zero => intro j h; simp [specScan] at h
  | succ m ih =>
    intro j h
    unfold specScan at h
    split at h
    · split_ifs at h
      · have : m = j := Option.some.inj h
        omega
      · exact Nat.lt_succ_of_lt (ih j h)
    · exact Nat.lt_succ_of_lt (ih j h)

/-- The inner loop is one scan of the asteroids for the bullet at index `i`. -/
theorem innerLoop_eq_scan (M : MathLib α) (i : Nat) (c : Coll α)
    (hi : i < c.game.bullets.length) :
    ∀ n, n ≤ c.game.asteroids.length →
      (specScan M (c.game.bullets[i]) c.game.asteroids n = none →
        innerLoop M i n c = some c) ∧
      (∀ j, specScan M (c.game.bullets[i]) c.game.asteroids n = some j →
        innerLoop M i n c =
          some (withBullets (c.game.bullets.take i ++ c.game.bullets.drop (i + 1))
            (specHit M j c))) := by
  intro n
  induction n with
  | zero =>
    intro _
    exact ⟨fun _ => rfl, fun j h => by simp [specScan] at h⟩
  | succ m ih =>
    intro hn
    have hm : m < c.game.asteroids.length := hn
    by_cases hc : checkCollision M (c.game.bullets[i]).x (c.game.bullets[i]).y
        (c.game.asteroids[m]).x (c.game.asteroids[m]).y (c.game.asteroids[m]).radius = true
    · have hscan : specScan M (c.game.bullets[i]) c.game.asteroids (m + 1) = some m := by
        simp only [specScan, List.getElem?_eq_getElem hm, hc, if_true]
      refine ⟨fun h => (by rw [hscan] at h; cases h), fun j h => ?_⟩
      rw [hscan] at h
      have hj : m = j := Option.some.inj h
      subst hj
      obtain ⟨r, hr⟩ := splitAsteroid_total M m c.rng c.game.asteroids hm
      rw [innerLoop_hit M i m c _ _ (List.getElem?_eq_getElem hi)
        (List.getElem?_eq_getElem hm) hc r hr]
      simp only [withBullets, specHit, hr]
    · have hc' : checkCollision M (c.game.bullets[i]).x (c.game.bullets[i]).y
          (c.game.asteroids[m]).x (c.game.asteroids[m]).y (c.game.asteroids[m]).radius
          = false := by simpa using hc
      have hscan : specScan M (c.game.bullets[i]) c.game.asteroids (m + 1) =
          specScan M (c.game.bullets[i]) c.game.asteroids m := by
        simp only [specScan, List.getElem?_eq_getElem hm, hc', Bool.false_eq_true, if_false]
      rw [hscan, innerLoop_step_miss M i m c hi hm hc']
      exact ih (Nat.le_of_succ_le hn)

theorem specHit_withBullets (M : MathLib α) (j : Nat) (bullets : List (Bullet α))
    (c : Coll α) :
    specHit M j (withBullets bullets c) = withBullets bullets (specHit M j c) := by
  unfold specHit withBullets
  cases splitAsteroid M j c.rng c.game.asteroids <;> rfl

/-- The resolution does not read the bullets of the state, and leaves them. -/
theorem specResolve_withBullets (M : MathLib α) (bullets : List (Bullet α)) :
    ∀ (l : List (Bullet α)) (c : Coll α),
      specResolve M l (withBullets bullets c) =
        ((specResolve M l c).1, withBullets bullets (specResolve M l c).2) := by
  intro l
  induction l with
  | nil => intro c; rfl
  | cons b rest ih =>
    intro c
    have ea : (withBullets bullets c).game.asteroids = c.game.asteroids := rfl
    cases hs : specScan M b c.game.asteroids c.game.asteroids.length with
    | none =>
      simp only [specResolve, ea, hs, ih]
    | some j =>
      simp only [specResolve, ea, hs, specHit_withBullets, ih]

theorem withBullets_withBullets (b1 b2 : List (Bullet α)) (c : Coll α) :
    withBullets b1 (withBullets b2 c) = withBullets b1 c := rfl

theorem withBullets_self (c : Coll α) : withBullets c.game.bullets c = c := rfl

/-- The collision loops refine the resolution by one test per bullet: with
`n` bullets to go, the loop is the resolution of the bullets of index below
`n`, last first, and the bullets from `n` on stay. -/
theorem outerLoop_refines (M : MathLib α) :
    ∀ (n : Nat) (c : Coll α), n ≤ c.game.bullets.length →
      outerLoop M n c =
        some (withBullets
          ((specResolve M (c.game.bullets.take n).reverse c).1.reverse ++
            c.game.bullets.drop n)
          (specResolve M (c.game.bullets.take n).reverse c).2) := by
  intro n
  induction n with
  | zero =>
    intro c _
    simp only [outerLoop, List.take_zero, List.reverse_nil, specResolve, List.nil_append,
      List.drop_zero, withBullets_self]
  | succ i ih =>
    intro c hn
    have hi : i < c.game.bullets.length := hn
    have htake : (c.game.bullets.take (i + 1)).reverse =
        c.game.bullets[i] :: (c.game.bullets.take i).reverse := by
      rw [List.take_succ, List.getElem?_eq_getElem hi]
      simp
    have hdrop : c.game.bullets.drop i = c.game.bullets[i] :: c.game.bullets.drop (i + 1) :=
      List.drop_eq_getElem_cons hi
    obtain ⟨hnone, hsome⟩ := innerLoop_eq_scan M i c hi c.game.asteroids.length (le_refl _)
    cases hs : specScan M (c.game.bullets[i]) c.game.asteroids c.game.asteroids.length with
    | none =>
      simp only [outerLoop, hnone hs, ih c (Nat.le_of_succ_le hn), htake, specResolve, hs,
        List.reverse_cons, List.append_assoc, List.singleton_append, hdrop]
    | some j =>
      have hlen : (c.game.bullets.take i ++ c.game.bullets.drop (i + 1)).length =
          c.game.bullets.length - 1 := by
        rw [← List.eraseIdx_eq_take_drop_succ, List.length_eraseIdx, if_pos hi]
      have hti : (c.game.bullets.take i ++ c.game.bullets.drop (i + 1)).take i =
          c.game.bullets.take i := by
        rw [List.take_append_of_le_length (by rw [List.length_take]; omega)]
        rw [List.take_take]; simp
      have hdi : (c.game.bullets.take i ++ c.game.bullets.drop (i + 1)).drop i =
          c.game.bullets.drop (i + 1) := by
        have hl : (c.game.bullets.take i).length = i := by
          rw [List.length_take]; omega
        rw [List.drop_append_of_le_length (by omega)]
        rw [List.drop_of_length_le (by omega)]
        rfl
      have hb1 : (withBullets (c.game.bullets.take i ++ c.game.bullets.drop (i + 1))
          (specHit M j c)).game.bullets =
          c.game.bullets.take i ++ c.game.bullets.drop (i + 1) := rfl
      have hih := ih (withBullets (c.game.bullets.take i ++ c.game.bullets.drop (i + 1))
        (specHit M j c)) (by rw [hb1, hlen]; omega)
      rw [hb1, hti, hdi, specResolve_withBullets] at hih
      simp only [outerLoop, hsome j hs, hih, htake, specResolve, hs, withBullets_withBullets]

end LoopLemmas

/-! ## The phases of `Update` -/

section PhaseLemmas

variable {α : Type} [LinearOrderedField α] [FloorRing α]

theorem firePhase_frame (M : MathLib α) (inp : Input) (g : Game α) :
    (firePhase M inp g).ship = g.ship ∧
    (firePhase M inp g).asteroids = g.asteroids ∧
    (firePhase M inp g).score = g.score ∧
    (firePhase M inp g).isGameOver = g.isGameOver ∧
    (firePhase M inp g).screenWidth = g.screenWidth ∧
    (firePhase M inp g).screenHeight = g.screenHeight ∧
    (firePhase M inp g).lastAsteroid = g.lastAsteroid := by
  unfold firePhase
  split_ifs <;> simp

theorem spawnPhase_frame (M : MathLib α) (inp : Input) (rng : Rng α) (g : Game α) :
    (spawnPhase M inp rng g).1.ship = g.ship ∧
    (spawnPhase M inp rng g).1.bullets = g.bullets ∧
    (spawnPhase M inp rng g).1.score = g.score ∧
    (spawnPhase M inp rng g).1.isGameOver = g.isGameOver ∧
    (spawnPhase M inp rng g).1.screenWidth = g.screenWidth ∧
    (spawnPhase M inp rng g).1.screenHeight = g.screenHeight ∧
    (spawnPhase M inp rng g).1.lastBullet = g.lastBullet := by
  unfold spawnPhase
  split_ifs <;> simp

/-- The asteroids after the spawn phase depend only on the asteroids, the spawn
time and the screen. -/
theorem spawnPhase_asteroids (M : MathLib α) (inp : Input) (rng : Rng α) (g g1 : Game α)
    (h1 : g1.asteroids = g.asteroids) (h2 : g1.lastAsteroid = g.lastAsteroid)
    (h3 : g1.screenWidth = g.screenWidth) (h4 : g1.screenHeight = g.screenHeight) :
    (spawnPhase M inp rng g1).1.asteroids = (spawnPhase M inp rng g).1.asteroids ∧
    (spawnPhase M inp rng g1).1.lastAsteroid = (spawnPhase M inp rng g).1.lastAsteroid ∧
    (spawnPhase M inp rng g1).2 = (spawnPhase M inp rng g).2 := by
  simp only [spawnPhase, h1, h2, h3, h4]
  split_ifs <;> simp [h1, h2]

/-- The fields of the state in which the collision loop starts. -/
theorem beforeCollisions_fields (M : MathLib α) (inp : Input) (rng : Rng α) (g : Game α) :
    (beforeCollisions M inp rng g).1.ship =
      shipMove g.screenWidth g.screenHeight (shipControls M inp g.ship) ∧
    (beforeCollisions M inp rng g).1.bullets =
      updateBullets g.screenWidth g.screenHeight []
        (firePhase M inp (shipPhase M inp g)).bullets ∧
    (beforeCollisions M inp rng g).1.asteroids =
      (spawnPhase M inp rng g).1.asteroids.map
        (moveAsteroid g.screenWidth g.screenHeight) ∧
    (beforeCollisions M inp rng g).1.score = g.score ∧
    (beforeCollisions M inp rng g).1.isGameOver = g.isGameOver ∧
    (beforeCollisions M inp rng g).1.screenWidth = g.screenWidth ∧
    (beforeCollisions M inp rng g).1.screenHeight = g.screenHeight ∧
    (beforeCollisions M inp rng g).1.lastBullet =
      (firePhase M inp (shipPhase M inp g)).lastBullet ∧
    (beforeCollisions M inp rng g).1.lastAsteroid = (spawnPhase M inp rng g).1.lastAsteroid ∧
    (beforeCollisions M inp rng g).2 = (spawnPhase M inp rng g).2 := by
  obtain ⟨f1, f2, f3, f4, f5, f6, f7⟩ := firePhase_frame M inp (shipPhase M inp g)
  obtain ⟨s1, s2, s3, s4, s5, s6, s7⟩ :=
    spawnPhase_frame M inp rng (bulletPhase (firePhase M inp (shipPhase M inp g)))
  obtain ⟨a1, a2, a3⟩ := spawnPhase_asteroids M inp rng g
    (bulletPhase (firePhase M inp (shipPhase M inp g)))
    (f2.trans rfl) (f7.trans rfl) (f5.trans rfl) (f6.trans rfl)
  simp only [beforeCollisions, asteroidPhase]
  refine ⟨?_, ?_, ?_, ?_, ?_, ?_, ?_, ?_, ?_, ?_⟩
  · exact s1.trans (f1.trans rfl)
  · have e5 : (bulletPhase (firePhase M inp (shipPhase M inp g))).bullets =
        updateBullets (firePhase M inp (shipPhase M inp g)).screenWidth
          (firePhase M inp (shipPhase M inp g)).screenHeight []
          (firePhase M inp (shipPhase M inp g)).bullets := rfl
    rw [s2, e5, f5, f6]; rfl
  · rw [a1, s5, s6]
    have e5 : (bulletPhase (firePhase M inp (shipPhase M inp g))).screenWidth =
        g.screenWidth := f5.trans rfl
    have e6 : (bulletPhase (firePhase M inp (shipPhase M inp g))).screenHeight =
        g.screenHeight := f6.trans rfl
    rw [e5, e6]
  · exact s3.trans (f3.trans rfl)
  · exact s4.trans (f4.trans rfl)
  · exact s5.trans (f5.trans rfl)
  · exact s6.trans (f6.trans rfl)
  · exact s7.trans rfl
  · exact a2
  · exact a3

theorem shipCollisionPhase_frame (M : MathLib α) (g : Game α) :
    (shipCollisionPhase M g).ship = g.ship ∧
    (shipCollisionPhase M g).bullets = g.bullets ∧
    (shipCollisionPhase M g).asteroids = g.asteroids ∧
    (shipCollisionPhase M g).score = g.score ∧
    (shipCollisionPhase M g).screenWidth = g.screenWidth ∧
    (shipCollisionPhase M g).screenHeight = g.screenHeight ∧
    (shipCollisionPhase M g).lastBullet = g.lastBullet ∧
    (shipCollisionPhase M g).lastAsteroid = g.lastAsteroid := by
  unfold shipCollisionPhase
  split_ifs <;> simp

/-- A `Update` of a game that is not over runs the collision loop to its end,
and returns the state after the ship test. -/
theorem Update_playing (M : MathLib α) (P : Asteroid α → Prop) (hP : SplitClosed P)
    (inp : Input) (rng : Rng α) (g : Game α) (hg : g.isGameOver = false)
    (hall : ∀ a ∈ (beforeCollisions M inp rng g).1.asteroids, P a) :
    ∃ c, collisionPhase M (beforeCollisions M inp rng g).2 (beforeCollisions M inp rng g).1
          = some c ∧
      Update M inp rng g = some (shipCollisionPhase M c.game, c.rng) ∧
      c.game.ship = (beforeCollisions M inp rng g).1.ship ∧
      c.game.isGameOver = false ∧
      c.game.lastBullet = (beforeCollisions M inp rng g).1.lastBullet ∧
      c.game.lastAsteroid = (beforeCollisions M inp rng g).1.lastAsteroid ∧
      c.game.screenWidth = g.screenWidth ∧
      c.game.screenHeight = g.screenHeight ∧
      c.game.bullets.Sublist (beforeCollisions M inp rng g).1.bullets ∧
      c.splits.length + c.game.bullets.length =
        (beforeCollisions M inp rng g).1.bullets.length ∧
      c.game.score = (fun s => wrapInt64 (s + 1))^[c.splits.length] g.score ∧
      (∀ a ∈ c.game.asteroids, P a) := by
  obtain ⟨c, hc, hship, hover, hw, hh, hlb, hla, hsub, ⟨calls, hc1, hc2, -, hc4⟩, hall1⟩ :=
    outerLoop_spec M P hP (beforeCollisions M inp rng g).1.bullets.length
      { game := (beforeCollisions M inp rng g).1, rng := (beforeCollisions M inp rng g).2,
        splits := [] } (le_refl _) hall
  obtain ⟨-, -, -, b4, b5, b6, b7, -, -, -⟩ := beforeCollisions_fields M inp rng g
  have hcalls : c.splits = calls := by simpa using hc1
  refine ⟨c, hc, ?_, hship, ?_, hlb, hla, ?_, ?_, hsub, ?_, ?_, hall1⟩
  · have hc' : collisionPhase M (beforeCollisions M inp rng g).2
        (beforeCollisions M inp rng g).1 = some c := hc
    simp only [Update, hg, Bool.false_eq_true, if_false, hc']
  · rw [hover]; exact b5.trans hg
  · rw [hw]; exact b6
  · rw [hh]; exact b7
  · rw [hcalls]; exact hc2
  · rw [hcalls, hc4]; simp only [b4]

/-- The loop of "update bullets" computes the advanced bullets that are on the
screen, after what `newBullets` held. -/
theorem updateBullets_eq (w h : Int) (bullets newBullets : List (Bullet α)) :
    updateBullets w h newBullets bullets = newBullets ++ specBulletMotion w h bullets := by
  induction bullets generalizing newBullets with
  | nil => simp [updateBullets, specBulletMotion]
  | cons b rest ih =>
    by_cases hb : (b.x + b.dx ≥ 0 ∧ b.x + b.dx < (w : α) ∧ b.y + b.dy ≥ 0 ∧
        b.y + b.dy < (h : α))
    · have hs : specOnScreen w h (specAdvance b) = true := by
        simpa [specOnScreen, specAdvance] using hb
      have e : updateBullets w h newBullets (b :: rest) =
          updateBullets w h (newBullets ++ [specAdvance b]) rest := by
        simp only [updateBullets, hb, and_self, if_true, specAdvance]
      rw [e, ih]
      simp [specBulletMotion, List.filter_cons, hs]
    · have hs : specOnScreen w h (specAdvance b) = false := by
        rw [Bool.eq_false_iff]
        intro hc
        apply hb
        simpa [specOnScreen, specAdvance] using hc
      have e : updateBullets w h newBullets (b :: rest) =
          updateBullets w h newBullets rest := by
        simp only [updateBullets, hb, if_false]
      rw [e, ih]
      simp [specBulletMotion, List.filter_cons, hs]

end PhaseLemmas

/-! ## Which bullets and asteroids the collision loops leave -/

section ResolveLemmas

variable {α : Type} [LinearOrderedField α]

/-- Removing an element that fails `p` does not change the filter by `p`. -/
theorem filter_eraseIdx_of_false {β : Type} (p : β → Bool) :
    ∀ (l : List β) (j : Nat) (h : j < l.length), p (l[j]) = false →
      (l.eraseIdx j).filter p = l.filter p := by
  intro l
  induction l with
  | nil => intro j h; simp at h
  | cons a rest ih =>
    intro j h hp
    cases j with
    | zero =>
      have hp' : p a = false := hp
      simp [List.eraseIdx, List.filter_cons, hp']
    | succ k =>
      have hk : k < rest.length := Nat.lt_of_succ_lt_succ h
      have hp' : p (rest[k]) = false := hp
      simp only [List.eraseIdx_cons_succ, List.filter_cons, ih k hk hp']

/-- The asteroids that `splitAsteroid` appends sit at the place of the removed
one and have half its radius. -/
theorem splitAsteroid_children (M : MathLib α) (index : Nat) (rng : Rng α)
    (asteroids : List (Asteroid α)) (r : List (Asteroid α) × Rng α)
    (hs : splitAsteroid M index rng asteroids = some r) :
    ∃ (h : index < asteroids.length) (extra : List (Asteroid α)),
      r.1 = asteroids.eraseIdx index ++ extra ∧
      ∀ a ∈ extra, a.x = (asteroids[index]).x ∧ a.y = (asteroids[index]).y ∧
        a.radius = (asteroids[index]).radius / 2 := by
  have h : index < asteroids.length := (splitAsteroid_result M index rng asteroids r hs).1
  refine ⟨h, ?_⟩
  rcases le_or_lt (asteroids[index].radius) 10 with hr | hr
  · rw [splitAsteroid_small M index rng asteroids h hr] at hs
    cases hs
    exact ⟨[], by simp, by simp⟩
  · rw [splitAsteroid_big M index rng asteroids h hr] at hs
    cases hs
    refine ⟨_, rfl, ?_⟩
    intro a ha
    simp only [children, List.mem_cons, List.mem_singleton, List.not_mem_nil, or_false] at ha
    rcases ha with ha | ha <;> rw [ha] <;> exact ⟨rfl, rfl, rfl⟩

/-- A scan that finds an index finds a valid one, of an asteroid that contains
the bullet. -/
theorem specScan_hit (M : MathLib α) (b : Bullet α) (asteroids : List (Asteroid α)) :
    ∀ n, n ≤ asteroids.length → ∀ j, specScan M b asteroids n = some j →
      ∃ h : j < asteroids.length,
        checkCollision M b.x b.y (asteroids[j]).x (asteroids[j]).y
          (asteroids[j]).radius = true := by
  intro n
  induction n with
  | zero => intro _ j h; simp [specScan] at h
  | succ m ih =>
    intro hn j h
    have hm : m < asteroids.length := hn
    by_cases hc : checkCollision M b.x b.y (asteroids[m]).x (asteroids[m]).y
        (asteroids[m]).radius = true
    · have hscan : specScan M b asteroids (m + 1) = some m := by
        simp only [specScan, List.getElem?_eq_getElem hm, hc, if_true]
      rw [hscan] at h
      have hj : m = j := Option.some.inj h
      subst hj
      exact ⟨hm, hc⟩
    · have hscan : specScan M b asteroids (m + 1) = specScan M b asteroids m := by
        simp only [specScan, List.getElem?_eq_getElem hm, hc, Bool.false_eq_true, if_false]
      rw [hscan] at h
      exact ih (Nat.le_of_succ_le hn) j h

/-- An asteroid at the same place with a radius at least as large contains
every point that the smaller one contains. -/
theorem checkCollision_of_le (M : MathLib α) (b : Bullet α) (a a0 : Asteroid α)
    (hx : a.x = a0.x) (hy : a.y = a0.y) (hr : a.radius ≤ a0.radius)
    (h : checkCollision M b.x b.y a.x a.y a.radius = true) :
    checkCollision M b.x b.y a0.x a0.y a0.radius = true := by
  simp only [checkCollision, decide_eq_true_eq] at h ⊢
  rw [← hx, ← hy]
  exact lt_of_lt_of_le h hr

theorem hitsNone_false (M : MathLib α) (asteroids : List (Asteroid α)) (b : Bullet α)
    (a : Asteroid α) (ha : a ∈ asteroids)
    (h : checkCollision M b.x b.y a.x a.y a.radius = true) :
    hitsNone M asteroids b = false := by
  rw [Bool.eq_false_iff]
  intro hall
  have := List.all_eq_true.mp hall a ha
  simp [h] at this

theorem holdsNone_false (M : MathLib α) (bullets : List (Bullet α)) (a : Asteroid α)
    (b : Bullet α) (hb : b ∈ bullets)
    (h : checkCollision M b.x b.y a.x a.y a.radius = true) :
    holdsNone M bullets a = false := by
  rw [Bool.eq_false_iff]
  intro hall
  have := List.all_eq_true.mp hall b hb
  simp [h] at this

/-- Asteroids that descend from `A0`: at the place of one of `A0`, with at most
its radius. -/
theorem descends_splitClosed (A0 : List (Asteroid α)) :
    SplitClosed (fun a : Asteroid α =>
      ∃ a0 ∈ A0, a.x = a0.x ∧ a.y = a0.y ∧ a.radius ≤ a0.radius) := by
  intro a dx dy h hr
  obtain ⟨a0, h0, hx, hy, hle⟩ := h
  refine ⟨a0, h0, hx, hy, ?_⟩
  show a.radius / 2 ≤ a0.radius
  have : (0 : α) < a.radius := lt_trans (by norm_num) hr
  linarith [half_le_self this.le]

/-- What the resolution by one test per bullet does to the bullets `l` and to
the asteroids, for bullets among `L` and asteroids that descend from `A0`:
the calls it adds form a chain of hits; every bullet that lies in no asteroid
of `A0` is kept; every asteroid that contains no bullet of `L` is kept. -/
theorem specResolve_spec (M : MathLib α) (L : List (Bullet α)) (A0 : List (Asteroid α)) :
    ∀ (l : List (Bullet α)) (c : Coll α), (∀ b ∈ l, b ∈ L) →
      (∀ a ∈ c.game.asteroids, ∃ a0 ∈ A0, a.x = a0.x ∧ a.y = a0.y ∧ a.radius ≤ a0.radius) →
      (∃ calls, (specResolve M l c).2.splits = c.splits ++ calls ∧
        calls.length + (specResolve M l c).1.length = l.length ∧
        hitChain M L calls c.game.asteroids (specResolve M l c).2.game.asteroids) ∧
      (l.filter (hitsNone M A0)).Sublist (specResolve M l c).1 ∧
      (c.game.asteroids.filter (holdsNone M L)).Sublist
        (specResolve M l c).2.game.asteroids := by
  intro l
  induction l with
  | nil =>
    intro c _ _
    refine ⟨⟨[], by simp [specResolve], by simp [specResolve], ?_⟩, ?_, ?_⟩
    · show (specResolve M [] c).2.game.asteroids = c.game.asteroids
      rfl
    · simp [specResolve]
    · exact List.filter_sublist _
  | cons b rest ih =>
    intro c hl hinv
    have hrest : ∀ b' ∈ rest, b' ∈ L := fun b' hb' => hl b' (List.mem_cons_of_mem _ hb')
    have hbL : b ∈ L := hl b (List.mem_cons_self _ _)
    cases hs : specScan M b c.game.asteroids c.game.asteroids.length with
    | none =>
      obtain ⟨⟨calls, i1, i2, i3⟩, i4, i5⟩ := ih c hrest hinv
      have e : specResolve M (b :: rest) c =
          (b :: (specResolve M rest c).1, (specResolve M rest c).2) := by
        simp only [specResolve, hs]
      rw [e]
      refine ⟨⟨calls, i1, ?_, i3⟩, ?_, i5⟩
      · simp only [List.length_cons]; omega
      · rw [List.filter_cons]
        split_ifs
        · exact List.Sublist.cons₂ _ i4
        · exact List.Sublist.cons _ i4
    | some j =>
      obtain ⟨hj, hcol⟩ := specScan_hit M b c.game.asteroids c.game.asteroids.length
        (le_refl _) j hs
      obtain ⟨r, hr⟩ := splitAsteroid_total M j c.rng c.game.asteroids hj
      obtain ⟨_, extra, hex, hprops⟩ := splitAsteroid_children M j c.rng c.game.asteroids r hr
      have hhit : specHit M j c =
          { game := { c.game with asteroids := r.1, score := wrapInt64 (c.game.score + 1) },
            rng := r.2, splits := c.splits ++ [j] } := by
        simp only [specHit, hr]
      have e : specResolve M (b :: rest) c = specResolve M rest (specHit M j c) := by
        simp only [specResolve, hs]
      have hinv1 : ∀ a ∈ (specHit M j c).game.asteroids,
          ∃ a0 ∈ A0, a.x = a0.x ∧ a.y = a0.y ∧ a.radius ≤ a0.radius := by
        rw [hhit]
        exact splitAsteroid_preserves M _ (descends_splitClosed A0) j c.rng c.game.asteroids r
          hinv hr
      obtain ⟨⟨calls, i1, i2, i3⟩, i4, i5⟩ := ih (specHit M j c) hrest hinv1
      rw [e]
      have hmem : c.game.asteroids[j] ∈ c.game.asteroids := List.getElem_mem hj
      refine ⟨⟨j :: calls, ?_, ?_, ?_⟩, ?_, ?_⟩
      · rw [i1, hhit]; simp
      · simp only [List.length_cons]; omega
      · refine ⟨hj, extra, ⟨b, hbL, hcol⟩, hprops, ?_⟩
        have ea : (specHit M j c).game.asteroids = c.game.asteroids.eraseIdx j ++ extra := by
          rw [hhit]; exact hex
        rw [← ea]; exact i3
      · obtain ⟨a0, h0, hx, hy, hle⟩ := hinv _ hmem
        have hb0 : hitsNone M A0 b = false :=
          hitsNone_false M A0 b a0 h0 (checkCollision_of_le M b _ a0 hx hy hle hcol)
        rw [List.filter_cons, hb0]
        simpa using i4
      · have hq : holdsNone M L (c.game.asteroids[j]) = false :=
          holdsNone_false M L _ b hbL hcol
        have ea : (specHit M j c).game.asteroids = c.game.asteroids.eraseIdx j ++ extra := by
          rw [hhit]; exact hex
        rw [ea, List.filter_append,
          filter_eraseIdx_of_false _ c.game.asteroids j hj hq] at i5
        exact (List.sublist_append_left _ _).trans i5

/-- What "check collisions" leaves: the asteroids come from those at its start
by the recorded calls of `splitAsteroid`, each on an asteroid that contains a
bullet; a bullet that lies in no asteroid stays; an asteroid that contains no
bullet stays. -/
theorem collisionPhase_outcome (M : MathLib α) (rng : Rng α) (g : Game α) (c : Coll α)
    (hc : collisionPhase M rng g = some c) :
    hitChain M g.bullets c.splits g.asteroids c.game.asteroids ∧
    (g.bullets.filter (hitsNone M g.asteroids)).Sublist c.game.bullets ∧
    (g.asteroids.filter (holdsNone M g.bullets)).Sublist c.game.asteroids := by
  have href := outerLoop_refines M g.bullets.length { game := g, rng := rng, splits := [] }
    (le_refl _)
  have hc' : outerLoop M g.bullets.length { game := g, rng := rng, splits := [] } = some c := hc
  rw [href] at hc'
  have e := Option.some.inj hc'
  simp only [List.take_length, List.drop_length, List.append_nil] at e
  obtain ⟨⟨calls, i1, -, i3⟩, i4, i5⟩ := specResolve_spec M g.bullets g.asteroids
    g.bullets.reverse { game := g, rng := rng, splits := [] }
    (fun b hb => List.mem_reverse.mp hb)
    (fun a ha => ⟨a, ha, rfl, rfl, le_refl _⟩)
  have hsp : c.splits = calls := by rw [← e]; simpa [withBullets] using i1
  have has : c.game.asteroids =
      (specResolve M g.bullets.reverse { game := g, rng := rng, splits := [] }).2.game.asteroids := by
    rw [← e]; rfl
  have hbs : c.game.bullets =
      (specResolve M g.bullets.reverse { game := g, rng := rng, splits := [] }).1.reverse := by
    rw [← e]; rfl
  refine ⟨?_, ?_, ?_⟩
  · rw [hsp, has]; exact i3
  · rw [hbs]
    have := i4.reverse
    rwa [← List.filter_reverse, List.reverse_reverse] at this
  · rw [has]; exact i5

end ResolveLemmas

/-! ## Rounding to float64 -/

section RoundLemmas

variable {α : Type} [LinearOrderedField α] [FloorRing α]

theorem roundHalfEven_of_near (y : α) (n : Int) (h : |y - (n : α)| < 1 / 2) :
    roundHalfEven y = n := by
  rw [abs_lt] at h
  obtain ⟨h1, h2⟩ := h
  unfold roundHalfEven
  rcases le_or_lt (n : α) y with hle | hlt
  · have hf : ⌊y⌋ = n := by
      rw [Int.floor_eq_iff]; constructor
      · exact hle
      · linarith
    simp only [hf]
    rw [if_pos h2]
  · have hf : ⌊y⌋ = n - 1 := by
      rw [Int.floor_eq_iff]; push_cast; constructor
      · linarith
      · linarith
    simp only [hf]
    push_cast
    have h3 : ¬ (y - ((n : α) - 1) < 1 / 2) := by linarith
    have h4 : 1 / 2 < y - ((n : α) - 1) := by linarith
    rw [if_neg h3, if_pos h4]
    ring

theorem roundHalfEven_of_tie (y : α) (n : Int) (h : y = (n : α) + 1 / 2) :
    roundHalfEven y = if n % 2 = 0 then n else n + 1 := by
  have hf : ⌊y⌋ = n := by
    rw [Int.floor_eq_iff]; constructor
    · rw [h]; linarith
    · rw [h]; linarith
  unfold roundHalfEven
  simp only [hf]
  have h3 : ¬ (y - (n : α) < 1 / 2) := by rw [h]; simp
  have h4 : ¬ (1 / 2 < y - (n : α)) := by rw [h]; simp
  rw [if_neg h3, if_neg h4]

theorem roundHalfEven_intCast (n : Int) : roundHalfEven (n : α) = n :=
  roundHalfEven_of_near _ n (by simp)

theorem floor_le_roundHalfEven (y : α) : ⌊y⌋ ≤ roundHalfEven y := by
  unfold roundHalfEven
  simp only
  split_ifs <;> omega

theorem roundHalfEven_le_floor_add_one (y : α) : roundHalfEven y ≤ ⌊y⌋ + 1 := by
  unfold roundHalfEven
  simp only
  split_ifs <;> omega

theorem roundHalfEven_mono {y1 y2 : α} (h : y1 ≤ y2) :
    roundHalfEven y1 ≤ roundHalfEven y2 := by
  rcases lt_or_eq_of_le (Int.floor_mono h) with hlt | heq
  · calc roundHalfEven y1 ≤ ⌊y1⌋ + 1 := roundHalfEven_le_floor_add_one y1
      _ ≤ ⌊y2⌋ := hlt
      _ ≤ roundHalfEven y2 := floor_le_roundHalfEven y2
  · unfold roundHalfEven
    simp only [heq]
    have hf : y1 - ((⌊y2⌋ : Int) : α) ≤ y2 - ((⌊y2⌋ : Int) : α) := by linarith
    split_ifs <;> first | omega | (exfalso; linarith)

theorem log2_eq (x : α) (e : Int) (h1 : (2 : α) ^ e ≤ |x|) (h2 : |x| < (2 : α) ^ (e + 1)) :
    Int.log 2 |x| = e := by
  have hpos : 0 < |x| := lt_of_lt_of_le (zpow_pos (by norm_num) e) h1
  apply le_antisymm
  · have : Int.log 2 |x| < e + 1 := by
      rw [← Int.lt_zpow_iff_log_lt (by norm_num) hpos]
      simpa using h2
    omega
  · rw [← Int.zpow_le_iff_le_log (by norm_num) hpos]
    simpa using h1

/-- The rounding of `x`, from its binary exponent `e` and the integer `n`
nearest to `x / 2^(e - 52)`. -/
theorem rnd64_eq (x v : α) (e n : Int) (h1 : (2 : α) ^ e ≤ |x|)
    (h2 : |x| < (2 : α) ^ (e + 1)) (he : -1022 ≤ e)
    (hn : |x / (2 : α) ^ (e - 52) - (n : α)| < 1 / 2)
    (hv : v = (n : α) * (2 : α) ^ (e - 52)) : rnd64 x = v := by
  have hpos : 0 < |x| := lt_of_lt_of_le (zpow_pos (by norm_num) e) h1
  have hx : x ≠ 0 := abs_pos.mp hpos
  unfold rnd64
  rw [if_neg hx, log2_eq x e h1 h2, max_eq_left he]
  simp only [roundHalfEven_of_near _ n hn]
  exact hv.symm

theorem rnd64_zero : rnd64 (0 : α) = 0 := by simp [rnd64]

end RoundLemmas

section RoundReal

/-- Evaluation of `rnd64` at a positive number. -/
theorem rnd64_pos (x v : ℝ) (e n : Int) (h1 : (2 : ℝ) ^ e ≤ x) (h2 : x < (2 : ℝ) ^ (e + 1))
    (he : -1022 ≤ e) (hl : ((n : ℝ) - 1 / 2) * (2 : ℝ) ^ (e - 52) < x)
    (hu : x < ((n : ℝ) + 1 / 2) * (2 : ℝ) ^ (e - 52))
    (hv : v = (n : ℝ) * (2 : ℝ) ^ (e - 52)) : rnd64 x = v := by
  have hpos : 0 < x := lt_of_lt_of_le (zpow_pos (by norm_num) e) h1
  have hu0 : (0 : ℝ) < (2 : ℝ) ^ (e - 52) := zpow_pos (by norm_num) _
  apply rnd64_eq x v e n (by rwa [abs_of_pos hpos]) (by rwa [abs_of_pos hpos]) he _ hv
  rw [abs_lt]
  constructor
  · rw [lt_sub_iff_add_lt, lt_div_iff₀ hu0]; linarith
  · rw [sub_lt_iff_lt_add, div_lt_iff₀ hu0]; linarith

/-- Evaluation of `rnd64` at a negative number. -/
theorem rnd64_neg (x v : ℝ) (e n : Int) (h1 : (2 : ℝ) ^ e ≤ -x) (h2 : -x < (2 : ℝ) ^ (e + 1))
    (he : -1022 ≤ e) (hl : ((n : ℝ) - 1 / 2) * (2 : ℝ) ^ (e - 52) < x)
    (hu : x < ((n : ℝ) + 1 / 2) * (2 : ℝ) ^ (e - 52))
    (hv : v = (n : ℝ) * (2 : ℝ) ^ (e - 52)) : rnd64 x = v := by
  have hpos : 0 < -x := lt_of_lt_of_le (zpow_pos (by norm_num) e) h1
  have hneg : x < 0 := by linarith
  have hu0 : (0 : ℝ) < (2 : ℝ) ^ (e - 52) := zpow_pos (by norm_num) _
  apply rnd64_eq x v e n (by rwa [abs_of_neg hneg]) (by rwa [abs_of_neg hneg]) he _ hv
  rw [abs_lt]
  constructor
  · rw [lt_sub_iff_add_lt, lt_div_iff₀ hu0]; linarith
  · rw [sub_lt_iff_lt_add, div_lt_iff₀ hu0]; linarith

/-- Evaluation of `rnd64` at a positive number half way between two floats,
the lower one with an odd significand `n`. -/
theorem rnd64_tie_odd (x v : ℝ) (e n : Int) (h1 : (2 : ℝ) ^ e ≤ x)
    (h2 : x < (2 : ℝ) ^ (e + 1)) (he : -1022 ≤ e)
    (hx : x = ((n : ℝ) + 1 / 2) * (2 : ℝ) ^ (e - 52)) (hodd : n % 2 = 1)
    (hv : v = ((n : ℝ) + 1) * (2 : ℝ) ^ (e - 52)) : rnd64 x = v := by
  have hpos : 0 < x := lt_of_lt_of_le (zpow_pos (by norm_num) e) h1
  have hx0 : x ≠ 0 := ne_of_gt hpos
  have hu0 : (2 : ℝ) ^ (e - 52) ≠ 0 := ne_of_gt (zpow_pos (by norm_num) _)
  have hq : x / (2 : ℝ) ^ (e - 52) = (n : ℝ) + 1 / 2 := by
    rw [hx, mul_div_assoc, div_self hu0, mul_one]
  unfold rnd64
  rw [if_neg hx0, log2_eq x e (by rwa [abs_of_pos hpos]) (by rwa [abs_of_pos hpos]),
    max_eq_left he]
  simp only [roundHalfEven_of_tie _ n hq]
  have hne : ¬ (n % 2 = 0) := by omega
  rw [if_neg hne, hv]
  push_cast
  ring

/-- Evaluation of `rnd64` at the square root of a positive number. -/
theorem rnd64_sqrt (a v : ℝ) (e n : Int) (h1 : ((2 : ℝ) ^ e) ^ 2 ≤ a)
    (h2 : a < ((2 : ℝ) ^ (e + 1)) ^ 2) (he : -1022 ≤ e)
    (hn : (0 : ℝ) ≤ ((n : ℝ) - 1 / 2) * (2 : ℝ) ^ (e - 52))
    (hl : (((n : ℝ) - 1 / 2) * (2 : ℝ) ^ (e - 52)) ^ 2 < a)
    (hu : a < (((n : ℝ) + 1 / 2) * (2 : ℝ) ^ (e - 52)) ^ 2)
    (hv : v = (n : ℝ) * (2 : ℝ) ^ (e - 52)) : rnd64 (Real.sqrt a) = v := by
  have hu0 : (0 : ℝ) < (2 : ℝ) ^ (e - 52) := zpow_pos (by norm_num) _
  apply rnd64_pos (Real.sqrt a) v e n _ _ he _ _ hv
  · exact Real.le_sqrt_of_sq_le h1
  · exact (Real.sqrt_lt' (zpow_pos (by norm_num) _)).mpr h2
  · exact (Real.lt_sqrt hn).mpr hl
  · apply (Real.sqrt_lt' _).mpr hu
    have : (0 : ℝ) < (n : ℝ) + 1 / 2 := by
      by_contra hc
      have hc' : (n : ℝ) - 1 / 2 < 0 := by linarith
      have := mul_neg_of_neg_of_pos hc' hu0
      linarith
    exact mul_pos this hu0

/-- Evaluation of `rnd64` at a number enclosed by `lo` and `hi`. -/
theorem rnd64_between (x lo hi v : ℝ) (e n : Int) (hlo : lo ≤ x) (hhi : x ≤ hi)
    (h1 : (2 : ℝ) ^ e ≤ lo) (h2 : hi < (2 : ℝ) ^ (e + 1))
    (he : -1022 ≤ e) (hl : ((n : ℝ) - 1 / 2) * (2 : ℝ) ^ (e - 52) < lo)
    (hu : hi < ((n : ℝ) + 1 / 2) * (2 : ℝ) ^ (e - 52))
    (hv : v = (n : ℝ) * (2 : ℝ) ^ (e - 52)) : rnd64 x = v :=
  rnd64_pos x v e n (h1.trans hlo) (lt_of_le_of_lt hhi h2) he (lt_of_lt_of_le hl hlo)
    (lt_of_le_of_lt hhi hu) hv

/-- The binary exponent used by `rnd64`. -/
theorem rnd64_of_ne (x : ℝ) (hx : x ≠ 0) :
    rnd64 x = (roundHalfEven (x / (2 : ℝ) ^ (max (Int.log 2 |x|) (-1022) - 52)) : ℝ) *
      (2 : ℝ) ^ (max (Int.log 2 |x|) (-1022) - 52) := by
  unfold rnd64
  rw [if_neg hx]

theorem rnd64_nonneg {x : ℝ} (h : 0 ≤ x) : 0 ≤ rnd64 x := by
  rcases eq_or_lt_of_le h with h0 | hpos
  · rw [← h0, rnd64_zero]
  · rw [rnd64_of_ne x (ne_of_gt hpos)]
    have hu0 : (0 : ℝ) < (2 : ℝ) ^ (max (Int.log 2 |x|) (-1022) - 52) :=
      zpow_pos (by norm_num) _
    apply mul_nonneg _ hu0.le
    have h1 : (0 : Int) ≤ ⌊x / (2 : ℝ) ^ (max (Int.log 2 |x|) (-1022) - 52)⌋ :=
      Int.floor_nonneg.mpr (div_nonneg h hu0.le)
    have h2 := floor_le_roundHalfEven (x / (2 : ℝ) ^ (max (Int.log 2 |x|) (-1022) - 52))
    exact_mod_cast h1.trans h2

/-- A positive number rounds to at most the next power of two. -/
theorem rnd64_le_pow {x : ℝ} (hpos : 0 < x) :
    rnd64 x ≤ (2 : ℝ) ^ (max (Int.log 2 |x|) (-1022) + 1) := by
  rw [rnd64_of_ne x (ne_of_gt hpos)]
  set e := max (Int.log 2 |x|) (-1022) with he
  have hu0 : (0 : ℝ) < (2 : ℝ) ^ (e - 52) := zpow_pos (by norm_num) _
  have hlt : x < (2 : ℝ) ^ (e + 1) := by
    have h1 : x < (2 : ℝ) ^ (Int.log 2 |x| + 1) := by
      have := Int.lt_zpow_succ_log_self (b := 2) (by norm_num) |x|
      rw [abs_of_pos hpos] at this ⊢
      exact_mod_cast this
    have h2 : (2 : ℝ) ^ (Int.log 2 |x| + 1) ≤ (2 : ℝ) ^ (e + 1) :=
      zpow_le_zpow_right₀ (by norm_num) (by rw [he]; have := le_max_left (Int.log 2 |x|) (-1022); omega)
    exact lt_of_lt_of_le h1 h2
  have hq : x / (2 : ℝ) ^ (e - 52) ≤ ((2 ^ 53 : Int) : ℝ) := by
    rw [div_le_iff₀ hu0]
    have : ((2 ^ 53 : Int) : ℝ) * (2 : ℝ) ^ (e - 52) = (2 : ℝ) ^ (e + 1) := by
      have : ((2 ^ 53 : Int) : ℝ) = (2 : ℝ) ^ (53 : Int) := by norm_num
      rw [this, ← zpow_add₀ (by norm_num : (2 : ℝ) ≠ 0)]
      congr 1; ring
    rw [this]; exact hlt.le
  have hr := roundHalfEven_mono hq
  rw [roundHalfEven_intCast] at hr
  have hr' : (roundHalfEven (x / (2 : ℝ) ^ (e - 52)) : ℝ) ≤ ((2 ^ 53 : Int) : ℝ) := by
    exact_mod_cast hr
  calc (roundHalfEven (x / (2 : ℝ) ^ (e - 52)) : ℝ) * (2 : ℝ) ^ (e - 52)
      ≤ ((2 ^ 53 : Int) : ℝ) * (2 : ℝ) ^ (e - 52) := mul_le_mul_of_nonneg_right hr' hu0.le
    _ = (2 : ℝ) ^ (e + 1) := by
      have : ((2 ^ 53 : Int) : ℝ) = (2 : ℝ) ^ (53 : Int) := by norm_num
      rw [this, ← zpow_add₀ (by norm_num : (2 : ℝ) ≠ 0)]
      congr 1; ring

/-- A positive normal number rounds to at least the power of two below it. -/
theorem pow_le_rnd64 {x : ℝ} (hpos : 0 < x) (hn : -1022 ≤ Int.log 2 |x|) :
    (2 : ℝ) ^ (Int.log 2 |x|) ≤ rnd64 x := by
  rw [rnd64_of_ne x (ne_of_gt hpos), max_eq_left hn]
  set e := Int.log 2 |x| with he
  have hu0 : (0 : ℝ) < (2 : ℝ) ^ (e - 52) := zpow_pos (by norm_num) _
  have hle : (2 : ℝ) ^ e ≤ x := by
    have := Int.zpow_log_le_self (b := 2) (r := |x|) (by norm_num) (abs_pos.mpr (ne_of_gt hpos))
    rw [abs_of_pos hpos] at this
    rw [he, abs_of_pos hpos]
    exact_mod_cast this
  have hpw : ((2 ^ 52 : Int) : ℝ) * (2 : ℝ) ^ (e - 52) = (2 : ℝ) ^ e := by
    have : ((2 ^ 52 : Int) : ℝ) = (2 : ℝ) ^ (52 : Int) := by norm_num
    rw [this, ← zpow_add₀ (by norm_num : (2 : ℝ) ≠ 0)]
    congr 1; ring
  have hq : ((2 ^ 52 : Int) : ℝ) ≤ x / (2 : ℝ) ^ (e - 52) := by
    rw [le_div_iff₀ hu0, hpw]; exact hle
  have hr := roundHalfEven_mono hq
  rw [roundHalfEven_intCast] at hr
  have hr' : ((2 ^ 52 : Int) : ℝ) ≤ (roundHalfEven (x / (2 : ℝ) ^ (e - 52)) : ℝ) := by
    exact_mod_cast hr
  calc (2 : ℝ) ^ e = ((2 ^ 52 : Int) : ℝ) * (2 : ℝ) ^ (e - 52) := hpw.symm
    _ ≤ (roundHalfEven (x / (2 : ℝ) ^ (e - 52)) : ℝ) * (2 : ℝ) ^ (e - 52) :=
      mul_le_mul_of_nonneg_right hr' hu0.le

/-- Rounding is monotone on the numbers that are not negative. -/
theorem rnd64_mono {x y : ℝ} (hx : 0 ≤ x) (hxy : x ≤ y) : rnd64 x ≤ rnd64 y := by
  rcases eq_or_lt_of_le hx with h0 | hpos
  · rw [← h0, rnd64_zero]; exact rnd64_nonneg (hx.trans hxy)
  · have hypos : 0 < y := lt_of_lt_of_le hpos hxy
    have hlog : Int.log 2 |x| ≤ Int.log 2 |y| := by
      rw [abs_of_pos hpos, abs_of_pos hypos]
      exact Int.log_mono_right hpos hxy
    rcases lt_or_eq_of_le (max_le_max hlog (le_refl (-1022 : Int))) with hlt | heq
    · have hny : -1022 < Int.log 2 |y| := by
        by_contra hc
        have h1 : max (Int.log 2 |y|) (-1022) = -1022 := max_eq_right (not_lt.mp hc)
        have h2 := le_max_right (Int.log 2 |x|) (-1022)
        omega
      have hey : max (Int.log 2 |y|) (-1022) = Int.log 2 |y| := max_eq_left hny.le
      rw [hey] at hlt
      calc rnd64 x ≤ (2 : ℝ) ^ (max (Int.log 2 |x|) (-1022) + 1) := rnd64_le_pow hpos
        _ ≤ (2 : ℝ) ^ (Int.log 2 |y|) := zpow_le_zpow_right₀ (by norm_num) (by omega)
        _ ≤ rnd64 y := pow_le_rnd64 hypos hny.le
    · rw [rnd64_of_ne x (ne_of_gt hpos), rnd64_of_ne y (ne_of_gt hypos), heq]
      have hu0 : (0 : ℝ) < (2 : ℝ) ^ (max (Int.log 2 |y|) (-1022) - 52) :=
        zpow_pos (by norm_num) _
      apply mul_le_mul_of_nonneg_right _ hu0.le
      have := roundHalfEven_mono (div_le_div_of_nonneg_right hxy hu0.le)
      exact_mod_cast this

end RoundReal

section RoundExact

/-- A number that is an integer multiple of the unit of its binade is a
float64: rounding does not change it. -/
theorem rnd64_of_multiple (x : ℝ) (e N : Int) (h1 : (2 : ℝ) ^ e ≤ |x|)
    (h2 : |x| < (2 : ℝ) ^ (e + 1)) (he : -1022 ≤ e)
    (hq : x = (N : ℝ) * (2 : ℝ) ^ (e - 52)) : rnd64 x = x := by
  have hu0 : (2 : ℝ) ^ (e - 52) ≠ 0 := ne_of_gt (zpow_pos (by norm_num) _)
  apply rnd64_eq x x e N h1 h2 he _ hq
  have : x / (2 : ℝ) ^ (e - 52) = (N : ℝ) := by
    rw [hq, mul_div_assoc, div_self hu0, mul_one]
  rw [this]; simp

/-- The natural numbers below `2^53` are float64 values. -/
theorem rnd64_natCast (n : Nat) (h : n < 2 ^ 53) : rnd64 (n : ℝ) = n := by
  rcases Nat.eq_zero_or_pos n with h0 | hpos
  · rw [h0]; simp [rnd64_zero]
  · have hne : n ≠ 0 := Nat.pos_iff_ne_zero.mp hpos
    have hlo : 2 ^ Nat.log 2 n ≤ n := Nat.pow_log_le_self 2 hne
    have hhi : n < 2 ^ (Nat.log 2 n + 1) := Nat.lt_pow_succ_log_self (by norm_num) n
    have he : Nat.log 2 n < 53 := by
      have : 2 ^ Nat.log 2 n < 2 ^ 53 := lt_of_le_of_lt hlo h
      exact (Nat.pow_lt_pow_iff_right (by norm_num)).mp this
    set e := Nat.log 2 n with hedef
    have habs : |(n : ℝ)| = n := abs_of_nonneg (Nat.cast_nonneg n)
    apply rnd64_of_multiple (n : ℝ) (e : Int) ((n * 2 ^ (52 - e) : Nat) : Int)
    · rw [habs, zpow_natCast]; exact_mod_cast hlo
    · rw [habs]
      have : ((e : Int) + 1) = ((e + 1 : Nat) : Int) := by push_cast; ring
      rw [this, zpow_natCast]; exact_mod_cast hhi
    · omega
    · have hz : (2 : ℝ) ^ ((e : Int) - 52) = ((2 : ℝ) ^ (52 - e))⁻¹ := by
        rw [← zpow_natCast, ← zpow_neg]
        congr 1
        have : ((52 - e : Nat) : Int) = 52 - (e : Int) := by omega
        rw [this]; ring
      rw [hz]
      push_cast
      have hp : (2 : ℝ) ^ (52 - e) ≠ 0 := pow_ne_zero _ (by norm_num)
      field_simp

/-- Halving a float64 that is not too small is exact. -/
theorem rnd64_half (x : ℝ) (hx : (2 : ℝ) ^ (-1021 : Int) ≤ |x|) :
    rnd64 (x / 2) = rnd64 x / 2 := by
  have hpos : 0 < |x| := lt_of_lt_of_le (zpow_pos (by norm_num) _) hx
  have hx0 : x ≠ 0 := abs_pos.mp hpos
  have hx2 : x / 2 ≠ 0 := div_ne_zero hx0 (by norm_num)
  have hL : (-1021 : Int) ≤ Int.log 2 |x| := by
    rw [← Int.zpow_le_iff_le_log (by norm_num) hpos]
    exact_mod_cast hx
  have hlo : (2 : ℝ) ^ (Int.log 2 |x|) ≤ |x| := by
    have := Int.zpow_log_le_self (b := 2) (r := |x|) (by norm_num) hpos
    exact_mod_cast this
  have hhi : |x| < (2 : ℝ) ^ (Int.log 2 |x| + 1) := by
    have := Int.lt_zpow_succ_log_self (b := 2) (by norm_num) |x|
    exact_mod_cast this
  have habs : |x / 2| = |x| / 2 := by rw [abs_div]; norm_num
  have hlog : Int.log 2 |x / 2| = Int.log 2 |x| - 1 := by
    apply log2_eq
    · rw [habs, zpow_sub_one₀ (by norm_num : (2 : ℝ) ≠ 0)]
      rw [div_eq_mul_inv]
      exact mul_le_mul_of_nonneg_right hlo (by norm_num)
    · rw [habs, sub_add_cancel, div_lt_iff₀ (by norm_num : (0 : ℝ) < 2)]
      rw [zpow_add_one₀ (by norm_num : (2 : ℝ) ≠ 0)] at hhi
      exact hhi
  rw [rnd64_of_ne x hx0, rnd64_of_ne (x / 2) hx2, hlog,
    max_eq_left (by omega : (-1022 : Int) ≤ Int.log 2 |x| - 1),
    max_eq_left (by omega : (-1022 : Int) ≤ Int.log 2 |x|)]
  have hu : (2 : ℝ) ^ (Int.log 2 |x| - 1 - 52) = (2 : ℝ) ^ (Int.log 2 |x| - 52) / 2 := by
    have : Int.log 2 |x| - 1 - 52 = Int.log 2 |x| - 52 - 1 := by ring
    rw [this, zpow_sub_one₀ (by norm_num : (2 : ℝ) ≠ 0), div_eq_mul_inv]
  have hu0 : (2 : ℝ) ^ (Int.log 2 |x| - 52) ≠ 0 := ne_of_gt (zpow_pos (by norm_num) _)
  rw [hu]
  have hq : x / 2 / ((2 : ℝ) ^ (Int.log 2 |x| - 52) / 2) = x / (2 : ℝ) ^ (Int.log 2 |x| - 52) := by
    field_simp
  rw [hq]
  ring

/-- The largest float64 below 1 is `1 - 2^-53`. -/
theorem float_lt_one (r : ℝ) (h1 : r < 1) (hf : rnd64 r = r) : r ≤ 1 - 1 / 2 ^ 53 := by
  by_contra hc
  have hgt : 1 - 1 / 2 ^ 53 < r := not_le.mp hc
  have hpos : 0 < r := lt_trans (by norm_num) hgt
  have habs : |r| = r := abs_of_pos hpos
  have hlog : Int.log 2 |r| = -1 := by
    apply log2_eq
    · rw [habs]
      have : (2 : ℝ) ^ (-1 : Int) = 1 / 2 := by norm_num
      rw [this]
      exact le_of_lt (lt_trans (by norm_num) hgt)
    · rw [habs]; simpa using h1
  have hval := rnd64_of_ne r (ne_of_gt hpos)
  rw [hlog, max_eq_left (by norm_num), hf] at hval
  have hu : (2 : ℝ) ^ ((-1 : Int) - 52) = 1 / 2 ^ 53 := by norm_num
  rw [hu] at hval
  set q := roundHalfEven (r / (1 / 2 ^ 53)) with hq
  have hr : r = (q : ℝ) / 2 ^ 53 := by rw [hval]; ring
  have h3 : ((2 ^ 53 - 1 : Int) : ℝ) < (q : ℝ) := by
    rw [hr] at hgt
    have := (lt_div_iff₀ (by norm_num : (0 : ℝ) < 2 ^ 53)).mp hgt
    push_cast
    linarith
  have h4 : (q : ℝ) < ((2 ^ 53 : Int) : ℝ) := by
    rw [hr] at h1
    have := (div_lt_iff₀ (by norm_num : (0 : ℝ) < 2 ^ 53)).mp h1
    push_cast
    linarith
  have h3' : (2 ^ 53 - 1 : Int) < q := by exact_mod_cast h3
  have h4' : q < (2 ^ 53 : Int) := by exact_mod_cast h4
  omega

/-- A draw below 1 times a screen dimension rounds to less than the
dimension. -/
theorem rnd64_draw_mul_lt (r : ℝ) (w : Nat) (h0 : 0 ≤ r) (hr : r ≤ 1 - 1 / 2 ^ 53)
    (hw0 : 0 < w) (hw : w < 2 ^ 53) : rnd64 (r * (w : ℝ)) < (w : ℝ) := by
  have hwpos : (0 : ℝ) < (w : ℝ) := by exact_mod_cast hw0
  have hmono : rnd64 (r * (w : ℝ)) ≤ rnd64 ((1 - 1 / 2 ^ 53) * (w : ℝ)) :=
    rnd64_mono (mul_nonneg h0 hwpos.le) (mul_le_mul_of_nonneg_right hr hwpos.le)
  refine lt_of_le_of_lt hmono ?_
  have hne : w ≠ 0 := Nat.pos_iff_ne_zero.mp hw0
  have hlo : 2 ^ Nat.log 2 w ≤ w := Nat.pow_log_le_self 2 hne
  have hhi : w < 2 ^ (Nat.log 2 w + 1) := Nat.lt_pow_succ_log_self (by norm_num) w
  have he : Nat.log 2 w < 53 := by
    have : 2 ^ Nat.log 2 w < 2 ^ 53 := lt_of_le_of_lt hlo hw
    exact (Nat.pow_lt_pow_iff_right (by norm_num)).mp this
  set e := Nat.log 2 w with hedef
  have hE : (2 : ℝ) ^ ((e : Int)) = ((2 ^ e : Nat) : ℝ) := by
    rw [zpow_natCast]; push_cast; rfl
  have hloR : ((2 ^ e : Nat) : ℝ) ≤ (w : ℝ) := by exact_mod_cast hlo
  have hhiR : (w : ℝ) < 2 * ((2 ^ e : Nat) : ℝ) := by
    have : w < 2 * 2 ^ e := by rw [pow_succ] at hhi; omega
    exact_mod_cast this
  have hEpos : (0 : ℝ) < ((2 ^ e : Nat) : ℝ) := by positivity
  have hw53 : (w : ℝ) < 2 ^ 53 := by exact_mod_cast hw
  have hxmax_pos : 0 < (1 - 1 / 2 ^ 53) * (w : ℝ) := mul_pos (by norm_num) hwpos
  have hxmax_lt : (1 - 1 / 2 ^ 53) * (w : ℝ) < (w : ℝ) := by
    have : (1 - 1 / 2 ^ 53) * (w : ℝ) = (w : ℝ) - (w : ℝ) / 2 ^ 53 := by ring
    rw [this]
    have : 0 < (w : ℝ) / 2 ^ 53 := by positivity
    linarith
  -- the unit of the binade of `w`
  have hu : (2 : ℝ) ^ ((e : Int) - 52) = ((2 ^ e : Nat) : ℝ) / 2 ^ 52 := by
    rw [zpow_sub₀ (by norm_num : (2 : ℝ) ≠ 0), hE]; norm_num
  rcases eq_or_lt_of_le hlo with heq | hlt
  · -- `w` is a power of two
    have hwE : (w : ℝ) = ((2 ^ e : Nat) : ℝ) := by exact_mod_cast heq.symm
    have hexact : rnd64 ((1 - 1 / 2 ^ 53) * (w : ℝ)) = (1 - 1 / 2 ^ 53) * (w : ℝ) := by
      apply rnd64_of_multiple _ ((e : Int) - 1) (2 ^ 53 - 1)
      · rw [abs_of_pos hxmax_pos, zpow_sub_one₀ (by norm_num : (2 : ℝ) ≠ 0), hE, hwE]
        have : ((2 ^ e : Nat) : ℝ) * 2⁻¹ = (1 / 2) * ((2 ^ e : Nat) : ℝ) := by ring
        rw [this]
        exact mul_le_mul_of_nonneg_right (by norm_num) hEpos.le
      · rw [abs_of_pos hxmax_pos, sub_add_cancel, hE, ← hwE]; exact hxmax_lt
      · omega
      · have : (e : Int) - 1 - 52 = (e : Int) - 52 - 1 := by ring
        rw [this, zpow_sub_one₀ (by norm_num : (2 : ℝ) ≠ 0), hu, hwE]
        push_cast
        ring
    rw [hexact]; exact hxmax_lt
  · -- `w` lies strictly inside its binade
    have hlt' : 2 ^ e + 1 ≤ w := hlt
    have hltR : ((2 ^ e : Nat) : ℝ) + 1 ≤ (w : ℝ) := by exact_mod_cast hlt'
    have he52 : e ≤ 52 := by omega
    have hN : ((w * 2 ^ (52 - e) : Nat) : ℝ) * (((2 ^ e : Nat) : ℝ) / 2 ^ 52) = (w : ℝ) := by
      push_cast
      have h2 : (2 : ℝ) ^ (52 - e) * (2 : ℝ) ^ e = 2 ^ 52 := by
        rw [← pow_add]; congr 1; omega
      have hp : (2 : ℝ) ^ e ≠ 0 := pow_ne_zero _ (by norm_num)
      field_simp
      linear_combination (w : ℝ) * h2
    have hval : rnd64 ((1 - 1 / 2 ^ 53) * (w : ℝ)) =
        (w : ℝ) - ((2 ^ e : Nat) : ℝ) / 2 ^ 52 := by
      apply rnd64_eq _ _ (e : Int) (((w * 2 ^ (52 - e) : Nat) : Int) - 1)
      · rw [abs_of_pos hxmax_pos, hE]
        have : (1 - 1 / 2 ^ 53) * (w : ℝ) = (w : ℝ) - (w : ℝ) / 2 ^ 53 := by ring
        rw [this]
        have : (w : ℝ) / 2 ^ 53 < 1 := by
          rw [div_lt_one (by norm_num)]; exact hw53
        linarith
      · rw [abs_of_pos hxmax_pos, zpow_add_one₀ (by norm_num : (2 : ℝ) ≠ 0), hE]
        linarith
      · omega
      · rw [hu]
        have hunit : (0 : ℝ) < ((2 ^ e : Nat) : ℝ) / 2 ^ 52 := by positivity
        have hq : (1 - 1 / 2 ^ 53) * (w : ℝ) / (((2 ^ e : Nat) : ℝ) / 2 ^ 52) =
            (1 - 1 / 2 ^ 53) * ((w * 2 ^ (52 - e) : Nat) : ℝ) := by
          rw [div_eq_iff (ne_of_gt hunit), mul_assoc, hN]
        rw [hq]
        -- the significand of `w` lies strictly between `2^52` and `2^53`
        have hNlo : (2 : ℝ) ^ 52 < ((w * 2 ^ (52 - e) : Nat) : ℝ) := by
          have : 2 ^ 52 < w * 2 ^ (52 - e) := by
            calc 2 ^ 52 = 2 ^ e * 2 ^ (52 - e) := by rw [← pow_add]; congr 1; omega
              _ < w * 2 ^ (52 - e) := Nat.mul_lt_mul_of_pos_right hlt (by positivity)
          exact_mod_cast this
        have hNhi : ((w * 2 ^ (52 - e) : Nat) : ℝ) < (2 : ℝ) ^ 53 := by
          have : w * 2 ^ (52 - e) < 2 ^ 53 := by
            calc w * 2 ^ (52 - e) < 2 ^ (e + 1) * 2 ^ (52 - e) :=
                  Nat.mul_lt_mul_of_pos_right hhi (by positivity)
              _ = 2 ^ 53 := by rw [← pow_add]; congr 1; omega
          exact_mod_cast this
        push_cast at hNlo hNhi ⊢
        rw [abs_lt]
        constructor <;> nlinarith
      · rw [hu]
        push_cast
        push_cast at hN
        linarith
    rw [hval]
    have : (0 : ℝ) < ((2 ^ e : Nat) : ℝ) / 2 ^ 52 := by positivity
    linarith

end RoundExact

/-! ## The program in rounded arithmetic -/

section RoundedLemmas

variable {α : Type} [LinearOrderedField α] [FloorRing α]

/-! Without rounding the definitions are those of the exact program. -/

theorem checkCollisionR_id (M : MathLib α) (x1 y1 x2 y2 radius : α) :
    checkCollisionR id M x1 y1 x2 y2 radius = checkCollision M x1 y1 x2 y2 radius := rfl

theorem splitAsteroidR_id (M : MathLib α) (index : Nat) (rng : Rng α)
    (asteroids : List (Asteroid α)) :
    splitAsteroidR id M index rng asteroids = splitAsteroid M index rng asteroids := rfl

theorem newAsteroidR_id (M : MathLib α) (rng : Rng α) (w h : Int) :
    newAsteroidR id M rng w h = newAsteroid M rng w h := rfl

theorem resetLoopR_id (M : MathLib α) (w h : Int) :
    ∀ (n : Nat) (rng : Rng α) (asteroids : List (Asteroid α)),
      resetLoopR id M w h n rng asteroids = resetLoop M w h n rng asteroids := by
  intro n
  induction n with
  | zero => intro rng asteroids; rfl
  | succ k ih =>
    intro rng asteroids
    simp only [resetLoopR, resetLoop, newAsteroidR_id, ih]

theorem resetGameR_id (M : MathLib α) (rng : Rng α) (g : Game α) :
    resetGameR id M rng g = resetGame M rng g := by
  simp only [resetGameR, resetGame, resetLoopR_id, id]

theorem shipPhaseR_id (M : MathLib α) (inp : Input) (g : Game α) :
    shipPhaseR id M inp g = shipPhase M inp g := rfl

theorem firePhaseR_id (M : MathLib α) (inp : Input) (g : Game α) :
    firePhaseR id M inp g = firePhase M inp g := rfl

theorem updateBulletsR_id (w h : Int) :
    ∀ (bullets newBullets : List (Bullet α)),
      updateBulletsR id w h newBullets bullets = updateBullets w h newBullets bullets := by
  intro bullets
  induction bullets with
  | nil => intro newBullets; rfl
  | cons b rest ih =>
    intro newBullets
    simp only [updateBulletsR, updateBullets, ih, id]

theorem bulletPhaseR_id (g : Game α) : bulletPhaseR id g = bulletPhase g := by
  simp only [bulletPhaseR, bulletPhase, updateBulletsR_id]

theorem spawnPhaseR_id (M : MathLib α) (inp : Input) (rng : Rng α) (g : Game α) :
    spawnPhaseR id M inp rng g = spawnPhase M inp rng g := rfl

theorem asteroidPhaseR_id (g : Game α) : asteroidPhaseR id g = asteroidPhase g := rfl

theorem innerLoopR_id (M : MathLib α) (i : Nat) :
    ∀ (n : Nat) (c : Coll α), innerLoopR id M i n c = innerLoop M i n c := by
  intro n
  induction n with
  | zero => intro c; rfl
  | succ j ih =>
    intro c
    simp only [innerLoopR, innerLoop, checkCollisionR_id, splitAsteroidR_id, ih]

theorem outerLoopR_id (M : MathLib α) :
    ∀ (n : Nat) (c : Coll α), outerLoopR id M n c = outerLoop M n c := by
  intro n
  induction n with
  | zero => intro c; rfl
  | succ i ih =>
    intro c
    simp only [outerLoopR, outerLoop, innerLoopR_id, ih]

theorem shipHitR_id (M : MathLib α) (s : Ship α) :
    ∀ asteroids : List (Asteroid α), shipHitR id M s asteroids = shipHit M s asteroids := by
  intro asteroids
  induction asteroids with
  | nil => rfl
  | cons a rest ih => simp only [shipHitR, shipHit, checkCollisionR_id, ih]

theorem beforeCollisionsR_id (M : MathLib α) (inp : Input) (rng : Rng α) (g : Game α) :
    beforeCollisionsR id M inp rng g = beforeCollisions M inp rng g := by
  simp only [beforeCollisionsR, beforeCollisions, shipPhaseR_id, firePhaseR_id,
    bulletPhaseR_id, spawnPhaseR_id, asteroidPhaseR_id]

/-- Without rounding, `UpdateR` is `Update`. -/
theorem UpdateR_id (M : MathLib α) (inp : Input) (rng : Rng α) (g : Game α) :
    UpdateR id M inp rng g = Update M inp rng g := by
  simp only [UpdateR, Update, resetGameR_id, beforeCollisionsR_id, collisionPhaseR,
    collisionPhase, outerLoopR_id, shipCollisionPhaseR, shipCollisionPhase, shipHitR_id]

/-! The collision loops. -/

theorem splitAsteroidR_big (R : α → α) (M : MathLib α) (index : Nat) (rng : Rng α)
    (asteroids : List (Asteroid α)) (h : index < asteroids.length)
    (hr : 10 < asteroids[index].radius) :
    splitAsteroidR R M index rng asteroids =
      some (asteroids.eraseIdx index ++
        [{ x := asteroids[index].x, y := asteroids[index].y,
           dx := R (R (M.sqrt (R (R (asteroids[index].dx * asteroids[index].dx) +
                  R (asteroids[index].dy * asteroids[index].dy))) + R 0.5) *
                M.cos (R (R (rng 0 * 2) * M.pi))),
           dy := R (R (M.sqrt (R (R (asteroids[index].dx * asteroids[index].dx) +
                  R (asteroids[index].dy * asteroids[index].dy))) + R 0.5) *
                M.sin (R (R (rng 0 * 2) * M.pi))),
           radius := R (asteroids[index].radius / 2) },
         { x := asteroids[index].x, y := asteroids[index].y,
           dx := R (R (M.sqrt (R (R (asteroids[index].dx * asteroids[index].dx) +
                  R (asteroids[index].dy * asteroids[index].dy))) + R 0.5) *
                M.cos (R (R (rng 1 * 2) * M.pi))),
           dy := R (R (M.sqrt (R (R (asteroids[index].dx * asteroids[index].dx) +
                  R (asteroids[index].dy * asteroids[index].dy))) + R 0.5) *
                M.sin (R (R (rng 1 * 2) * M.pi))),
           radius := R (asteroids[index].radius / 2) }],
        fun n => rng (n + 2)) := by
  unfold splitAsteroidR
  rw [List.getElem?_eq_getElem h]
  simp only [gt_iff_lt, hr, if_true, nextRand, List.eraseIdx_eq_take_drop_succ]

theorem splitAsteroidR_small (R : α → α) (M : MathLib α) (index : Nat) (rng : Rng α)
    (asteroids : List (Asteroid α)) (h : index < asteroids.length)
    (hr : asteroids[index].radius ≤ 10) :
    splitAsteroidR R M index rng asteroids = some (asteroids.eraseIdx index, rng) := by
  unfold splitAsteroidR
  rw [List.getElem?_eq_getElem h]
  simp only [gt_iff_lt, not_lt.mpr hr, if_false, List.eraseIdx_eq_take_drop_succ]

theorem splitAsteroidR_total (R : α → α) (M : MathLib α) (index : Nat) (rng : Rng α)
    (asteroids : List (Asteroid α)) (h : index < asteroids.length) :
    ∃ r, splitAsteroidR R M index rng asteroids = some r := by
  rcases le_or_lt (asteroids[index].radius) 10 with hr | hr
  · exact ⟨_, splitAsteroidR_small R M index rng asteroids h hr⟩
  · exact ⟨_, splitAsteroidR_big R M index rng asteroids h hr⟩

/-- The shape of the result of the inner loop, in rounded arithmetic. -/
theorem innerLoopR_shape (R : α → α) (M : MathLib α) (i : Nat) (c : Coll α)
    (hi : i < c.game.bullets.length) :
    ∀ n, n ≤ c.game.asteroids.length →
      innerLoopR R M i n c = some c ∨
      ∃ j asteroids rng, j < n ∧
        splitAsteroidR R M j c.rng c.game.asteroids = some (asteroids, rng) ∧
        innerLoopR R M i n c =
          some { game := { c.game with bullets := c.game.bullets.eraseIdx i,
                                       asteroids := asteroids,
                                       score := wrapInt64 (c.game.score + 1) },
                 rng := rng, splits := c.splits ++ [j] } := by
  intro n
  induction n with
  | zero => intro _; left; rfl
  | succ j ih =>
    intro hn
    have hj : j < c.game.asteroids.length := hn
    by_cases hc : checkCollisionR R M (c.game.bullets[i]).x (c.game.bullets[i]).y
        (c.game.asteroids[j]).x (c.game.asteroids[j]).y (c.game.asteroids[j]).radius = true
    · right
      obtain ⟨r, hr⟩ := splitAsteroidR_total R M j c.rng c.game.asteroids hj
      refine ⟨j, r.1, r.2, Nat.lt_succ_self j, hr, ?_⟩
      simp only [innerLoopR, List.getElem?_eq_getElem hi, List.getElem?_eq_getElem hj, hc,
        if_true, hr, List.eraseIdx_eq_take_drop_succ]
    · have hstep : innerLoopR R M i (j + 1) c = innerLoopR R M i j c := by
        simp only [innerLoopR, List.getElem?_eq_getElem hi, List.getElem?_eq_getElem hj, hc]
        rfl
      rcases ih (Nat.le_of_succ_le hn) with h | ⟨k, asteroids, rng, hk, hs, h⟩
      · left; rw [hstep, h]
      · right
        exact ⟨k, asteroids, rng, Nat.lt_succ_of_lt hk, hs, by rw [hstep, h]⟩

/-- The collision loop in rounded arithmetic runs to its end and changes
nothing but the bullets, the asteroids, the score and the random stream; the
bullets it leaves are bullets of its start, in order. -/
theorem outerLoopR_frame (R : α → α) (M : MathLib α) :
    ∀ (n : Nat) (c : Coll α), n ≤ c.game.bullets.length →
      ∃ c1, outerLoopR R M n c = some c1 ∧
        c1.game.ship = c.game.ship ∧
        c1.game.isGameOver = c.game.isGameOver ∧
        c1.game.screenWidth = c.game.screenWidth ∧
        c1.game.screenHeight = c.game.screenHeight ∧
        c1.game.lastBullet = c.game.lastBullet ∧
        c1.game.lastAsteroid = c.game.lastAsteroid ∧
        c1.game.bullets.Sublist c.game.bullets := by
  intro n
  induction n with
  | zero =>
    intro c _
    exact ⟨c, rfl, rfl, rfl, rfl, rfl, rfl, rfl, List.Sublist.refl _⟩
  | succ i ih =>
    intro c hn
    have hi : i < c.game.bullets.length := hn
    rcases innerLoopR_shape R M i c hi c.game.asteroids.length (le_refl _) with
      h | ⟨j, asteroids, rng, _, hs, h⟩
    · obtain ⟨c1, h1, hship, hover, hw, hh, hlb, hla, hsub⟩ :=
        ih c (Nat.le_of_succ_le hn)
      refine ⟨c1, ?_, hship, hover, hw, hh, hlb, hla, hsub⟩
      simp only [outerLoopR, h, h1]
    · have hlen : (c.game.bullets.eraseIdx i).length = c.game.bullets.length - 1 :=
        by rw [List.length_eraseIdx, if_pos hi]
      obtain ⟨c1, h1, hship, hover, hw, hh, hlb, hla, hsub⟩ :=
        ih { game := { c.game with bullets := c.game.bullets.eraseIdx i,
                                   asteroids := asteroids,
                                   score := wrapInt64 (c.game.score + 1) },
             rng := rng, splits := c.splits ++ [j] }
          (show i ≤ (c.game.bullets.eraseIdx i).length by rw [hlen]; omega)
      refine ⟨c1, ?_, hship, hover, hw, hh, hlb, hla,
        hsub.trans (List.eraseIdx_sublist _ _)⟩
      simp only [outerLoopR, h, h1]

/-! The phases. -/

theorem firePhaseR_frame (R : α → α) (M : MathLib α) (inp : Input) (g : Game α) :
    (firePhaseR R M inp g).ship = g.ship ∧
    (firePhaseR R M inp g).asteroids = g.asteroids ∧
    (firePhaseR R M inp g).score = g.score ∧
    (firePhaseR R M inp g).isGameOver = g.isGameOver ∧
    (firePhaseR R M inp g).screenWidth = g.screenWidth ∧
    (firePhaseR R M inp g).screenHeight = g.screenHeight ∧
    (firePhaseR R M inp g).lastAsteroid = g.lastAsteroid := by
  unfold firePhaseR
  split_ifs <;> simp

theorem spawnPhaseR_frame (R : α → α) (M : MathLib α) (inp : Input) (rng : Rng α)
    (g : Game α) :
    (spawnPhaseR R M inp rng g).1.ship = g.ship ∧
    (spawnPhaseR R M inp rng g).1.bullets = g.bullets ∧
    (spawnPhaseR R M inp rng g).1.score = g.score ∧
    (spawnPhaseR R M inp rng g).1.isGameOver = g.isGameOver ∧
    (spawnPhaseR R M inp rng g).1.screenWidth = g.screenWidth ∧
    (spawnPhaseR R M inp rng g).1.screenHeight = g.screenHeight ∧
    (spawnPhaseR R M inp rng g).1.lastBullet = g.lastBullet := by
  unfold spawnPhaseR
  split_ifs <;> simp

/-- The asteroids after the spawn phase depend only on the asteroids, the spawn
time and the screen. -/
theorem spawnPhaseR_asteroids (R : α → α) (M : MathLib α) (inp : Input) (rng : Rng α)
    (g g1 : Game α)
    (h1 : g1.asteroids = g.asteroids) (h2 : g1.lastAsteroid = g.lastAsteroid)
    (h3 : g1.screenWidth = g.screenWidth) (h4 : g1.screenHeight = g.screenHeight) :
    (spawnPhaseR R M inp rng g1).1.asteroids = (spawnPhaseR R M inp rng g).1.asteroids ∧
    (spawnPhaseR R M inp rng g1).1.lastAsteroid =
      (spawnPhaseR R M inp rng g).1.lastAsteroid ∧
    (spawnPhaseR R M inp rng g1).2 = (spawnPhaseR R M inp rng g).2 := by
  simp only [spawnPhaseR, h1, h2, h3, h4]
  split_ifs <;> simp [h1, h2]

/-- The fields of the state in which the collision loop starts, in rounded
arithmetic. -/
theorem beforeCollisionsR_fields (R : α → α) (M : MathLib α) (inp : Input) (rng : Rng α)
    (g : Game α) :
    (beforeCollisionsR R M inp rng g).1.ship =
      shipMoveR R g.screenWidth g.screenHeight (shipControlsR R M inp g.ship) ∧
    (beforeCollisionsR R M inp rng g).1.bullets =
      updateBulletsR R g.screenWidth g.screenHeight []
        (firePhaseR R M inp (shipPhaseR R M inp g)).bullets ∧
    (beforeCollisionsR R M inp rng g).1.asteroids =
      (spawnPhaseR R M inp rng g).1.asteroids.map
        (moveAsteroidR R g.screenWidth g.screenHeight) ∧
    (beforeCollisionsR R M inp rng g).1.score = g.score ∧
    (beforeCollisionsR R M inp rng g).1.isGameOver = g.isGameOver ∧
    (beforeCollisionsR R M inp rng g).1.screenWidth = g.screenWidth ∧
    (beforeCollisionsR R M inp rng g).1.screenHeight = g.screenHeight ∧
    (beforeCollisionsR R M inp rng g).1.lastBullet =
      (firePhaseR R M inp (shipPhaseR R M inp g)).lastBullet ∧
    (beforeCollisionsR R M inp rng g).1.lastAsteroid =
      (spawnPhaseR R M inp rng g).1.lastAsteroid ∧
    (beforeCollisionsR R M inp rng g).2 = (spawnPhaseR R M inp rng g).2 := by
  obtain ⟨f1, f2, f3, f4, f5, f6, f7⟩ := firePhaseR_frame R M inp (shipPhaseR R M inp g)
  obtain ⟨s1, s2, s3, s4, s5, s6, s7⟩ :=
    spawnPhaseR_frame R M inp rng (bulletPhaseR R (firePhaseR R M inp (shipPhaseR R M inp g)))
  obtain ⟨a1, a2, a3⟩ := spawnPhaseR_asteroids R M inp rng g
    (bulletPhaseR R (firePhaseR R M inp (shipPhaseR R M inp g)))
    (f2.trans rfl) (f7.trans rfl) (f5.trans rfl) (f6.trans rfl)
  simp only [beforeCollisionsR, asteroidPhaseR]
  refine ⟨?_, ?_, ?_, ?_, ?_, ?_, ?_, ?_, ?_, ?_⟩
  · exact s1.trans (f1.trans rfl)
  · have e5 : (bulletPhaseR R (firePhaseR R M inp (shipPhaseR R M inp g))).bullets =
        updateBulletsR R (firePhaseR R M inp (shipPhaseR R M inp g)).screenWidth
          (firePhaseR R M inp (shipPhaseR R M inp g)).screenHeight []
          (firePhaseR R M inp (shipPhaseR R M inp g)).bullets := rfl
    rw [s2, e5, f5, f6]; rfl
  · rw [a1, s5, s6]
    have e5 : (bulletPhaseR R (firePhaseR R M inp (shipPhaseR R M inp g))).screenWidth =
        g.screenWidth := f5.trans rfl
    have e6 : (bulletPhaseR R (firePhaseR R M inp (shipPhaseR R M inp g))).screenHeight =
        g.screenHeight := f6.trans rfl
    rw [e5, e6]
  · exact s3.trans (f3.trans rfl)
  · exact s4.trans (f4.trans rfl)
  · exact s5.trans (f5.trans rfl)
  · exact s6.trans (f6.trans rfl)
  · exact s7.trans rfl
  · exact a2
  · exact a3

theorem shipCollisionPhaseR_frame (R : α → α) (M : MathLib α) (g : Game α) :
    (shipCollisionPhaseR R M g).ship = g.ship ∧
    (shipCollisionPhaseR R M g).bullets = g.bullets ∧
    (shipCollisionPhaseR R M g).asteroids = g.asteroids ∧
    (shipCollisionPhaseR R M g).score = g.score ∧
    (shipCollisionPhaseR R M g).screenWidth = g.screenWidth ∧
    (shipCollisionPhaseR R M g).screenHeight = g.screenHeight ∧
    (shipCollisionPhaseR R M g).lastBullet = g.lastBullet ∧
    (shipCollisionPhaseR R M g).lastAsteroid = g.lastAsteroid := by
  unfold shipCollisionPhaseR
  split_ifs <;> simp

/-- The ship test sets the flag exactly when the collision test holds of some
asteroid. -/
theorem shipHitR_iff (R : α → α) (M : MathLib α) (s : Ship α) :
    ∀ asteroids : List (Asteroid α),
      shipHitR R M s asteroids = true ↔
        ∃ a ∈ asteroids, checkCollisionR R M s.x s.y a.x a.y a.radius = true := by
  intro asteroids
  induction asteroids with
  | nil => simp [shipHitR]
  | cons a rest ih =>
    by_cases hc : checkCollisionR R M s.x s.y a.x a.y a.radius = true
    · simp [shipHitR, hc]
    · simp [shipHitR, hc, ih]

/-- A `UpdateR` of a game that is not over runs the collision loop to its end,
and returns the state after the ship test. -/
theorem UpdateR_playing (R : α → α) (M : MathLib α) (inp : Input) (rng : Rng α)
    (g : Game α) (hg : g.isGameOver = false) :
    ∃ c, collisionPhaseR R M (beforeCollisionsR R M inp rng g).2
          (beforeCollisionsR R M inp rng g).1 = some c ∧
      UpdateR R M inp rng g = some (shipCollisionPhaseR R M c.game, c.rng) ∧
      c.game.ship = (beforeCollisionsR R M inp rng g).1.ship ∧
      c.game.isGameOver = false ∧
      c.game.lastBullet = (beforeCollisionsR R M inp rng g).1.lastBullet ∧
      c.game.lastAsteroid = (beforeCollisionsR R M inp rng g).1.lastAsteroid ∧
      c.game.screenWidth = g.screenWidth ∧
      c.game.screenHeight = g.screenHeight ∧
      c.game.bullets.Sublist (beforeCollisionsR R M inp rng g).1.bullets ∧
      ((beforeCollisionsR R M inp rng g).1.bullets = [] →
        c = { game := (beforeCollisionsR R M inp rng g).1,
              rng := (beforeCollisionsR R M inp rng g).2, splits := [] }) := by
  obtain ⟨c, hc, hship, hover, hw, hh, hlb, hla, hsub⟩ :=
    outerLoopR_frame R M (beforeCollisionsR R M inp rng g).1.bullets.length
      { game := (beforeCollisionsR R M inp rng g).1, rng := (beforeCollisionsR R M inp rng g).2,
        splits := [] } (le_refl _)
  obtain ⟨-, -, -, b4, b5, b6, b7, -, -, -⟩ := beforeCollisionsR_fields R M inp rng g
  refine ⟨c, hc, ?_, hship, ?_, hlb, hla, ?_, ?_, hsub, ?_⟩
  · have hc' : collisionPhaseR R M (beforeCollisionsR R M inp rng g).2
        (beforeCollisionsR R M inp rng g).1 = some c := hc
    simp only [UpdateR, hg, Bool.false_eq_true, if_false, hc']
  · rw [hover]; exact b5.trans hg
  · rw [hw]; exact b6
  · rw [hh]; exact b7
  · intro hb
    rw [hb] at hc
    exact (Option.some.inj hc).symm

end RoundedLemmas

/-! ## Certificates

Evaluations of `rnd64` at the numbers that the instances below use.  Each one
names the binary exponent and the significand of the result; the side
conditions are numerical. -/

section Certificates

/-- Evaluation of `rnd64` at a positive number half way between two floats,
the lower one with an even significand `n`. -/
theorem rnd64_tie_even (x v : ℝ) (e n : Int) (h1 : (2 : ℝ) ^ e ≤ x)
    (h2 : x < (2 : ℝ) ^ (e + 1)) (he : -1022 ≤ e)
    (hx : x = ((n : ℝ) + 1 / 2) * (2 : ℝ) ^ (e - 52)) (heven : n % 2 = 0)
    (hv : v = (n : ℝ) * (2 : ℝ) ^ (e - 52)) : rnd64 x = v := by
  have hpos : 0 < x := lt_of_lt_of_le (zpow_pos (by norm_num) e) h1
  have hx0 : x ≠ 0 := ne_of_gt hpos
  have hu0 : (2 : ℝ) ^ (e - 52) ≠ 0 := ne_of_gt (zpow_pos (by norm_num) _)
  have hq : x / (2 : ℝ) ^ (e - 52) = (n : ℝ) + 1 / 2 := by
    rw [hx, mul_div_assoc, div_self hu0, mul_one]
  unfold rnd64
  rw [if_neg hx0, log2_eq x e (by rwa [abs_of_pos hpos]) (by rwa [abs_of_pos hpos]),
    max_eq_left he]
  simp only [roundHalfEven_of_tie _ n hq]
  rw [if_pos heven, hv]

theorem fl_lit_01 : rnd64 (0.1 : ℝ) = (3602879701896397 / 36028797018963968) := by
  apply rnd64_pos _ _ (-4) 7205759403792794 <;> norm_num

theorem fl_lit_02 : rnd64 (0.2 : ℝ) = (3602879701896397 / 18014398509481984) := by
  apply rnd64_pos _ _ (-3) 7205759403792794 <;> norm_num

theorem fl_lit_099 : rnd64 (0.99 : ℝ) = (4458563631096791 / 4503599627370496) := by
  apply rnd64_pos _ _ (-1) 8917127262193582 <;> norm_num

theorem fl_lit_05 : rnd64 (0.5 : ℝ) = (1 / 2) := by
  apply rnd64_pos _ _ (-1) 4503599627370496 <;> norm_num

theorem fl_turn_left : rnd64 ((5764607523034235 / 576460752303423488) - (3602879701896397 / 36028797018963968) : ℝ) = (-6485183463413515 / 72057594037927936) := by
  apply rnd64_neg _ _ (-4) (-6485183463413515) <;> norm_num

theorem fl_turn_right : rnd64 ((-6485183463413515 / 72057594037927936) + (3602879701896397 / 36028797018963968) : ℝ) = (720575940379279 / 72057594037927936) := by
  apply rnd64_pos _ _ (-7) 5764607523034232 <;> norm_num

theorem fl_thrust_mul : rnd64 (1 * (3602879701896397 / 18014398509481984) : ℝ) = (3602879701896397 / 18014398509481984) := by
  apply rnd64_pos _ _ (-3) 7205759403792794 <;> norm_num

theorem fl_thrust_up : rnd64 ((3602879701896397 / 72057594037927936) + (3602879701896397 / 18014398509481984) : ℝ) = (1 / 4) := by
  apply rnd64_pos _ _ (-2) 4503599627370496 <;> norm_num

theorem fl_thrust_down : rnd64 ((1 / 4) - (3602879701896397 / 18014398509481984) : ℝ) = (900719925474099 / 18014398509481984) := by
  apply rnd64_pos _ _ (-5) 7205759403792792 <;> norm_num

theorem fl_thrust_damp : rnd64 ((900719925474099 / 18014398509481984) * (4458563631096791 / 4503599627370496) : ℝ) = (445856363109679 / 9007199254740992) := by
  apply rnd64_pos _ _ (-5) 7133701809754864 <;> norm_num

theorem fl_pure_damp : rnd64 ((3602879701896397 / 72057594037927936) * (4458563631096791 / 4503599627370496) : ℝ) = (3566850904877433 / 72057594037927936) := by
  apply rnd64_pos _ _ (-5) 7133701809754866 <;> norm_num

theorem fl_graze_dx : rnd64 ((284718807 / 1048576) - 0 : ℝ) = (284718807 / 1048576) := by
  apply rnd64_pos _ _ 8 4776788924301312 <;> norm_num

theorem fl_graze_dy : rnd64 ((94906269 / 262144) - 0 : ℝ) = (94906269 / 262144) := by
  apply rnd64_pos _ _ 8 6369051899068416 <;> norm_num

theorem fl_graze_sqx : rnd64 ((284718807 / 1048576) * (284718807 / 1048576) : ℝ) = (5066549941218953 / 68719476736) := by
  apply rnd64_pos _ _ 16 5066549941218953 <;> norm_num

theorem fl_graze_sqy : rnd64 ((94906269 / 262144) * (94906269 / 262144) : ℝ) = (1125899986937545 / 8589934592) := by
  apply rnd64_tie_even _ _ 17 4503599947750180 <;> norm_num

theorem fl_graze_sum : rnd64 ((5066549941218953 / 68719476736) + (1125899986937545 / 8589934592) : ℝ) = (879609364794957 / 4294967296) := by
  apply rnd64_tie_even _ _ 17 7036874918359656 <;> norm_num

theorem fl_graze_sqrt : rnd64 (Real.sqrt ((879609364794957 / 4294967296))) = (7961314873835519 / 17592186044416) := by
  apply rnd64_sqrt _ _ 8 7961314873835519 <;> norm_num

theorem fl_graze_x0 : rnd64 ((284718807 / 1048576) + 0 : ℝ) = (284718807 / 1048576) := by
  apply rnd64_pos _ _ 8 4776788924301312 <;> norm_num

theorem fl_graze_y0 : rnd64 ((94906269 / 262144) + 0 : ℝ) = (94906269 / 262144) := by
  apply rnd64_pos _ _ 8 6369051899068416 <;> norm_num

theorem fl_graze_xw : rnd64 ((284718807 / 1048576) + 1720 : ℝ) = (284718807 / 1048576) + 1720 := by
  apply rnd64_pos _ _ 10 8758837230174208 <;> norm_num

theorem fl_graze_yh : rnd64 ((94906269 / 262144) + 1060 : ℝ) = (94906269 / 262144) + 1060 := by
  apply rnd64_pos _ _ 10 6254192276537344 <;> norm_num

theorem fl_graze_r : rnd64 ((474531345 / 1048576) : ℝ) = (474531345 / 1048576) := by
  apply rnd64_pos _ _ 8 7961314873835520 <;> norm_num

theorem fl_graze_x : rnd64 ((284718807 / 1048576) : ℝ) = (284718807 / 1048576) := by
  apply rnd64_pos _ _ 8 4776788924301312 <;> norm_num

theorem fl_graze_y : rnd64 ((94906269 / 262144) : ℝ) = (94906269 / 262144) := by
  apply rnd64_pos _ _ 8 6369051899068416 <;> norm_num

theorem fl_lit_129999 : rnd64 (129.999 : ℝ) = (4573933187176071 / 35184372088832) := by
  apply rnd64_pos _ _ 7 4573933187176071 <;> norm_num

theorem fl_wit_dx : rnd64 ((4573933187176071 / 35184372088832) - 100 : ℝ) = (1055495978292871 / 35184372088832) := by
  apply rnd64_pos _ _ 4 8443967826342968 <;> norm_num

theorem fl_wit_sq : rnd64 ((1055495978292871 / 35184372088832) * (1055495978292871 / 35184372088832) : ℝ) = (3957977981600979 / 4398046511104) := by
  apply rnd64_pos _ _ 9 7915955963201958 <;> norm_num

theorem fl_wit_sum : rnd64 ((3957977981600979 / 4398046511104) + 0 : ℝ) = (3957977981600979 / 4398046511104) := by
  apply rnd64_pos _ _ 9 7915955963201958 <;> norm_num

theorem fl_wit_sqrt : rnd64 (Real.sqrt ((3957977981600979 / 4398046511104))) = (1055495978292871 / 35184372088832) := by
  apply rnd64_sqrt _ _ 4 8443967826342968 <;> norm_num

theorem fl_edge_dx : rnd64 (130 - 100 : ℝ) = 30 := by
  apply rnd64_pos _ _ 4 8444249301319680 <;> norm_num

theorem fl_edge_sq : rnd64 (30 * 30 : ℝ) = 900 := by
  apply rnd64_pos _ _ 9 7916483719987200 <;> norm_num

theorem fl_edge_sum : rnd64 (900 + 0 : ℝ) = 900 := by
  apply rnd64_pos _ _ 9 7916483719987200 <;> norm_num

theorem fl_edge_sqrt : rnd64 (Real.sqrt (900)) = 30 := by
  apply rnd64_sqrt _ _ 4 8444249301319680 <;> norm_num

theorem fl_edge_twice : rnd64 ((1 - 1 / 2 ^ 53) * 2 : ℝ) = (9007199254740991 / 4503599627370496) := by
  apply rnd64_pos _ _ 0 9007199254740991 <;> norm_num

theorem fl_edge_speed : rnd64 ((9007199254740991 / 4503599627370496) + 1 : ℝ) = 3 := by
  apply rnd64_tie_odd _ _ 1 6755399441055743 <;> norm_num

theorem fl_edge_draw : rnd64 (1 - 1 / 2 ^ 53 : ℝ) = 1 - 1 / 2 ^ 53 := by
  apply rnd64_pos _ _ (-1) 9007199254740991 <;> norm_num

theorem fl_three_one : rnd64 (3 * 1 : ℝ) = 3 := by
  apply rnd64_pos _ _ 1 6755399441055744 <;> norm_num

theorem fl_one : rnd64 (1 : ℝ) = 1 := by
  apply rnd64_pos _ _ 0 4503599627370496 <;> norm_num

theorem fl_zero_three : rnd64 (0 + 3 : ℝ) = 3 := by
  apply rnd64_pos _ _ 1 6755399441055744 <;> norm_num

theorem fl_1720 : rnd64 (1720 : ℝ) = 1720 := by
  apply rnd64_pos _ _ 10 7564639999098880 <;> norm_num

theorem fl_1060 : rnd64 (1060 : ℝ) = 1060 := by
  apply rnd64_pos _ _ 10 4661929301770240 <;> norm_num

theorem fl_sq3 : rnd64 (3 * 3 : ℝ) = 9 := by
  apply rnd64_pos _ _ 3 5066549580791808 <;> norm_num

theorem fl_sq4 : rnd64 (4 * 4 : ℝ) = 16 := by
  apply rnd64_pos _ _ 4 4503599627370496 <;> norm_num

theorem fl_9_16 : rnd64 (9 + 16 : ℝ) = 25 := by
  apply rnd64_pos _ _ 4 7036874417766400 <;> norm_num

theorem fl_sqrt25 : rnd64 (Real.sqrt (25)) = 5 := by
  apply rnd64_sqrt _ _ 2 5629499534213120 <;> norm_num

theorem fl_speed55 : rnd64 (5 + (1 / 2) : ℝ) = (11 / 2) := by
  apply rnd64_pos _ _ 2 6192449487634432 <;> norm_num

theorem fl_draw2 : rnd64 (1 / 2 ^ 20 * 2 : ℝ) = (1 / 524288) := by
  apply rnd64_pos _ _ (-19) 4503599627370496 <;> norm_num

theorem fl_angle : rnd64 ((1 / 524288) * (884279719003555 / 281474976710656) : ℝ) = (884279719003555 / 147573952589676412928) := by
  apply rnd64_pos _ _ (-18) 7074237752028440 <;> norm_num

theorem fl_child_dx : rnd64 ((11 / 2) * (1125899906822411 / 1125899906842624) : ℝ) = (1548112371880815 / 281474976710656) := by
  apply rnd64_tie_even _ _ 2 6192449487523260 <;> norm_num

theorem fl_child_dy : rnd64 ((11 / 2) * (3537118875993053 / 590295810358705651712) : ℝ) = (303971153405653 / 9223372036854775808) := by
  apply rnd64_pos _ _ (-15) 4863538454490448 <;> norm_num

theorem fl_child_sqx : rnd64 ((1548112371880815 / 281474976710656) * (1548112371880815 / 281474976710656) : ℝ) = (8514618045191621 / 281474976710656) := by
  apply rnd64_pos _ _ 4 8514618045191621 <;> norm_num

theorem fl_child_sqy : rnd64 ((303971153405653 / 9223372036854775808) * (303971153405653 / 9223372036854775808) : ℝ) = (5252244483401855 / 4835703278458516698824704) := by
  apply rnd64_pos _ _ (-30) 5252244483401855 <;> norm_num

theorem fl_child_sum : rnd64 ((8514618045191621 / 281474976710656) + (5252244483401855 / 4835703278458516698824704) : ℝ) = (4257309022748671 / 140737488355328) := by
  apply rnd64_pos _ _ 4 8514618045497342 <;> norm_num

theorem fl_child_sqrt : rnd64 (Real.sqrt ((4257309022748671 / 140737488355328))) = (6192449487634431 / 1125899906842624) := by
  apply rnd64_sqrt _ _ 2 6192449487634431 <;> norm_num

theorem fl_half30 : rnd64 (30 / 2 : ℝ) = 15 := by
  apply rnd64_pos _ _ 3 8444249301319680 <;> norm_num

/-- The float64 nearest to `π`. -/
theorem fl_pi : rnd64 Real.pi = 884279719003555 / 281474976710656 := by
  apply rnd64_between Real.pi 3.14159265358979323846 3.14159265358979323847 _ 1
    7074237752028440 Real.pi_gt_d20.le Real.pi_lt_d20.le <;> norm_num

/-- The correctly rounded cosine of the angle of the draw `2^-20`. -/
theorem fl_cos :
    rnd64 (Real.cos (884279719003555 / 147573952589676412928)) =
      1125899906822411 / 1125899906842624 := by
  have hb := Real.cos_bound (x := (884279719003555 / 147573952589676412928 : ℝ))
    (by rw [abs_of_pos (by norm_num)]; norm_num)
  rw [abs_of_pos (by norm_num : (0 : ℝ) < 884279719003555 / 147573952589676412928),
    abs_le] at hb
  apply rnd64_between _
    (1 - (884279719003555 / 147573952589676412928 : ℝ) ^ 2 / 2 -
      (884279719003555 / 147573952589676412928 : ℝ) ^ 4 * (5 / 96))
    (1 - (884279719003555 / 147573952589676412928 : ℝ) ^ 2 / 2 +
      (884279719003555 / 147573952589676412928 : ℝ) ^ 4 * (5 / 96)) _ (-1) 9007199254579288
  · linarith [hb.1]
  · linarith [hb.2]
  all_goals norm_num

/-- The correctly rounded sine of the angle of the draw `2^-20`. -/
theorem fl_sin :
    rnd64 (Real.sin (884279719003555 / 147573952589676412928)) =
      3537118875993053 / 590295810358705651712 := by
  have hb := Real.sin_bound (x := (884279719003555 / 147573952589676412928 : ℝ))
    (by rw [abs_of_pos (by norm_num)]; norm_num)
  rw [abs_of_pos (by norm_num : (0 : ℝ) < 884279719003555 / 147573952589676412928),
    abs_le] at hb
  apply rnd64_between _
    ((884279719003555 / 147573952589676412928 : ℝ) -
      (884279719003555 / 147573952589676412928 : ℝ) ^ 3 / 6 -
      (884279719003555 / 147573952589676412928 : ℝ) ^ 4 * (5 / 96))
    ((884279719003555 / 147573952589676412928 : ℝ) -
      (884279719003555 / 147573952589676412928 : ℝ) ^ 3 / 6 +
      (884279719003555 / 147573952589676412928 : ℝ) ^ 4 * (5 / 96)) _ (-18) 7074237751986106
  · linarith [hb.1]
  · linarith [hb.2]
  all_goals norm_num

theorem fl_drift_damp : rnd64 (100 * (4458563631096791 / 4503599627370496) : ℝ) = 99 := by
  apply rnd64_pos _ _ 6 6966505673588736 <;> norm_num

theorem fl_400_0 : rnd64 (400 + 0 : ℝ) = 400 := by
  apply rnd64_pos _ _ 8 7036874417766400 <;> norm_num

theorem fl_300_0 : rnd64 (300 + 0 : ℝ) = 300 := by
  apply rnd64_pos _ _ 8 5277655813324800 <;> norm_num

theorem fl_400_1720 : rnd64 (400 + 1720 : ℝ) = 400 + 1720 := by
  apply rnd64_pos _ _ 11 4661929301770240 <;> norm_num

theorem fl_300_1060 : rnd64 (300 + 1060 : ℝ) = 300 + 1060 := by
  apply rnd64_pos _ _ 10 5981343255101440 <;> norm_num

end Certificates

/-! ## The claims -/

section Claims

/-- The position range `[0, width) x [0, height)` of the screen. -/
theorem inScreen_of_wrap {w h : Int} (hw : 0 < w) (hh : 0 < h) {x y : ℝ}
    (hx : -(w : ℝ) ≤ x) (hy : -(h : ℝ) ≤ y) :
    (0 ≤ mathMod (x + (w : ℝ)) (w : ℝ) ∧ mathMod (x + (w : ℝ)) (w : ℝ) < (w : ℝ)) ∧
    (0 ≤ mathMod (y + (h : ℝ)) (h : ℝ) ∧ mathMod (y + (h : ℝ)) (h : ℝ) < (h : ℝ)) :=
  ⟨wrap_in_range (by exact_mod_cast hw) hx, wrap_in_range (by exact_mod_cast hh) hy⟩

/-- C1, refuted as stated: on the default screen, a ship at `x = 0` with
velocity `-1721` (no key pressed) has the pre-wrap coordinate `-1721`, below
`-width = -1720`, and `Update` leaves it at `x = -1`, outside `[0, width)`. -/
theorem C1_counterexample :
    (overshootGame ℝ).isGameOver = false ∧ 0 < (overshootGame ℝ).screenWidth ∧
    0 < (overshootGame ℝ).screenHeight ∧
    ∃ g1 rng1, Update realMath (noKeys 0) (zeroRng ℝ) (overshootGame ℝ) = some (g1, rng1) ∧
      g1.ship.x = -1 ∧ ¬ (0 ≤ g1.ship.x) := by
  refine ⟨rfl, by decide, by decide, ?_⟩
  obtain ⟨c, -, hU, hship, -⟩ := Update_playing realMath (fun _ => True)
    (fun _ _ _ _ _ => trivial) (noKeys 0) (zeroRng ℝ) (overshootGame ℝ) rfl
    (fun _ _ => trivial)
  refine ⟨_, _, hU, ?_⟩
  have hx : (shipCollisionPhase realMath c.game).ship.x = -1 := by
    rw [(shipCollisionPhase_frame realMath c.game).1, hship,
      (beforeCollisions_fields realMath (noKeys 0) (zeroRng ℝ) (overshootGame ℝ)).1]
    simp only [shipMove, shipControls, noKeys, overshootGame, mkGame, Bool.false_eq_true,
      if_false]
    have h := mathMod_small_neg (x := (-1 : ℝ)) (w := 1720) (by norm_num) (by norm_num)
      (by norm_num)
    norm_num
    exact h
  exact ⟨hx, by rw [hx]; norm_num⟩

/-- C1 (amended): for every game that is not over, with positive width and
height, and every input, if the ship's pre-wrap coordinates (position plus the
velocity after the controls) are at least `-width` and `-height`, and so are
those of every asteroid that the motion phase moves (the asteroids of the game
and the one spawned in this frame, if any), then `Update` returns and the
ship and every asteroid lie in `[0, width) x [0, height)`. -/
theorem C1_positions_in_screen (inp : Input) (rng : Rng ℝ) (g : Game ℝ)
    (hg : g.isGameOver = false) (hw : 0 < g.screenWidth) (hh : 0 < g.screenHeight)
    (hsx : -(g.screenWidth : ℝ) ≤
      (shipControls realMath inp g.ship).x + (shipControls realMath inp g.ship).velocityX)
    (hsy : -(g.screenHeight : ℝ) ≤
      (shipControls realMath inp g.ship).y + (shipControls realMath inp g.ship).velocityY)
    (ha : ∀ a ∈ (spawnPhase realMath inp rng g).1.asteroids,
      -(g.screenWidth : ℝ) ≤ a.x + a.dx ∧ -(g.screenHeight : ℝ) ≤ a.y + a.dy) :
    ∃ g1 rng1, Update realMath inp rng g = some (g1, rng1) ∧
      g1.screenWidth = g.screenWidth ∧ g1.screenHeight = g.screenHeight ∧
      (0 ≤ g1.ship.x ∧ g1.ship.x < (g.screenWidth : ℝ)) ∧
      (0 ≤ g1.ship.y ∧ g1.ship.y < (g.screenHeight : ℝ)) ∧
      ∀ a ∈ g1.asteroids, (0 ≤ a.x ∧ a.x < (g.screenWidth : ℝ)) ∧
        (0 ≤ a.y ∧ a.y < (g.screenHeight : ℝ)) := by
  obtain ⟨b1, -, b3, -, -, -, -, -, -, -⟩ := beforeCollisions_fields realMath inp rng g
  obtain ⟨c, -, hU, hship, -, -, -, hcw, hch, -, -, -, hall⟩ := Update_playing realMath
    (fun a => (0 ≤ a.x ∧ a.x < (g.screenWidth : ℝ)) ∧ (0 ≤ a.y ∧ a.y < (g.screenHeight : ℝ)))
    (fun _ _ _ h _ => h) inp rng g hg
    (by
      rw [b3]
      intro a hmem
      obtain ⟨a0, h0, rfl⟩ := List.mem_map.mp hmem
      exact inScreen_of_wrap hw hh (ha a0 h0).1 (ha a0 h0).2)
  obtain ⟨f1, -, f3, -, f5, f6, -, -⟩ := shipCollisionPhase_frame realMath c.game
  have hs := inScreen_of_wrap hw hh hsx hsy
  refine ⟨_, _, hU, f5.trans hcw, f6.trans hch, ?_, ?_, ?_⟩
  · rw [f1, hship, b1]; exact hs.1
  · rw [f1, hship, b1]; exact hs.2
  · rw [f3]; exact hall

/-- C1, an instance: the asteroid of `cornerGame` at `(1, 1)` with velocity
`(-2, -2)` is wrapped to the opposite corner, inside the screen. -/
theorem C1_positions_in_screen_witness :
    ∃ g1 rng1, Update realMath (noKeys 0) (zeroRng ℝ) (cornerGame ℝ) = some (g1, rng1) ∧
      g1.screenWidth = 1720 ∧ g1.screenHeight = 1060 ∧
      (0 ≤ g1.ship.x ∧ g1.ship.x < 1720) ∧ (0 ≤ g1.ship.y ∧ g1.ship.y < 1060) ∧
      ∀ a ∈ g1.asteroids, (0 ≤ a.x ∧ a.x < 1720) ∧ (0 ≤ a.y ∧ a.y < 1060) := by
  have h := C1_positions_in_screen (noKeys 0) (zeroRng ℝ) (cornerGame ℝ) rfl
    (by decide) (by decide)
    (by norm_num [shipControls, noKeys, cornerGame, mkGame])
    (by norm_num [shipControls, noKeys, cornerGame, mkGame])
    (by norm_num [spawnPhase, noKeys, cornerGame, mkGame, asteroidSpawnInterval])
  simpa [cornerGame, mkGame] using h

/-- The collision test in float64 at the grazing point: the computed distance
is 452.5483560562133, one unit in the last place below the radius. -/
theorem graze_check :
    checkCollisionR rnd64 float64Math (284718807 / 1048576) (94906269 / 262144) 0 0
      (474531345 / 1048576) = true := by
  simp only [checkCollisionR, float64Math, decide_eq_true_eq]
  rw [fl_graze_dx, fl_graze_dy, fl_graze_sqx, fl_graze_sqy, fl_graze_sum, fl_graze_sqrt]
  norm_num

/-- The exact distance at the grazing point is the radius. -/
theorem graze_distance :
    Real.sqrt (((284718807 / 1048576 : ℝ) - 0) ^ 2 + ((94906269 / 262144 : ℝ) - 0) ^ 2) =
      474531345 / 1048576 := by
  have e : ((284718807 / 1048576 : ℝ) - 0) ^ 2 + ((94906269 / 262144 : ℝ) - 0) ^ 2 =
      (474531345 / 1048576) ^ 2 := by norm_num
  rw [e, Real.sqrt_sq (by norm_num)]

/-- C2, refuted as stated: the point (271.529013633728, 362.0386848449707) is
at distance exactly 452.5483560562134 from (0, 0) (three float64 values), and
`checkCollision` with this radius returns true in float64 arithmetic: the
squares and their sum are rounded, and the computed distance is
452.5483560562133. -/
theorem C2_counterexample :
    rnd64 (284718807 / 1048576 : ℝ) = 284718807 / 1048576 ∧
    rnd64 (94906269 / 262144 : ℝ) = 94906269 / 262144 ∧
    rnd64 (474531345 / 1048576 : ℝ) = 474531345 / 1048576 ∧
    Real.sqrt (((284718807 / 1048576 : ℝ) - 0) ^ 2 + ((94906269 / 262144 : ℝ) - 0) ^ 2) =
      474531345 / 1048576 ∧
    checkCollisionR rnd64 float64Math (284718807 / 1048576) (94906269 / 262144) 0 0
      (474531345 / 1048576) = true :=
  ⟨fl_graze_x, fl_graze_y, fl_graze_r, graze_distance, graze_check⟩

/-- C2 (amended): `checkCollision` compares the distance as it computes it,
`math.Sqrt(dx*dx + dy*dy)` with every operation rounded, with the radius, and
is true exactly when this is strictly less: when the computed distance equals
the radius there is no collision.  When no operation rounds, the computed
distance is the Euclidean distance.  In float64: for the asteroid at (100,100)
of radius 30 the bullet at (130,100) does not collide, and the bullet at
(129.999,100) does. -/
theorem C2_checkCollision_computed_distance (R : ℝ → ℝ) (M : MathLib ℝ)
    (x1 y1 x2 y2 radius : ℝ) :
    (checkCollisionR R M x1 y1 x2 y2 radius = true ↔
      M.sqrt (R (R (R (x1 - x2) * R (x1 - x2)) + R (R (y1 - y2) * R (y1 - y2)))) < radius) ∧
    (M.sqrt (R (R (R (x1 - x2) * R (x1 - x2)) + R (R (y1 - y2) * R (y1 - y2)))) = radius →
      checkCollisionR R M x1 y1 x2 y2 radius = false) ∧
    (R (x1 - x2) = x1 - x2 → R (y1 - y2) = y1 - y2 →
      R ((x1 - x2) * (x1 - x2)) = (x1 - x2) * (x1 - x2) →
      R ((y1 - y2) * (y1 - y2)) = (y1 - y2) * (y1 - y2) →
      R ((x1 - x2) * (x1 - x2) + (y1 - y2) * (y1 - y2)) =
        (x1 - x2) * (x1 - x2) + (y1 - y2) * (y1 - y2) →
      M.sqrt ((x1 - x2) * (x1 - x2) + (y1 - y2) * (y1 - y2)) =
        Real.sqrt ((x1 - x2) * (x1 - x2) + (y1 - y2) * (y1 - y2)) →
      (checkCollisionR R M x1 y1 x2 y2 radius = true ↔
        Real.sqrt ((x1 - x2) ^ 2 + (y1 - y2) ^ 2) < radius)) ∧
    checkCollisionR rnd64 float64Math 130 100 100 100 30 = false ∧
    checkCollisionR rnd64 float64Math (rnd64 129.999) 100 100 100 30 = true := by
  have key : checkCollisionR R M x1 y1 x2 y2 radius = true ↔
      M.sqrt (R (R (R (x1 - x2) * R (x1 - x2)) + R (R (y1 - y2) * R (y1 - y2)))) < radius := by
    simp only [checkCollisionR, decide_eq_true_eq]
  have hz : rnd64 ((100 : ℝ) - 100) = 0 := by rw [sub_self, rnd64_zero]
  have hzz : rnd64 ((0 : ℝ) * 0) = 0 := by rw [mul_zero, rnd64_zero]
  refine ⟨key, ?_, ?_, ?_, ?_⟩
  · intro h
    rw [Bool.eq_false_iff]
    intro ht
    rw [key, h] at ht
    exact lt_irrefl _ ht
  · intro h1 h2 h3 h4 h5 h6
    rw [key, h1, h2, h3, h4, h5, h6, pow_two, pow_two]
  · rw [Bool.eq_false_iff]
    intro ht
    simp only [checkCollisionR, float64Math, decide_eq_true_eq] at ht
    rw [fl_edge_dx, hz, fl_edge_sq, hzz, fl_edge_sum, fl_edge_sqrt] at ht
    exact lt_irrefl _ ht
  · simp only [checkCollisionR, float64Math, decide_eq_true_eq]
    rw [fl_lit_129999, fl_wit_dx, hz, fl_wit_sq, hzz, fl_wit_sum, fl_wit_sqrt]
    norm_num

/-- The split of `rock 30`, whose velocity is (3, 4), with both draws `2^-20`,
in float64 arithmetic: the speed factor is 5.5 and each child has the velocity
(5.499999999901259, 3.295661848953335e-05). -/
theorem rock_split :
    splitAsteroidR rnd64 float64Math 0 (smallRng ℝ) [rock ℝ 30] =
      some ([{ x := 100, y := 100, dx := 1548112371880815 / 281474976710656,
               dy := 303971153405653 / 9223372036854775808, radius := 15 },
             { x := 100, y := 100, dx := 1548112371880815 / 281474976710656,
               dy := 303971153405653 / 9223372036854775808, radius := 15 }],
            fun n => smallRng ℝ (n + 2)) := by
  rw [splitAsteroidR_big rnd64 float64Math 0 (smallRng ℝ) [rock ℝ 30] (by simp)
    (by norm_num [rock])]
  simp only [List.getElem_cons_zero, rock, smallRng, float64Math, List.eraseIdx_cons_zero,
    List.nil_append]
  rw [fl_sq3, fl_sq4, fl_9_16, fl_sqrt25, fl_lit_05, fl_speed55, fl_draw2, fl_pi, fl_angle,
    fl_cos, fl_sin, fl_child_dx, fl_child_dy, fl_half30]

/-- C3, refuted as stated: the asteroid `rock 30` has velocity (3, 4), so its
speed is 5 and the speed plus 0.5 is 5.5, in exact and in float64 arithmetic.
Split with both draws `2^-20` (heading 5.992112452678286e-06) in float64
arithmetic, each child has the velocity
(5.499999999901259, 3.295661848953335e-05), whose magnitude is not 5.5: not
exactly, and not as float64 computes it (5.499999999999999). -/
theorem C3_counterexample :
    (10 : ℝ) < (rock ℝ 30).radius ∧
    (∀ n, 0 ≤ smallRng ℝ n ∧ smallRng ℝ n < 1) ∧
    Real.sqrt ((3 : ℝ) * 3 + 4 * 4) + 1 / 2 = 11 / 2 ∧
    rnd64 (float64Math.sqrt (rnd64 (rnd64 ((3 : ℝ) * 3) + rnd64 (4 * 4))) + rnd64 0.5) =
      11 / 2 ∧
    ∃ c rng1,
      splitAsteroidR rnd64 float64Math 0 (smallRng ℝ) [rock ℝ 30] = some ([c, c], rng1) ∧
      Real.sqrt (c.dx * c.dx + c.dy * c.dy) ≠ 11 / 2 ∧
      rnd64 (Real.sqrt (rnd64 (rnd64 (c.dx * c.dx) + rnd64 (c.dy * c.dy)))) ≠ 11 / 2 := by
  refine ⟨by norm_num [rock], fun n => by norm_num [smallRng], ?_, ?_, _, _, rock_split, ?_, ?_⟩
  · have e : (3 : ℝ) * 3 + 4 * 4 = 5 ^ 2 := by norm_num
    rw [e, Real.sqrt_sq (by norm_num)]
    norm_num
  · simp only [float64Math]
    rw [fl_sq3, fl_sq4, fl_9_16, fl_sqrt25, fl_lit_05, fl_speed55]
  · intro h
    have h2 := Real.sq_sqrt (show (0 : ℝ) ≤
      (1548112371880815 / 281474976710656 : ℝ) * (1548112371880815 / 281474976710656) +
      (303971153405653 / 9223372036854775808 : ℝ) * (303971153405653 / 9223372036854775808)
      by norm_num)
    rw [h] at h2
    norm_num at h2
  · show rnd64 (Real.sqrt (rnd64 (rnd64
      ((1548112371880815 / 281474976710656 : ℝ) * (1548112371880815 / 281474976710656)) +
      rnd64 ((303971153405653 / 9223372036854775808 : ℝ) *
        (303971153405653 / 9223372036854775808))))) ≠ 11 / 2
    rw [fl_child_sqx, fl_child_sqy, fl_child_sum, fl_child_sqrt]
    norm_num

/-- C3 (amended): in float64 arithmetic and for every `math` library, for a
valid index whose asteroid has radius above 10 and any two draws,
`splitAsteroid` returns the list without that asteroid (the others unchanged,
in order) followed by exactly two children, and the length grows by 1.  Each
child is at the parent's position; its radius is the parent's radius halved,
which is exact when the parent's radius is a float64; its velocity is
`speed * cos(angle)`, `speed * sin(angle)`, each product rounded, for its own
heading `angle = rand * 2 * Pi` and the common factor
`speed = math.Sqrt(dx*dx + dy*dy) + 0.5`, every operation rounded.  When the
parent's velocity is exactly (0, 0) and `math.Sqrt(0) = 0`, the factor is 0.5. -/
theorem C3_split_large_asteroid (M : MathLib ℝ) (asteroids : List (Asteroid ℝ))
    (index : Nat) (rng : Rng ℝ) (h : index < asteroids.length)
    (hr : 10 < asteroids[index].radius) :
    ∃ speed c1 c2,
      speed = rnd64 (M.sqrt (rnd64 (rnd64 (asteroids[index].dx * asteroids[index].dx) +
        rnd64 (asteroids[index].dy * asteroids[index].dy))) + rnd64 0.5) ∧
      splitAsteroidR rnd64 M index rng asteroids =
        some (asteroids.eraseIdx index ++ [c1, c2], fun n => rng (n + 2)) ∧
      (asteroids.eraseIdx index ++ [c1, c2]).length = asteroids.length + 1 ∧
      (c1.x = asteroids[index].x ∧ c1.y = asteroids[index].y ∧
        c1.radius = rnd64 (asteroids[index].radius / 2) ∧
        c1.dx = rnd64 (speed * M.cos (rnd64 (rnd64 (rng 0 * 2) * M.pi))) ∧
        c1.dy = rnd64 (speed * M.sin (rnd64 (rnd64 (rng 0 * 2) * M.pi)))) ∧
      (c2.x = asteroids[index].x ∧ c2.y = asteroids[index].y ∧
        c2.radius = rnd64 (asteroids[index].radius / 2) ∧
        c2.dx = rnd64 (speed * M.cos (rnd64 (rnd64 (rng 1 * 2) * M.pi))) ∧
        c2.dy = rnd64 (speed * M.sin (rnd64 (rnd64 (rng 1 * 2) * M.pi)))) ∧
      (rnd64 asteroids[index].radius = asteroids[index].radius →
        c1.radius = asteroids[index].radius / 2 ∧ c2.radius = asteroids[index].radius / 2) ∧
      (asteroids[index].dx = 0 → asteroids[index].dy = 0 → M.sqrt 0 = 0 → speed = 1 / 2) := by
  refine ⟨_, _, _, rfl, splitAsteroidR_big rnd64 M index rng asteroids h hr, ?_,
    ⟨rfl, rfl, rfl, rfl, rfl⟩, ⟨rfl, rfl, rfl, rfl, rfl⟩, ?_, ?_⟩
  · rw [List.length_append, List.length_eraseIdx, if_pos h]
    simp only [List.length_cons, List.length_nil]; omega
  · intro hf
    have hbig : (2 : ℝ) ^ (-1021 : Int) ≤ |asteroids[index].radius| := by
      rw [abs_of_pos (lt_trans (by norm_num) hr)]
      have h1 : (2 : ℝ) ^ (-1021 : Int) ≤ 1 := by
        apply zpow_le_one_of_nonpos₀ (by norm_num) (by norm_num)
      linarith
    have e := rnd64_half asteroids[index].radius hbig
    rw [hf] at e
    exact ⟨e, e⟩
  · intro hx hy h0
    show rnd64 (M.sqrt (rnd64 (rnd64 (asteroids[index].dx * asteroids[index].dx) +
        rnd64 (asteroids[index].dy * asteroids[index].dy))) + rnd64 0.5) = 1 / 2
    rw [hx, hy, mul_zero, rnd64_zero, add_zero, rnd64_zero, h0, zero_add, fl_lit_05]
    have := fl_lit_05
    norm_num at this ⊢
    exact this

/-- C3, an instance: splitting `rock 30`, the only asteroid, with both draws
`2^-20`, in float64 arithmetic: two children of radius 15 at its position
(100, 100), with the speed factor 5.5. -/
theorem C3_split_large_asteroid_witness :
    ∃ c1 c2 rng1,
      splitAsteroidR rnd64 float64Math 0 (smallRng ℝ) [rock ℝ 30] = some ([c1, c2], rng1) ∧
      c1.radius = 15 ∧ c2.radius = 15 ∧ c1.x = 100 ∧ c1.y = 100 ∧ c2.x = 100 ∧ c2.y = 100 ∧
      c1.dx = rnd64 (11 / 2 * float64Math.cos (rnd64 (rnd64 (smallRng ℝ 0 * 2) *
        float64Math.pi))) := by
  obtain ⟨speed, c1, c2, hsp, hs, -, ⟨x1, y1, -, d1, -⟩, ⟨x2, y2, -, -, -⟩, hrad, -⟩ :=
    C3_split_large_asteroid float64Math [rock ℝ 30] 0 (smallRng ℝ) (by simp)
      (by norm_num [rock])
  have h30 : rnd64 (30 : ℝ) = 30 := by
    have := rnd64_natCast 30 (by norm_num)
    exact_mod_cast this
  have hsp' : speed = 11 / 2 := by
    rw [hsp]
    simp only [List.getElem_cons_zero, rock, float64Math]
    rw [fl_sq3, fl_sq4, fl_9_16, fl_sqrt25, fl_lit_05, fl_speed55]
  obtain ⟨r1, r2⟩ := hrad h30
  refine ⟨c1, c2, _, hs, ?_, ?_, x1, y1, x2, y2, ?_⟩
  · rw [r1]; norm_num [rock]
  · rw [r2]; norm_num [rock]
  · rw [d1, hsp']

/-- C4: for a valid index whose asteroid has radius at most 10 (10 included),
`splitAsteroid` returns the list with exactly that element removed, the others
unchanged and in order, and nothing appended: the length decreases by 1 and no
random number is drawn. -/
theorem C4_split_small_asteroid (asteroids : List (Asteroid ℝ)) (index : Nat)
    (rng : Rng ℝ) (h : index < asteroids.length) (hr : asteroids[index].radius ≤ 10) :
    splitAsteroid realMath index rng asteroids = some (asteroids.eraseIdx index, rng) ∧
    (asteroids.eraseIdx index).length + 1 = asteroids.length ∧
    (asteroids.eraseIdx index).Sublist asteroids := by
  refine ⟨splitAsteroid_small realMath index rng asteroids h hr, ?_,
    List.eraseIdx_sublist _ _⟩
  rw [List.length_eraseIdx, if_pos h]; omega

/-- C4, an instance: an asteroid of radius exactly 10 between two others is
removed, and the two others remain. -/
theorem C4_split_small_asteroid_witness :
    splitAsteroid realMath 1 (zeroRng ℝ) [rock ℝ 30, rock ℝ 10, stillRock ℝ] =
      some ([rock ℝ 30, stillRock ℝ], zeroRng ℝ) := by
  have h := (C4_split_small_asteroid [rock ℝ 30, rock ℝ 10, stillRock ℝ] 1 (zeroRng ℝ)
    (by simp) (by simp [rock])).1
  simpa using h

/-- C5: when the game is over and restart is not pressed, `Update` returns the
state unchanged (every field of the game, and no random number is drawn),
whatever the other keys and the clock. -/
theorem C5_game_over_frozen (inp : Input) (rng : Rng ℝ) (g : Game ℝ)
    (hg : g.isGameOver = true) (hr : inp.keyR = false) :
    Update realMath inp rng g = some (g, rng) := by
  simp [Update, hg, hr]

/-- C5, an instance: fire pressed on a game that is over changes nothing. -/
theorem C5_game_over_frozen_witness :
    Update realMath (fireKey 123456789) (zeroRng ℝ) (overGame ℝ) =
      some (overGame ℝ, zeroRng ℝ) :=
  C5_game_over_frozen (fireKey 123456789) (zeroRng ℝ) (overGame ℝ) rfl rfl

/-- The positive `int`s below `2^53` are float64 values. -/
theorem rnd64_intCast (w : Int) (h0 : 0 < w) (h1 : w < 2 ^ 53) : rnd64 (w : ℝ) = (w : ℝ) := by
  obtain ⟨n, hn⟩ := Int.eq_ofNat_of_zero_le h0.le
  subst hn
  have hlt : n < 2 ^ 53 := by exact_mod_cast h1
  have := rnd64_natCast n hlt
  exact_mod_cast this

/-- A float64 draw in `[0, 1)` times a screen dimension, rounded, is in
`[0, dimension)`. -/
theorem rnd64_draw_range (r : ℝ) (w : Int) (hr0 : 0 ≤ r) (hr1 : r < 1) (hf : rnd64 r = r)
    (h0 : 0 < w) (h1 : w < 2 ^ 53) :
    0 ≤ rnd64 (r * rnd64 (w : ℝ)) ∧ rnd64 (r * rnd64 (w : ℝ)) < (w : ℝ) := by
  rw [rnd64_intCast w h0 h1]
  have hw : (0 : ℝ) < (w : ℝ) := by exact_mod_cast h0
  refine ⟨rnd64_nonneg (mul_nonneg hr0 hw.le), ?_⟩
  obtain ⟨n, hn⟩ := Int.eq_ofNat_of_zero_le h0.le
  subst hn
  have hlt : n < 2 ^ 53 := by exact_mod_cast h1
  have hpos : 0 < n := by exact_mod_cast h0
  have := rnd64_draw_mul_lt r n hr0 (float_lt_one r hr1 hf) hpos hlt
  exact_mod_cast this

/-- The speed factor `rand * 2 + 1` of a draw in `[0, 1)`, in float64
arithmetic, is in `[1, 3]`. -/
theorem rnd64_speed_range (r : ℝ) (hr0 : 0 ≤ r) (hr1 : r < 1) :
    1 ≤ rnd64 (rnd64 (r * 2) + 1) ∧ rnd64 (rnd64 (r * 2) + 1) ≤ 3 := by
  have h2 : rnd64 (2 : ℝ) = 2 := by
    have := rnd64_natCast 2 (by norm_num); exact_mod_cast this
  have h3 : rnd64 (3 : ℝ) = 3 := by
    have := rnd64_natCast 3 (by norm_num); exact_mod_cast this
  have hs0 : 0 ≤ rnd64 (r * 2) := rnd64_nonneg (by linarith)
  have hs2 : rnd64 (r * 2) ≤ 2 := by
    have := rnd64_mono (x := r * 2) (y := 2) (by linarith) (by linarith)
    rwa [h2] at this
  constructor
  · have := rnd64_mono (x := 1) (y := rnd64 (r * 2) + 1) (by norm_num) (by linarith)
    rwa [fl_one] at this
  · have := rnd64_mono (x := rnd64 (r * 2) + 1) (y := 3) (by linarith) (by linarith)
    rwa [h3] at this

/-- The asteroid that `newAsteroidR` builds, by the four draws. -/
theorem newAsteroidR_eq (R : ℝ → ℝ) (M : MathLib ℝ) (rng : Rng ℝ) (w h : Int) :
    newAsteroidR R M rng w h =
      ({ x := R (rng 2 * R (w : ℝ)), y := R (rng 3 * R (h : ℝ)),
         dx := R (R (R (rng 1 * 2) + 1) * M.cos (R (R (rng 0 * 2) * M.pi))),
         dy := R (R (R (rng 1 * 2) + 1) * M.sin (R (R (rng 0 * 2) * M.pi))),
         radius := 30 }, fun n => rng (n + 4)) := rfl

/-- What `newAsteroidR` builds in float64 arithmetic when its draws are float64
values in `[0, 1)`, for any `math` library. -/
theorem newAsteroidR_spec (M : MathLib ℝ) (rng : Rng ℝ) (w h : Int)
    (hw : 0 < w) (hw' : w < 2 ^ 53) (hh : 0 < h) (hh' : h < 2 ^ 53)
    (hrng : ∀ n, 0 ≤ rng n ∧ rng n < 1 ∧ rnd64 (rng n) = rng n) :
    ((newAsteroidR rnd64 M rng w h).1.radius = 30 ∧
      (0 ≤ (newAsteroidR rnd64 M rng w h).1.x ∧ (newAsteroidR rnd64 M rng w h).1.x < (w : ℝ)) ∧
      (0 ≤ (newAsteroidR rnd64 M rng w h).1.y ∧ (newAsteroidR rnd64 M rng w h).1.y < (h : ℝ)) ∧
      ∃ r0 r1 speed angle, (0 ≤ r0 ∧ r0 < 1) ∧ (0 ≤ r1 ∧ r1 < 1) ∧
        angle = rnd64 (rnd64 (r0 * 2) * M.pi) ∧ speed = rnd64 (rnd64 (r1 * 2) + 1) ∧
        1 ≤ speed ∧ speed ≤ 3 ∧
        (newAsteroidR rnd64 M rng w h).1.dx = rnd64 (speed * M.cos angle) ∧
        (newAsteroidR rnd64 M rng w h).1.dy = rnd64 (speed * M.sin angle)) ∧
    (∀ n, 0 ≤ (newAsteroidR rnd64 M rng w h).2 n ∧ (newAsteroidR rnd64 M rng w h).2 n < 1 ∧
      rnd64 ((newAsteroidR rnd64 M rng w h).2 n) = (newAsteroidR rnd64 M rng w h).2 n) := by
  rw [newAsteroidR_eq]
  obtain ⟨h0a, h0b, -⟩ := hrng 0
  obtain ⟨h1a, h1b, -⟩ := hrng 1
  obtain ⟨h2a, h2b, h2c⟩ := hrng 2
  obtain ⟨h3a, h3b, h3c⟩ := hrng 3
  obtain ⟨s1, s2⟩ := rnd64_speed_range (rng 1) h1a h1b
  refine ⟨⟨rfl, rnd64_draw_range _ w h2a h2b h2c hw hw', rnd64_draw_range _ h h3a h3b h3c hh hh',
    rng 0, rng 1, _, _, ⟨h0a, h0b⟩, ⟨h1a, h1b⟩, rfl, rfl, s1, s2, rfl, rfl⟩, ?_⟩
  intro n
  exact hrng (n + 4)

/-- The loop of `resetGame` in float64 arithmetic appends `n` new asteroids. -/
theorem resetLoopR_spec (M : MathLib ℝ) (P : Asteroid ℝ → Prop) (w h : Int)
    (hnew : ∀ rng : Rng ℝ, (∀ n, 0 ≤ rng n ∧ rng n < 1 ∧ rnd64 (rng n) = rng n) →
      P (newAsteroidR rnd64 M rng w h).1 ∧
      ∀ n, 0 ≤ (newAsteroidR rnd64 M rng w h).2 n ∧ (newAsteroidR rnd64 M rng w h).2 n < 1 ∧
        rnd64 ((newAsteroidR rnd64 M rng w h).2 n) = (newAsteroidR rnd64 M rng w h).2 n) :
    ∀ (n : Nat) (rng : Rng ℝ) (asteroids : List (Asteroid ℝ)),
      (∀ k, 0 ≤ rng k ∧ rng k < 1 ∧ rnd64 (rng k) = rng k) → (∀ a ∈ asteroids, P a) →
      (resetLoopR rnd64 M w h n rng asteroids).1.length = asteroids.length + n ∧
      ∀ a ∈ (resetLoopR rnd64 M w h n rng asteroids).1, P a := by
  intro n
  induction n with
  | zero => intro rng asteroids _ hall; exact ⟨rfl, hall⟩
  | succ n ih =>
    intro rng asteroids hrng hall
    obtain ⟨hp, hrng1⟩ := hnew rng hrng
    have hall1 : ∀ a ∈ asteroids ++ [(newAsteroidR rnd64 M rng w h).1], P a := by
      intro a ha
      rcases List.mem_append.mp ha with ha | ha
      · exact hall a ha
      · rw [List.mem_singleton.mp ha]; exact hp
    obtain ⟨i1, i2⟩ := ih (newAsteroidR rnd64 M rng w h).2
      (asteroids ++ [(newAsteroidR rnd64 M rng w h).1]) hrng1 hall1
    have e : resetLoopR rnd64 M w h (n + 1) rng asteroids =
        resetLoopR rnd64 M w h n (newAsteroidR rnd64 M rng w h).2
          (asteroids ++ [(newAsteroidR rnd64 M rng w h).1]) := rfl
    rw [e]
    refine ⟨?_, i2⟩
    rw [i1, List.length_append]; simp only [List.length_cons, List.length_nil]; omega

/-- The loop of `resetGame` keeps the asteroids it has appended. -/
theorem resetLoopR_keeps (R : ℝ → ℝ) (M : MathLib ℝ) (w h : Int) :
    ∀ (n : Nat) (rng : Rng ℝ) (asteroids : List (Asteroid ℝ)),
      ∀ a ∈ asteroids, a ∈ (resetLoopR R M w h n rng asteroids).1 := by
  intro n
  induction n with
  | zero => intro rng asteroids a ha; exact ha
  | succ n ih =>
    intro rng asteroids a ha
    have e : resetLoopR R M w h (n + 1) rng asteroids =
        resetLoopR R M w h n (newAsteroidR R M rng w h).2
          (asteroids ++ [(newAsteroidR R M rng w h).1]) := rfl
    rw [e]
    exact ih _ _ a (List.mem_append_left _ ha)

/-- The draws of `edgeRng` are float64 values in `[0, 1)`. -/
theorem edgeRng_draws :
    ∀ n, 0 ≤ edgeRng ℝ n ∧ edgeRng ℝ n < 1 ∧ rnd64 (edgeRng ℝ n) = edgeRng ℝ n := by
  intro n
  unfold edgeRng
  split_ifs
  · exact ⟨by norm_num, by norm_num, fl_edge_draw⟩
  · exact ⟨le_refl _, by norm_num, rnd64_zero⟩

/-- The asteroid built in float64 arithmetic on the default screen from the
draws of `edgeRng`: the draw `1 - 2^-53` gives the speed factor
`(2 - 2^-52) + 1`, which rounds to 3, and the heading 0 gives the velocity
(3, 0). -/
theorem edge_asteroid :
    (newAsteroidR rnd64 float64Math (edgeRng ℝ) 1720 1060).1 =
      { x := 0, y := 0, dx := 3, dy := 0, radius := 30 } := by
  have e0 : edgeRng ℝ 0 = 0 := by simp [edgeRng]
  have e1 : edgeRng ℝ 1 = 1 - 1 / 2 ^ 53 := by simp [edgeRng]
  have e2 : edgeRng ℝ 2 = 0 := by simp [edgeRng]
  have e3 : edgeRng ℝ 3 = 0 := by simp [edgeRng]
  rw [newAsteroidR_eq]
  simp only [e0, e1, e2, e3, float64Math, zero_mul, rnd64_zero, Real.cos_zero, Real.sin_zero]
  rw [fl_edge_twice, fl_edge_speed, fl_one, fl_three_one, mul_zero, rnd64_zero]

/-- The magnitude of the velocity (3, 0) is 3, exactly and as float64 computes
it; it is not less than 3. -/
theorem edge_speed :
    ¬ (Real.sqrt ((3 : ℝ) * 3 + 0 * 0) < 3) ∧
    ¬ (float64Math.sqrt (rnd64 (rnd64 ((3 : ℝ) * 3) + rnd64 (0 * 0))) < 3) := by
  constructor
  · have e : (3 : ℝ) * 3 + 0 * 0 = 3 ^ 2 := by norm_num
    rw [e, Real.sqrt_sq (by norm_num)]
    exact lt_irrefl _
  · have h9 : rnd64 ((9 : ℝ) + 0) = 9 := by
      apply rnd64_pos _ _ 3 5066549580791808 <;> norm_num
    have hs : rnd64 (Real.sqrt 9) = 3 := by
      apply rnd64_sqrt _ _ 1 6755399441055744 <;> norm_num
    simp only [float64Math]
    rw [fl_sq3, mul_zero, rnd64_zero, h9, hs]
    exact lt_irrefl _

/-- C6, refuted as stated: restart of `overGame` in float64 arithmetic with the
draws of `edgeRng`, which are float64 values in `[0, 1)`.  The draw
`1 - 2^-53` makes `rand * 2 + 1` round to 3, and the first asteroid gets the
velocity (3, 0): its speed is 3, not less than 3. -/
theorem C6_counterexample :
    (overGame ℝ).isGameOver = true ∧ (restartKey 0).keyR = true ∧
    (∀ n, 0 ≤ edgeRng ℝ n ∧ edgeRng ℝ n < 1 ∧ rnd64 (edgeRng ℝ n) = edgeRng ℝ n) ∧
    ∃ g1 rng1, UpdateR rnd64 float64Math (restartKey 0) (edgeRng ℝ) (overGame ℝ) =
        some (g1, rng1) ∧
      ∃ a ∈ g1.asteroids, a.dx = 3 ∧ a.dy = 0 ∧
        ¬ (Real.sqrt (a.dx * a.dx + a.dy * a.dy) < 3) ∧
        ¬ (float64Math.sqrt (rnd64 (rnd64 (a.dx * a.dx) + rnd64 (a.dy * a.dy))) < 3) := by
  refine ⟨rfl, rfl, edgeRng_draws, (resetGameR rnd64 float64Math (edgeRng ℝ) (overGame ℝ)).1,
    (resetGameR rnd64 float64Math (edgeRng ℝ) (overGame ℝ)).2, ?_,
    { x := 0, y := 0, dx := 3, dy := 0, radius := 30 }, ?_, rfl, rfl, edge_speed.1,
    edge_speed.2⟩
  · simp [UpdateR, overGame, restartKey]
  · have key : (resetGameR rnd64 float64Math (edgeRng ℝ) (overGame ℝ)).1.asteroids =
        (resetLoopR rnd64 float64Math 1720 1060 9
          (newAsteroidR rnd64 float64Math (edgeRng ℝ) 1720 1060).2
          ([] ++ [(newAsteroidR rnd64 float64Math (edgeRng ℝ) 1720 1060).1])).1 := rfl
    rw [key]
    apply resetLoopR_keeps
    rw [edge_asteroid]
    simp

/-- C6 (amended): when the game is over and restart is pressed, in float64
arithmetic with any `math` library, on a screen of positive width and height
below `2^53` and for all float64 draws in `[0, 1)`, `Update` returns a game
that is not over, with score 0, no bullets, the ship at the centre of the
screen with velocity (0,0), the same screen, and exactly 10 asteroids, each of
radius 30, at a position in `[0, width) x [0, height)`, with the velocity
`speed * cos(angle)`, `speed * sin(angle)`, each product rounded, for a heading
`angle = rand * 2 * Pi` and a speed factor `speed = rand * 2 + 1` in `[1, 3]`. -/
theorem C6_restart_resets (M : MathLib ℝ) (inp : Input) (rng : Rng ℝ) (g : Game ℝ)
    (hg : g.isGameOver = true) (hr : inp.keyR = true)
    (hw : 0 < g.screenWidth) (hw' : g.screenWidth < 2 ^ 53)
    (hh : 0 < g.screenHeight) (hh' : g.screenHeight < 2 ^ 53)
    (hrng : ∀ n, 0 ≤ rng n ∧ rng n < 1 ∧ rnd64 (rng n) = rng n) :
    ∃ g1 rng1, UpdateR rnd64 M inp rng g = some (g1, rng1) ∧
      g1.isGameOver = false ∧ g1.score = 0 ∧ g1.bullets = [] ∧
      g1.ship.x = (g.screenWidth : ℝ) / 2 ∧ g1.ship.y = (g.screenHeight : ℝ) / 2 ∧
      g1.ship.velocityX = 0 ∧ g1.ship.velocityY = 0 ∧
      g1.screenWidth = g.screenWidth ∧ g1.screenHeight = g.screenHeight ∧
      g1.asteroids.length = 10 ∧
      ∀ a ∈ g1.asteroids, a.radius = 30 ∧
        (0 ≤ a.x ∧ a.x < (g.screenWidth : ℝ)) ∧ (0 ≤ a.y ∧ a.y < (g.screenHeight : ℝ)) ∧
        ∃ r0 r1 speed angle, (0 ≤ r0 ∧ r0 < 1) ∧ (0 ≤ r1 ∧ r1 < 1) ∧
          angle = rnd64 (rnd64 (r0 * 2) * M.pi) ∧ speed = rnd64 (rnd64 (r1 * 2) + 1) ∧
          1 ≤ speed ∧ speed ≤ 3 ∧
          a.dx = rnd64 (speed * M.cos angle) ∧ a.dy = rnd64 (speed * M.sin angle) := by
  obtain ⟨l1, l2⟩ := resetLoopR_spec M
    (fun a => a.radius = 30 ∧
      (0 ≤ a.x ∧ a.x < (g.screenWidth : ℝ)) ∧ (0 ≤ a.y ∧ a.y < (g.screenHeight : ℝ)) ∧
      ∃ r0 r1 speed angle, (0 ≤ r0 ∧ r0 < 1) ∧ (0 ≤ r1 ∧ r1 < 1) ∧
        angle = rnd64 (rnd64 (r0 * 2) * M.pi) ∧ speed = rnd64 (rnd64 (r1 * 2) + 1) ∧
        1 ≤ speed ∧ speed ≤ 3 ∧
        a.dx = rnd64 (speed * M.cos angle) ∧ a.dy = rnd64 (speed * M.sin angle))
    g.screenWidth g.screenHeight
    (fun rng0 h0 => newAsteroidR_spec M rng0 g.screenWidth g.screenHeight hw hw' hh hh' h0)
    10 rng [] hrng (by simp)
  have hhalf : ∀ w : Int, 0 < w → w < 2 ^ 53 → rnd64 (rnd64 (w : ℝ) / 2) = (w : ℝ) / 2 := by
    intro w h0 h1
    have hw1 : (1 : ℝ) ≤ (w : ℝ) := by exact_mod_cast h0
    have hbig : (2 : ℝ) ^ (-1021 : Int) ≤ |(w : ℝ)| := by
      rw [abs_of_pos (lt_of_lt_of_le (by norm_num) hw1)]
      have h1 : (2 : ℝ) ^ (-1021 : Int) ≤ 1 :=
        zpow_le_one_of_nonpos₀ (by norm_num) (by norm_num)
      linarith
    rw [rnd64_intCast w h0 h1, rnd64_half _ hbig, rnd64_intCast w h0 h1]
  refine ⟨(resetGameR rnd64 M rng g).1, (resetGameR rnd64 M rng g).2, ?_, rfl, rfl, rfl,
    hhalf _ hw hw', hhalf _ hh hh', rfl, rfl, rfl, rfl, ?_, ?_⟩
  · simp [UpdateR, hg, hr]
  · simpa [resetGameR] using l1
  · simpa [resetGameR] using l2

/-- C6, an instance: restart on `overGame` with all draws `0`, in float64
arithmetic. -/
theorem C6_restart_resets_witness :
    ∃ g1 rng1, UpdateR rnd64 float64Math (restartKey 5) (zeroRng ℝ) (overGame ℝ) =
        some (g1, rng1) ∧
      g1.isGameOver = false ∧ g1.score = 0 ∧ g1.bullets = [] ∧
      g1.ship.x = 860 ∧ g1.ship.y = 530 ∧ g1.asteroids.length = 10 := by
  obtain ⟨g1, rng1, h1, h2, h3, h4, h5, h6, -, -, -, -, h7, -⟩ :=
    C6_restart_resets float64Math (restartKey 5) (zeroRng ℝ) (overGame ℝ) rfl rfl
      (by decide) (by decide) (by decide) (by decide)
      (fun _ => ⟨le_refl _, by norm_num [zeroRng], rnd64_zero⟩)
  refine ⟨g1, rng1, h1, h2, h3, h4, ?_, ?_, h7⟩
  · rw [h5]; norm_num [overGame]
  · rw [h6]; norm_num [overGame]

/-- The fire phase when it does not fire. -/
theorem firePhase_blocked (inp : Input) (g : Game ℝ)
    (h : ¬ (inp.keySpace = true ∧
      (g.bullets = [] ∨ inp.now - g.lastBullet > 300 * 1000000))) :
    firePhase realMath inp g = g := by
  unfold firePhase
  by_cases hk : inp.keySpace = true
  · have h2 : ¬ (g.bullets.length = 0 ∨ inp.now - g.lastBullet > timeSinceLastBullet) := by
      intro hc
      apply h
      refine ⟨hk, ?_⟩
      rcases hc with hc | hc
      · left; exact List.length_eq_zero.mp hc
      · right; exact hc
    simp only [hk, if_true, h2, if_false]
  · simp only [hk, Bool.false_eq_true, if_false]

/-- The fire phase when it fires. -/
theorem firePhase_fires (inp : Input) (g : Game ℝ)
    (h : inp.keySpace = true ∧
      (g.bullets = [] ∨ inp.now - g.lastBullet > 300 * 1000000)) :
    firePhase realMath inp g =
      { g with
        bullets := g.bullets ++
          [{ x := g.ship.x, y := g.ship.y,
             dx := 5 * Real.cos g.ship.angle, dy := 5 * Real.sin g.ship.angle }],
        lastBullet := inp.now } := by
  have h2 : g.bullets.length = 0 ∨ inp.now - g.lastBullet > timeSinceLastBullet := by
    rcases h.2 with hc | hc
    · left; rw [hc]; rfl
    · right; exact hc
  have e5 : (5.0 : ℝ) = 5 := by norm_num
  simp only [firePhase, h.1, if_true, h2, realMath, e5, mul_comm]

/-- C7, refuted as stated: on the default screen a ship at rest at (1718, 500)
facing right fires at `t1 = 1 s`; the bullet leaves the screen in the same
frame, so the bullet slice is empty again; firing at `t2 = 1.1 s`, inside the
300 ms window, creates a second bullet and sets `lastBullet` to `t2`. -/
theorem C7_counterexample :
    ∃ g1 rng1,
      Update realMath (fireKey 1000000000) (zeroRng ℝ) (edgeGame ℝ) = some (g1, rng1) ∧
      (firePhase realMath (fireKey 1000000000)
        (shipPhase realMath (fireKey 1000000000) (edgeGame ℝ))).bullets.length = 1 ∧
      g1.isGameOver = false ∧ g1.lastBullet = 1000000000 ∧
      (1000000000 : Int) ≤ 1100000000 ∧ (1100000000 : Int) - 1000000000 ≤ 300 * 1000000 ∧
      (firePhase realMath (fireKey 1100000000)
        (shipPhase realMath (fireKey 1100000000) g1)).bullets.length = g1.bullets.length + 1 ∧
      (firePhase realMath (fireKey 1100000000)
        (shipPhase realMath (fireKey 1100000000) g1)).lastBullet = 1100000000 := by
  have hfire : firePhase realMath (fireKey 1000000000)
      (shipPhase realMath (fireKey 1000000000) (edgeGame ℝ)) = _ :=
    firePhase_fires (fireKey 1000000000)
      (shipPhase realMath (fireKey 1000000000) (edgeGame ℝ)) ⟨rfl, Or.inl rfl⟩
  have hmx : mathMod ((1718 : ℝ) + 1720) 1720 = 1718 :=
    mathMod_add_self_of_range (by norm_num) (by norm_num) (by norm_num)
  obtain ⟨-, b2, b3, -, -, -, -, b8, -, -⟩ :=
    beforeCollisions_fields realMath (fireKey 1000000000) (zeroRng ℝ) (edgeGame ℝ)
  have hb : (beforeCollisions realMath (fireKey 1000000000) (zeroRng ℝ)
      (edgeGame ℝ)).1.bullets = [] := by
    rw [b2, updateBullets_eq, hfire]
    simp [specBulletMotion, shipPhase, shipMove, shipControls, fireKey, edgeGame, mkGame,
      specAdvance, specOnScreen, hmx]
    intro _
    norm_num
  have ha : (beforeCollisions realMath (fireKey 1000000000) (zeroRng ℝ)
      (edgeGame ℝ)).1.asteroids = [] := by
    rw [b3]
    simp [spawnPhase, fireKey, edgeGame, mkGame, asteroidSpawnInterval]
  obtain ⟨c, -, hU, -, hover, hlb, -, -, -, hsub, -, -, hall⟩ := Update_playing realMath
    (fun _ => False) (fun _ _ _ h _ => h) (fireKey 1000000000) (zeroRng ℝ) (edgeGame ℝ) rfl
    (by rw [ha]; simp)
  have hcb : c.game.bullets = [] := by
    rw [hb] at hsub; exact List.sublist_nil.mp hsub
  have hca : c.game.asteroids = [] := List.eq_nil_iff_forall_not_mem.mpr hall
  obtain ⟨-, f2, -, -, -, -, f7, -⟩ := shipCollisionPhase_frame realMath c.game
  have hgo : (shipCollisionPhase realMath c.game).isGameOver = false := by
    simp [shipCollisionPhase, hca, shipHit, hover]
  have hlb1 : (shipCollisionPhase realMath c.game).lastBullet = 1000000000 := by
    rw [f7, hlb, b8, hfire]; rfl
  have hb1 : (shipCollisionPhase realMath c.game).bullets = [] := f2.trans hcb
  have hfire2 := firePhase_fires (fireKey 1100000000)
    (shipPhase realMath (fireKey 1100000000) (shipCollisionPhase realMath c.game))
    ⟨rfl, Or.inl hb1⟩
  refine ⟨_, _, hU, ?_, hgo, hlb1, by decide, by decide, ?_, ?_⟩
  · rw [hfire]; rfl
  · rw [hfire2, hb1]; simp [shipPhase, hb1]
  · rw [hfire2]; rfl

/-- C7 (amended): in a game that is not over whose bullet slice is not empty,
with `lastBullet = t1` (the time of the last shot), a `Update` at a time `t2`
with `t1 ≤ t2` and `t2 - t1 ≤ 300 ms` creates no bullet, whatever keys are
pressed (fire in particular): the fire phase changes nothing, `lastBullet`
stays `t1`, and the bullets after the frame are among the old ones advanced by
their velocity. -/
theorem C7_no_second_bullet_in_cooldown (inp : Input) (rng : Rng ℝ) (g : Game ℝ)
    (hg : g.isGameOver = false) (hne : g.bullets ≠ [])
    (h1 : g.lastBullet ≤ inp.now) (h2 : inp.now - g.lastBullet ≤ 300 * 1000000) :
    firePhase realMath inp (shipPhase realMath inp g) = shipPhase realMath inp g ∧
    ∃ g1 rng1, Update realMath inp rng g = some (g1, rng1) ∧
      g1.lastBullet = g.lastBullet ∧
      g1.bullets.Sublist (specBulletMotion g.screenWidth g.screenHeight g.bullets) := by
  have hblocked : firePhase realMath inp (shipPhase realMath inp g) =
      shipPhase realMath inp g := by
    apply firePhase_blocked
    rintro ⟨-, hc | hc⟩
    · exact hne hc
    · have : (shipPhase realMath inp g).lastBullet = g.lastBullet := rfl
      rw [this] at hc
      omega
  obtain ⟨-, b2, -, -, -, -, -, b8, -, -⟩ := beforeCollisions_fields realMath inp rng g
  obtain ⟨c, -, hU, -, -, hlb, -, -, -, hsub, -, -, -⟩ := Update_playing realMath
    (fun _ => True) (fun _ _ _ _ _ => trivial) inp rng g hg (fun _ _ => trivial)
  obtain ⟨-, f2, -, -, -, -, f7, -⟩ := shipCollisionPhase_frame realMath c.game
  refine ⟨hblocked, _, _, hU, ?_, ?_⟩
  · rw [f7, hlb, b8, hblocked]; rfl
  · rw [f2]
    rw [b2, updateBullets_eq, hblocked] at hsub
    simpa [shipPhase] using hsub

/-- C7, an instance: with one bullet in flight fired at `1 s`, fire pressed at
`1.1 s` adds nothing. -/
theorem C7_no_second_bullet_in_cooldown_witness :
    ∃ g1 rng1,
      Update realMath (fireKey 1100000000) (zeroRng ℝ) (flightGame ℝ) = some (g1, rng1) ∧
      g1.lastBullet = 1000000000 ∧
      g1.bullets.Sublist (specBulletMotion 1720 1060 (flightGame ℝ).bullets) :=
  (C7_no_second_bullet_in_cooldown (fireKey 1100000000) (zeroRng ℝ) (flightGame ℝ) rfl
    (by simp [flightGame]) (by decide) (by decide)).2

/-- C8: in a `Update` of a game that is not over, the fire phase (which runs on
the state left by the ship phase, whose bullets and `lastBullet` are those of
the game) creates a bullet exactly when fire is pressed and the bullet slice is
empty or `now - lastBullet > 300 ms`.  The bullet is appended, at the position
of the ship after this frame's move and wrap, with velocity
`(5 cos angle, 5 sin angle)` for the angle after this frame's turn, and
`lastBullet` becomes `now`; otherwise the fire phase changes nothing.  The ship
and `lastBullet` of the returned game are those of the fire phase. -/
theorem C8_fire_rule (inp : Input) (rng : Rng ℝ) (g : Game ℝ) (hg : g.isGameOver = false) :
    (shipPhase realMath inp g).bullets = g.bullets ∧
    (shipPhase realMath inp g).lastBullet = g.lastBullet ∧
    (shipPhase realMath inp g).ship.angle = (shipControls realMath inp g.ship).angle ∧
    ((inp.keySpace = true ∧ (g.bullets = [] ∨ inp.now - g.lastBullet > 300 * 1000000)) →
      firePhase realMath inp (shipPhase realMath inp g) =
        { shipPhase realMath inp g with
          bullets := g.bullets ++
            [{ x := (shipPhase realMath inp g).ship.x,
               y := (shipPhase realMath inp g).ship.y,
               dx := 5 * Real.cos (shipPhase realMath inp g).ship.angle,
               dy := 5 * Real.sin (shipPhase realMath inp g).ship.angle }],
          lastBullet := inp.now }) ∧
    (¬ (inp.keySpace = true ∧ (g.bullets = [] ∨ inp.now - g.lastBullet > 300 * 1000000)) →
      firePhase realMath inp (shipPhase realMath inp g) = shipPhase realMath inp g) ∧
    ∃ g1 rng1, Update realMath inp rng g = some (g1, rng1) ∧
      g1.ship = (shipPhase realMath inp g).ship ∧
      g1.lastBullet = (firePhase realMath inp (shipPhase realMath inp g)).lastBullet := by
  refine ⟨rfl, rfl, rfl, ?_, ?_, ?_⟩
  · intro h
    exact firePhase_fires inp (shipPhase realMath inp g) h
  · intro h
    exact firePhase_blocked inp (shipPhase realMath inp g) h
  · obtain ⟨b1, -, -, -, -, -, -, b8, -, -⟩ := beforeCollisions_fields realMath inp rng g
    obtain ⟨c, -, hU, hship, -, hlb, -, -, -, -, -, -, -⟩ := Update_playing realMath
      (fun _ => True) (fun _ _ _ _ _ => trivial) inp rng g hg (fun _ _ => trivial)
    obtain ⟨f1, -, -, -, -, -, f7, -⟩ := shipCollisionPhase_frame realMath c.game
    refine ⟨_, _, hU, ?_, ?_⟩
    · rw [f1, hship, b1]; rfl
    · rw [f7, hlb, b8]

/-- C8, an instance: `edgeGame` with fire pressed at `1 s`; the bullet slice
is empty, so a bullet is created at the ship, and `lastBullet` becomes `1 s`. -/
theorem C8_fire_rule_witness :
    (firePhase realMath (fireKey 1000000000)
      (shipPhase realMath (fireKey 1000000000) (edgeGame ℝ))).bullets.length = 1 ∧
    ∃ g1 rng1,
      Update realMath (fireKey 1000000000) (zeroRng ℝ) (edgeGame ℝ) = some (g1, rng1) ∧
      g1.lastBullet = 1000000000 := by
  obtain ⟨-, -, -, h4, -, g1, rng1, hU, -, hlb⟩ :=
    C8_fire_rule (fireKey 1000000000) (zeroRng ℝ) (edgeGame ℝ) rfl
  have h := h4 ⟨rfl, Or.inl rfl⟩
  refine ⟨by rw [h]; rfl, g1, rng1, hU, ?_⟩
  rw [hlb, h]; rfl

/-- Membership in the specification's bullet motion, unfolded. -/
theorem mem_specBulletMotion (w h : Int) (bullets : List (Bullet ℝ)) (b : Bullet ℝ) :
    b ∈ specBulletMotion w h bullets ↔
      (∃ b0 ∈ bullets, b = { x := b0.x + b0.dx, y := b0.y + b0.dy, dx := b0.dx, dy := b0.dy }) ∧
      (0 ≤ b.x ∧ b.x < (w : ℝ)) ∧ (0 ≤ b.y ∧ b.y < (h : ℝ)) := by
  simp only [specBulletMotion, List.mem_filter, List.mem_map, specAdvance, specOnScreen,
    decide_eq_true_eq]
  constructor
  · rintro ⟨⟨b0, hb0, rfl⟩, h1, h2, h3, h4⟩
    exact ⟨⟨b0, hb0, rfl⟩, ⟨h1, h2⟩, h3, h4⟩
  · rintro ⟨⟨b0, hb0, rfl⟩, ⟨h1, h2⟩, h3, h4⟩
    exact ⟨⟨b0, hb0, rfl⟩, h1, h2, h3, h4⟩

/-- C9: in a `Update` of a game that is not over, the bullet-motion phase
replaces the bullets by the list of bullets advanced by their velocity (velocity
unchanged), filtered to those with `0 ≤ x < width` and `0 ≤ y < height`, in the
original order, and changes nothing else.  The bullets of the returned game are
among these (in order), so each lies in `[0, width) x [0, height)` and is an
advanced bullet of the fire phase: a bullet whose advanced position is outside
is dropped in this frame and is never wrapped. -/
theorem C9_bullet_motion (inp : Input) (rng : Rng ℝ) (g : Game ℝ)
    (hg : g.isGameOver = false) :
    (∀ g0 : Game ℝ, bulletPhase g0 =
      { g0 with bullets := specBulletMotion g0.screenWidth g0.screenHeight g0.bullets }) ∧
    (∀ (w h : Int) (bullets : List (Bullet ℝ)), specBulletMotion w h bullets =
      (bullets.map specAdvance).filter (specOnScreen w h)) ∧
    (∀ b : Bullet ℝ, specAdvance b =
      { x := b.x + b.dx, y := b.y + b.dy, dx := b.dx, dy := b.dy }) ∧
    (∀ (w h : Int) (b : Bullet ℝ), specOnScreen w h b = true ↔
      (0 ≤ b.x ∧ b.x < (w : ℝ)) ∧ (0 ≤ b.y ∧ b.y < (h : ℝ))) ∧
    ∃ g1 rng1, Update realMath inp rng g = some (g1, rng1) ∧
      g1.bullets.Sublist
        (((firePhase realMath inp (shipPhase realMath inp g)).bullets.map specAdvance).filter
          (specOnScreen g.screenWidth g.screenHeight)) ∧
      ∀ b ∈ g1.bullets,
        (∃ b0 ∈ (firePhase realMath inp (shipPhase realMath inp g)).bullets,
          b = { x := b0.x + b0.dx, y := b0.y + b0.dy, dx := b0.dx, dy := b0.dy }) ∧
        (0 ≤ b.x ∧ b.x < (g.screenWidth : ℝ)) ∧ (0 ≤ b.y ∧ b.y < (g.screenHeight : ℝ)) := by
  refine ⟨?_, fun _ _ _ => rfl, fun _ => rfl, ?_, ?_⟩
  · intro g0
    simp only [bulletPhase, updateBullets_eq, List.nil_append]
  · intro w h b
    simp only [specOnScreen, decide_eq_true_eq]
    tauto
  · obtain ⟨-, b2, -, -, -, -, -, -, -, -⟩ := beforeCollisions_fields realMath inp rng g
    obtain ⟨c, -, hU, -, -, -, -, -, -, hsub, -, -, -⟩ := Update_playing realMath
      (fun _ => True) (fun _ _ _ _ _ => trivial) inp rng g hg (fun _ _ => trivial)
    obtain ⟨-, f2, -, -, -, -, -, -⟩ := shipCollisionPhase_frame realMath c.game
    rw [b2, updateBullets_eq, List.nil_append] at hsub
    refine ⟨_, _, hU, ?_, ?_⟩
    · rw [f2]; exact hsub
    · intro b hb
      rw [f2] at hb
      exact (mem_specBulletMotion _ _ _ b).mp (hsub.subset hb)

/-- C9, an instance: the bullet of `flightGame` at (405, 300) with velocity
(5, 0); every bullet left after the frame is on the screen. -/
theorem C9_bullet_motion_witness :
    ∃ g1 rng1, Update realMath (noKeys 1100000000) (zeroRng ℝ) (flightGame ℝ) =
        some (g1, rng1) ∧
      ∀ b ∈ g1.bullets, (0 ≤ b.x ∧ b.x < 1720) ∧ (0 ≤ b.y ∧ b.y < 1060) := by
  obtain ⟨g1, rng1, hU, -, hall⟩ :=
    (C9_bullet_motion (noKeys 1100000000) (zeroRng ℝ) (flightGame ℝ) rfl).2.2.2.2
  refine ⟨g1, rng1, hU, fun b hb => ?_⟩
  simpa [flightGame] using (hall b hb).2

/-- The collision loop on `hitGame`: the bullet hits the asteroid, both are
removed, and `splitAsteroid` is called once. -/
theorem hitGame_collision (score : Int) :
    ∃ c, collisionPhase realMath (beforeCollisions realMath (noKeys 0) (zeroRng ℝ)
          (hitGame ℝ score)).2
        (beforeCollisions realMath (noKeys 0) (zeroRng ℝ) (hitGame ℝ score)).1 = some c ∧
      c.splits = [0] ∧ c.game.bullets = [] ∧ c.game.asteroids = [] := by
  obtain ⟨-, b2, b3, -, -, -, -, -, -, b10⟩ :=
    beforeCollisions_fields realMath (noKeys 0) (zeroRng ℝ) (hitGame ℝ score)
  have hmx : mathMod ((100 : ℝ) + 1720) 1720 = 100 :=
    mathMod_add_self_of_range (by norm_num) (by norm_num) (by norm_num)
  have hmy : mathMod ((100 : ℝ) + 1060) 1060 = 100 :=
    mathMod_add_self_of_range (by norm_num) (by norm_num) (by norm_num)
  have hb : (beforeCollisions realMath (noKeys 0) (zeroRng ℝ) (hitGame ℝ score)).1.bullets =
      [{ x := 100, y := 100, dx := 5, dy := 0 }] := by
    rw [b2, updateBullets_eq]
    have e : firePhase realMath (noKeys 0) (shipPhase realMath (noKeys 0) (hitGame ℝ score)) =
        shipPhase realMath (noKeys 0) (hitGame ℝ score) :=
      firePhase_blocked _ _ (by simp [noKeys])
    rw [e]
    have hon : specOnScreen 1720 1060
        ({ x := 100, y := 100, dx := 5, dy := 0 } : Bullet ℝ) = true := by
      norm_num [specOnScreen]
    have h95 : (95 : ℝ) + 5 = 100 := by norm_num
    simp [specBulletMotion, shipPhase, hitGame, mkGame, specAdvance, h95, hon]
  have ha : (beforeCollisions realMath (noKeys 0) (zeroRng ℝ) (hitGame ℝ score)).1.asteroids =
      [{ x := 100, y := 100, dx := 0, dy := 0, radius := 8 }] := by
    rw [b3]
    simp [spawnPhase, noKeys, hitGame, mkGame, asteroidSpawnInterval, moveAsteroid, hmx, hmy]
  have hcol : checkCollision realMath (100 : ℝ) 100 100 100 8 = true := by
    simp [checkCollision, realMath]
  have hsp : splitAsteroid realMath 0 (zeroRng ℝ)
      [({ x := 100, y := 100, dx := 0, dy := 0, radius := 8 } : Asteroid ℝ)] =
      some ([], zeroRng ℝ) := by
    have h := splitAsteroid_small realMath 0 (zeroRng ℝ)
      [({ x := 100, y := 100, dx := 0, dy := 0, radius := 8 } : Asteroid ℝ)] (by simp)
      (by norm_num)
    simpa using h
  have hrng : (beforeCollisions realMath (noKeys 0) (zeroRng ℝ) (hitGame ℝ score)).2 =
      zeroRng ℝ := by
    rw [b10]
    simp [spawnPhase, noKeys, hitGame, mkGame, asteroidSpawnInterval]
  have hin := innerLoop_hit realMath 0 0
    { game := (beforeCollisions realMath (noKeys 0) (zeroRng ℝ) (hitGame ℝ score)).1,
      rng := (beforeCollisions realMath (noKeys 0) (zeroRng ℝ) (hitGame ℝ score)).2,
      splits := [] }
    { x := 100, y := 100, dx := 5, dy := 0 }
    { x := 100, y := 100, dx := 0, dy := 0, radius := 8 }
    (by simp only [hb]; rfl) (by simp only [ha]; rfl) hcol ([], zeroRng ℝ)
    (by simp only [ha, hrng]; exact hsp)
  have hlen : (beforeCollisions realMath (noKeys 0) (zeroRng ℝ)
      (hitGame ℝ score)).1.asteroids.length = 0 + 1 := by rw [ha]; rfl
  have hcp : collisionPhase realMath
      (beforeCollisions realMath (noKeys 0) (zeroRng ℝ) (hitGame ℝ score)).2
      (beforeCollisions realMath (noKeys 0) (zeroRng ℝ) (hitGame ℝ score)).1 =
      innerLoop realMath 0 (0 + 1)
        { game := (beforeCollisions realMath (noKeys 0) (zeroRng ℝ) (hitGame ℝ score)).1,
          rng := (beforeCollisions realMath (noKeys 0) (zeroRng ℝ) (hitGame ℝ score)).2,
          splits := [] } := by
    unfold collisionPhase
    rw [hb]
    simp only [List.length_cons, List.length_nil, outerLoop, hlen]
    rw [hin]
  rw [hcp, hin]
  exact ⟨_, rfl, by simp, by simp [hb], by simp⟩

/-- At the start of the collision phase there is at most one bullet more than
at the start of the frame. -/
theorem beforeCollisions_bullets_le (inp : Input) (rng : Rng ℝ) (g : Game ℝ) :
    (beforeCollisions realMath inp rng g).1.bullets.length ≤ g.bullets.length + 1 := by
  obtain ⟨-, b2, -⟩ := beforeCollisions_fields realMath inp rng g
  rw [b2, updateBullets_eq]
  have h1 : (specBulletMotion g.screenWidth g.screenHeight
      (firePhase realMath inp (shipPhase realMath inp g)).bullets).length ≤
      (firePhase realMath inp (shipPhase realMath inp g)).bullets.length := by
    unfold specBulletMotion
    exact (List.length_filter_le _ _).trans (by rw [List.length_map])
  have h2 : (firePhase realMath inp (shipPhase realMath inp g)).bullets.length ≤
      g.bullets.length + 1 := by
    unfold firePhase
    split_ifs <;> simp [shipPhase]
  simp only [List.nil_append]
  omega

/-- One `Update` adds at most one to the sum of the score and the number of
bullets, as long as this sum stays below the largest `int`. -/
theorem score_bound_Update (inp : Input) (rng : Rng ℝ) (g : Game ℝ) (n : Nat)
    (h0 : 0 ≤ g.score) (hb : g.score + g.bullets.length ≤ n) (hn : (n : Int) + 1 ≤ maxInt64) :
    ∃ g1 rng1, Update realMath inp rng g = some (g1, rng1) ∧
      0 ≤ g1.score ∧ g1.score + g1.bullets.length ≤ n + 1 := by
  cases hg : g.isGameOver with
  | true =>
    by_cases hr : inp.keyR = true
    · refine ⟨(resetGame realMath rng g).1, (resetGame realMath rng g).2, ?_, ?_, ?_⟩
      · simp [Update, hg, hr]
      · show (0 : Int) ≤ 0
        exact le_refl _
      · show (0 : Int) + (([] : List (Bullet ℝ)).length : Int) ≤ n + 1
        simp only [List.length_nil]
        omega
    · refine ⟨g, rng, ?_, h0, by omega⟩
      simp [Update, hg, hr]
  | false =>
    obtain ⟨c, -, hU, -, -, -, -, -, -, -, hcount, hscore, -⟩ := Update_playing realMath
      (fun _ => True) (fun _ _ _ _ _ => trivial) inp rng g hg (fun _ _ => trivial)
    obtain ⟨-, f2, -, f4, -⟩ := shipCollisionPhase_frame realMath c.game
    have hle := beforeCollisions_bullets_le inp rng g
    have hmin : minInt64 ≤ g.score := le_trans (by decide) h0
    have e := iterate_incr_of_range c.splits.length g.score hmin (by omega)
    refine ⟨_, _, hU, ?_, ?_⟩
    · rw [f4, hscore, e]; omega
    · rw [f4, f2, hscore, e]; omega

/-- Along any run the score is not negative and, together with the number of
bullets, at most the number of frames played, as long as this number stays
below the largest `int`. -/
theorem score_bound_runFrames :
    ∀ (inputs : List Input) (rng : Rng ℝ) (g : Game ℝ) (n : Nat),
      0 ≤ g.score → g.score + g.bullets.length ≤ n →
      (n : Int) + inputs.length ≤ maxInt64 →
      ∃ gn rngn, runFrames realMath inputs rng g = some (gn, rngn) ∧
        0 ≤ gn.score ∧ gn.score + gn.bullets.length ≤ n + inputs.length := by
  intro inputs
  induction inputs with
  | nil =>
    intro rng g n h0 hb _
    exact ⟨g, rng, rfl, h0, by simpa using hb⟩
  | cons inp rest ih =>
    intro rng g n h0 hb hn
    have hlen : ((inp :: rest).length : Int) = rest.length + 1 := by
      simp only [List.length_cons]; push_cast; ring
    obtain ⟨g1, rng1, hU, h1, hb1⟩ := score_bound_Update inp rng g n h0 hb (by omega)
    obtain ⟨gn, rngn, hR, h2, hb2⟩ := ih rng1 g1 (n + 1) h1 (by push_cast; exact hb1)
      (by push_cast; omega)
    refine ⟨gn, rngn, ?_, h2, ?_⟩
    · simp only [runFrames, hU]
      exact hR
    · push_cast at hb2; omega

/-- In every state that the game built by `main` reaches in fewer than
`2^63 - 1` frames, the score is an `int` that the bullets of the next frame
cannot carry past `2^63 - 1`. -/
theorem score_bound_main (inputs : List Input) (rng0 : Rng ℝ) (zeroTime : Int)
    (hlen : (inputs.length : Int) < maxInt64) :
    ∃ gn rngn,
      runFrames realMath inputs (initGame realMath rng0 zeroTime).2
        (initGame realMath rng0 zeroTime).1 = some (gn, rngn) ∧
      minInt64 ≤ gn.score ∧
      ∀ (inp : Input) (rng : Rng ℝ),
        gn.score + (beforeCollisions realMath inp rng gn).1.bullets.length ≤ maxInt64 := by
  obtain ⟨gn, rngn, hR, h0, hb⟩ := score_bound_runFrames inputs
    (initGame realMath rng0 zeroTime).2 (initGame realMath rng0 zeroTime).1 0
    (le_refl _) (by simp [initGame]) (by push_cast; omega)
  refine ⟨gn, rngn, hR, le_trans (by decide) h0, ?_⟩
  intro inp rng
  have hle := beforeCollisions_bullets_le inp rng gn
  push_cast at hb
  omega

/-- C10: in a `Update` of a game that is not over, with a score (an `int`)
that the bullets alive at the start of the collision phase cannot carry past
`2^63 - 1` (as in every state reached from the game built by `main` in fewer
than `2^63 - 1` frames), the collision phase returns; the number of bullets it
removes equals the number of calls of `splitAsteroid` and is at most the number
of bullets at its start; the score grows by exactly that number, so it does
not decrease; the bullets left are bullets of the start, unchanged and in
order, and every bullet of the start that lies in no asteroid is among them;
each call of `splitAsteroid` is on an asteroid that contains a bullet and
removes only that asteroid. -/
theorem C10_score_counts_hits (inp : Input) (rng : Rng ℝ) (g : Game ℝ)
    (hg : g.isGameOver = false) (hmin : minInt64 ≤ g.score)
    (hmax : g.score + (beforeCollisions realMath inp rng g).1.bullets.length ≤ maxInt64) :
    ∃ c g1,
      collisionPhase realMath (beforeCollisions realMath inp rng g).2
        (beforeCollisions realMath inp rng g).1 = some c ∧
      Update realMath inp rng g = some (g1, c.rng) ∧
      g1.bullets = c.game.bullets ∧
      g1.bullets.Sublist (beforeCollisions realMath inp rng g).1.bullets ∧
      c.splits.length + g1.bullets.length =
        (beforeCollisions realMath inp rng g).1.bullets.length ∧
      c.splits.length ≤ (beforeCollisions realMath inp rng g).1.bullets.length ∧
      g1.score = g.score + c.splits.length ∧
      g.score ≤ g1.score ∧
      ((beforeCollisions realMath inp rng g).1.bullets.filter
        (hitsNone realMath (beforeCollisions realMath inp rng g).1.asteroids)).Sublist
          g1.bullets ∧
      hitChain realMath (beforeCollisions realMath inp rng g).1.bullets c.splits
        (beforeCollisions realMath inp rng g).1.asteroids g1.asteroids := by
  obtain ⟨c, hc, hU, -, -, -, -, -, -, hsub, hcount, hscore, -⟩ := Update_playing realMath
    (fun _ => True) (fun _ _ _ _ _ => trivial) inp rng g hg (fun _ _ => trivial)
  obtain ⟨-, f2, f3, f4, -, -, -, -⟩ := shipCollisionPhase_frame realMath c.game
  obtain ⟨o1, o2, -⟩ := collisionPhase_outcome realMath _ _ c hc
  have hle : c.splits.length ≤ (beforeCollisions realMath inp rng g).1.bullets.length := by
    omega
  have e := iterate_incr_of_range c.splits.length g.score hmin (by omega)
  refine ⟨c, shipCollisionPhase realMath c.game, hc, hU, f2, ?_, ?_, hle, ?_, ?_, ?_, ?_⟩
  · rw [f2]; exact hsub
  · rw [f2]; exact hcount
  · rw [f4, hscore, e]
  · rw [f4, hscore, e]; omega
  · rw [f2]; exact o2
  · rw [f3]; exact o1

/-- C10, an instance: in `hitGame` with score 41 the bullet hits the asteroid,
and the score after the frame is 42. -/
theorem C10_score_counts_hits_witness :
    ∃ g1 rng1, Update realMath (noKeys 0) (zeroRng ℝ) (hitGame ℝ 41) = some (g1, rng1) ∧
      g1.bullets = [] ∧ g1.score = 42 := by
  obtain ⟨c0, hc0, hs0, hb0, -⟩ := hitGame_collision 41
  have hlen : (beforeCollisions realMath (noKeys 0) (zeroRng ℝ) (hitGame ℝ 41)).1.bullets.length
      ≤ 1 := by
    obtain ⟨c, hc, -, -, -, -, -, -, -, -, hcount, -, -⟩ := Update_playing realMath
      (fun _ => True) (fun _ _ _ _ _ => trivial) (noKeys 0) (zeroRng ℝ) (hitGame ℝ 41) rfl
      (fun _ _ => trivial)
    have hcc : c = c0 := Option.some.inj (hc.symm.trans hc0)
    subst hcc
    rw [← hcount, hs0, hb0]; rfl
  obtain ⟨c, g1, hc, hU, hb, -, -, -, hsc, -⟩ :=
    C10_score_counts_hits (noKeys 0) (zeroRng ℝ) (hitGame ℝ 41) rfl (by decide)
      (by
        have h1 : (hitGame ℝ 41).score = 41 := rfl
        have h2 : maxInt64 = 9223372036854775807 := by decide
        rw [h1, h2]; omega)
  have hcc : c = c0 := Option.some.inj (hc.symm.trans hc0)
  subst hcc
  refine ⟨g1, c.rng, hU, hb.trans hb0, ?_⟩
  rw [hsc, hs0]
  rfl

/-- The wrap of a coordinate of something at rest, in float64 arithmetic, when
the sums are float64 values. -/
theorem wrapR_rest (x : ℝ) (w : Int) (h1 : rnd64 (x + 0) = x)
    (hw : rnd64 (w : ℝ) = (w : ℝ)) (h2 : rnd64 (x + (w : ℝ)) = x + (w : ℝ))
    (h0 : 0 ≤ x) (hlt : x < (w : ℝ)) :
    mathMod (rnd64 (rnd64 (x + 0) + rnd64 (w : ℝ))) (rnd64 (w : ℝ)) = x := by
  rw [h1, hw, h2]
  exact mathMod_add_self_of_range (lt_of_le_of_lt h0 hlt) h0 hlt

theorem fl_cast_1720 : rnd64 (((1720 : Int) : ℝ)) = ((1720 : Int) : ℝ) := by
  push_cast; exact fl_1720

theorem fl_cast_1060 : rnd64 (((1060 : Int) : ℝ)) = ((1060 : Int) : ℝ) := by
  push_cast; exact fl_1060

/-- The state in which the collision loop starts in `grazeGame`, in float64
arithmetic: nothing has moved. -/
theorem graze_before :
    (beforeCollisionsR rnd64 float64Math (noKeys 0) (zeroRng ℝ) (grazeGame ℝ)).1.ship.x =
      284718807 / 1048576 ∧
    (beforeCollisionsR rnd64 float64Math (noKeys 0) (zeroRng ℝ) (grazeGame ℝ)).1.ship.y =
      94906269 / 262144 ∧
    (beforeCollisionsR rnd64 float64Math (noKeys 0) (zeroRng ℝ) (grazeGame ℝ)).1.bullets = [] ∧
    (beforeCollisionsR rnd64 float64Math (noKeys 0) (zeroRng ℝ) (grazeGame ℝ)).1.asteroids =
      [{ x := 0, y := 0, dx := 0, dy := 0, radius := 474531345 / 1048576 }] := by
  obtain ⟨b1, b2, b3, -⟩ :=
    beforeCollisionsR_fields rnd64 float64Math (noKeys 0) (zeroRng ℝ) (grazeGame ℝ)
  have z0 : rnd64 ((0 : ℝ) + 0) = 0 := by rw [add_zero, rnd64_zero]
  have zw : rnd64 ((0 : ℝ) + ((1720 : Int) : ℝ)) = 0 + ((1720 : Int) : ℝ) := by
    rw [zero_add]; exact fl_cast_1720
  have zh : rnd64 ((0 : ℝ) + ((1060 : Int) : ℝ)) = 0 + ((1060 : Int) : ℝ) := by
    rw [zero_add]; exact fl_cast_1060
  refine ⟨?_, ?_, ?_, ?_⟩
  · rw [b1]
    simp only [shipMoveR, shipControlsR, noKeys, grazeGame, mkGame, Bool.false_eq_true,
      if_false]
    exact wrapR_rest _ 1720 fl_graze_x0 fl_cast_1720 (by push_cast; exact fl_graze_xw)
      (by norm_num) (by norm_num)
  · rw [b1]
    simp only [shipMoveR, shipControlsR, noKeys, grazeGame, mkGame, Bool.false_eq_true,
      if_false]
    exact wrapR_rest _ 1060 fl_graze_y0 fl_cast_1060 (by push_cast; exact fl_graze_yh)
      (by norm_num) (by norm_num)
  · rw [b2]
    simp [firePhaseR, shipPhaseR, noKeys, grazeGame, mkGame, updateBulletsR]
  · rw [b3]
    have hsp : (spawnPhaseR rnd64 float64Math (noKeys 0) (zeroRng ℝ) (grazeGame ℝ)).1.asteroids =
        [{ x := 0, y := 0, dx := 0, dy := 0, radius := 474531345 / 1048576 }] := by
      simp [spawnPhaseR, noKeys, grazeGame, mkGame, asteroidSpawnInterval]
    rw [hsp]
    have hx := wrapR_rest 0 1720 z0 fl_cast_1720 zw (le_refl _) (by norm_num)
    have hy := wrapR_rest 0 1060 z0 fl_cast_1060 zh (le_refl _) (by norm_num)
    simp only [List.map_cons, List.map_nil, moveAsteroidR, grazeGame, mkGame, hx, hy]

/-- C11, refuted as stated: in `grazeGame` the ship and the asteroid are at
rest, and the distance from the ship to the centre of the asteroid is exactly
the radius.  After a `Update` in float64 arithmetic with no key pressed both
are where they were (the sums of the wrap are exact), and the game is over,
although no asteroid is at a distance strictly less than its radius. -/
theorem C11_counterexample :
    (grazeGame ℝ).isGameOver = false ∧
    ∃ g1 rng1, UpdateR rnd64 float64Math (noKeys 0) (zeroRng ℝ) (grazeGame ℝ) =
        some (g1, rng1) ∧
      g1.isGameOver = true ∧
      g1.ship.x = 284718807 / 1048576 ∧ g1.ship.y = 94906269 / 262144 ∧
      g1.asteroids = [{ x := 0, y := 0, dx := 0, dy := 0, radius := 474531345 / 1048576 }] ∧
      ∀ a ∈ g1.asteroids,
        ¬ (Real.sqrt ((g1.ship.x - a.x) ^ 2 + (g1.ship.y - a.y) ^ 2) < a.radius) := by
  obtain ⟨hx, hy, hb, ha⟩ := graze_before
  obtain ⟨c, -, hU, -, -, -, -, -, -, -, hnb⟩ :=
    UpdateR_playing rnd64 float64Math (noKeys 0) (zeroRng ℝ) (grazeGame ℝ) rfl
  have hc := hnb hb
  obtain ⟨f1, -, f3, -⟩ := shipCollisionPhaseR_frame rnd64 float64Math c.game
  have hcx : c.game.ship.x = 284718807 / 1048576 := by rw [hc]; exact hx
  have hcy : c.game.ship.y = 94906269 / 262144 := by rw [hc]; exact hy
  have hca : c.game.asteroids =
      [{ x := 0, y := 0, dx := 0, dy := 0, radius := 474531345 / 1048576 }] := by
    rw [hc]; exact ha
  have hhit : shipHitR rnd64 float64Math c.game.ship c.game.asteroids = true := by
    rw [shipHitR_iff]
    refine ⟨_, by rw [hca]; exact List.mem_singleton.mpr rfl, ?_⟩
    rw [hcx, hcy]
    exact graze_check
  refine ⟨rfl, _, _, hU, ?_, ?_, ?_, ?_, ?_⟩
  · simp only [shipCollisionPhaseR, hhit, if_true]
  · rw [f1]; exact hcx
  · rw [f1]; exact hcy
  · rw [f3]; exact hca
  · intro a hmem
    rw [f3, hca] at hmem
    rw [List.mem_singleton.mp hmem, f1, hcx, hcy]
    show ¬ (Real.sqrt (((284718807 / 1048576 : ℝ) - 0) ^ 2 +
      ((94906269 / 262144 : ℝ) - 0) ^ 2) < 474531345 / 1048576)
    rw [graze_distance]
    exact lt_irrefl _

/-- C11 (amended): after a `Update` of a game that is not over, in rounded
arithmetic with any rounding and any `math` library, `isGameOver` is true
exactly when `checkCollision` holds of the ship's updated position and some
asteroid left by the collision loop (children created in this frame included),
that is, when the distance as computed, `math.Sqrt(dx*dx + dy*dy)` with every
operation rounded, is strictly less than the radius of the asteroid; the ship
test changes no other field: ship, bullets, asteroids, score, screen and both
timestamps are those left by the collision loop. -/
theorem C11_game_over_iff_ship_hit (R : ℝ → ℝ) (M : MathLib ℝ) (inp : Input) (rng : Rng ℝ)
    (g : Game ℝ) (hg : g.isGameOver = false) :
    ∃ c g1,
      collisionPhaseR R M (beforeCollisionsR R M inp rng g).2
        (beforeCollisionsR R M inp rng g).1 = some c ∧
      UpdateR R M inp rng g = some (g1, c.rng) ∧
      c.game.ship = (shipPhaseR R M inp g).ship ∧
      (g1.isGameOver = true ↔
        ∃ a ∈ c.game.asteroids,
          checkCollisionR R M c.game.ship.x c.game.ship.y a.x a.y a.radius = true) ∧
      (g1.isGameOver = true ↔
        ∃ a ∈ c.game.asteroids,
          M.sqrt (R (R (R (c.game.ship.x - a.x) * R (c.game.ship.x - a.x)) +
            R (R (c.game.ship.y - a.y) * R (c.game.ship.y - a.y)))) < a.radius) ∧
      g1.ship = c.game.ship ∧ g1.bullets = c.game.bullets ∧
      g1.asteroids = c.game.asteroids ∧ g1.score = c.game.score ∧
      g1.screenWidth = c.game.screenWidth ∧ g1.screenHeight = c.game.screenHeight ∧
      g1.lastBullet = c.game.lastBullet ∧ g1.lastAsteroid = c.game.lastAsteroid := by
  obtain ⟨b1, -⟩ := beforeCollisionsR_fields R M inp rng g
  obtain ⟨c, hc, hU, hship, hover, -⟩ := UpdateR_playing R M inp rng g hg
  obtain ⟨f1, f2, f3, f4, f5, f6, f7, f8⟩ := shipCollisionPhaseR_frame R M c.game
  have hflag : (shipCollisionPhaseR R M c.game).isGameOver = true ↔
      ∃ a ∈ c.game.asteroids,
        checkCollisionR R M c.game.ship.x c.game.ship.y a.x a.y a.radius = true := by
    rw [← shipHitR_iff]
    unfold shipCollisionPhaseR
    by_cases h : shipHitR R M c.game.ship c.game.asteroids = true
    · simp [h]
    · simp [h, hover]
  refine ⟨c, shipCollisionPhaseR R M c.game, hc, hU, ?_, hflag, ?_, f1, f2, f3, f4, f5, f6,
    f7, f8⟩
  · rw [hship, b1]; rfl
  · rw [hflag]
    simp only [checkCollisionR, decide_eq_true_eq]

/-- C11, an instance, in float64 arithmetic: in `crashGame` the ship sits at
the centre of an asteroid of radius 30, and the game is over after the frame. -/
theorem C11_game_over_iff_ship_hit_witness :
    ∃ g1 rng1, UpdateR rnd64 float64Math (noKeys 0) (zeroRng ℝ) (crashGame ℝ) =
        some (g1, rng1) ∧
      g1.isGameOver = true := by
  obtain ⟨c, g1, hc, hU, hship, hiff, -⟩ :=
    C11_game_over_iff_ship_hit rnd64 float64Math (noKeys 0) (zeroRng ℝ) (crashGame ℝ) rfl
  obtain ⟨-, b2, b3, -⟩ :=
    beforeCollisionsR_fields rnd64 float64Math (noKeys 0) (zeroRng ℝ) (crashGame ℝ)
  obtain ⟨c', hc', -, -, -, -, -, -, -, -, hnb⟩ :=
    UpdateR_playing rnd64 float64Math (noKeys 0) (zeroRng ℝ) (crashGame ℝ) rfl
  have hcc : c = c' := Option.some.inj (hc.symm.trans hc')
  have hb : (beforeCollisionsR rnd64 float64Math (noKeys 0) (zeroRng ℝ)
      (crashGame ℝ)).1.bullets = [] := by
    rw [b2]
    simp [firePhaseR, shipPhaseR, noKeys, crashGame, mkGame, updateBulletsR]
  have hx := wrapR_rest 400 1720 fl_400_0 fl_cast_1720 (by push_cast; exact fl_400_1720)
    (by norm_num) (by norm_num)
  have hy := wrapR_rest 300 1060 fl_300_0 fl_cast_1060 (by push_cast; exact fl_300_1060)
    (by norm_num) (by norm_num)
  have ha : (beforeCollisionsR rnd64 float64Math (noKeys 0) (zeroRng ℝ)
      (crashGame ℝ)).1.asteroids = [{ x := 400, y := 300, dx := 0, dy := 0, radius := 30 }] := by
    rw [b3]
    have hsp : (spawnPhaseR rnd64 float64Math (noKeys 0) (zeroRng ℝ) (crashGame ℝ)).1.asteroids =
        [{ x := 400, y := 300, dx := 0, dy := 0, radius := 30 }] := by
      simp [spawnPhaseR, noKeys, crashGame, mkGame, asteroidSpawnInterval]
    rw [hsp]
    simp only [List.map_cons, List.map_nil, moveAsteroidR, crashGame, mkGame, hx, hy]
  have hsx : c.game.ship.x = 400 := by
    rw [hship]
    simp only [shipPhaseR, shipMoveR, shipControlsR, noKeys, crashGame, mkGame,
      Bool.false_eq_true, if_false]
    exact hx
  have hsy : c.game.ship.y = 300 := by
    rw [hship]
    simp only [shipPhaseR, shipMoveR, shipControlsR, noKeys, crashGame, mkGame,
      Bool.false_eq_true, if_false]
    exact hy
  refine ⟨g1, c.rng, hU, hiff.mpr ⟨{ x := 400, y := 300, dx := 0, dy := 0, radius := 30 }, ?_, ?_⟩⟩
  · rw [hcc, hnb hb]; simp [ha]
  · rw [hsx, hsy]
    simp only [checkCollisionR, float64Math, decide_eq_true_eq, sub_self, rnd64_zero, mul_zero,
      add_zero, Real.sqrt_zero]
    norm_num

/-- The ship after a `Update` of a game that is not over is the ship left by
the ship phase. -/
theorem Update_ship (inp : Input) (rng : Rng ℝ) (g : Game ℝ) (hg : g.isGameOver = false) :
    ∃ g1 rng1, Update realMath inp rng g = some (g1, rng1) ∧
      g1.ship = shipMove g.screenWidth g.screenHeight (shipControls realMath inp g.ship) := by
  obtain ⟨b1, -, -, -, -, -, -, -, -, -⟩ := beforeCollisions_fields realMath inp rng g
  obtain ⟨c, -, hU, hship, -⟩ := Update_playing realMath
    (fun _ => True) (fun _ _ _ _ _ => trivial) inp rng g hg (fun _ _ => trivial)
  obtain ⟨f1, -⟩ := shipCollisionPhase_frame realMath c.game
  exact ⟨_, _, hU, by rw [f1, hship, b1]⟩

/-- C12, refuted as stated: in `driftGame` (ship at x = 400 with velocity 100,
no key pressed) the position is integrated by the velocity before the friction
is applied: the ship ends at x = 500, while the wrap of
`400 + 0.99 * 100` is 499. -/
theorem C12_counterexample :
    (driftGame ℝ).isGameOver = false ∧
    ∃ g1 rng1, Update realMath (noKeys 0) (zeroRng ℝ) (driftGame ℝ) = some (g1, rng1) ∧
      g1.ship.x = 500 ∧
      mathMod ((driftGame ℝ).ship.x +
          0.99 * (shipControls realMath (noKeys 0) (driftGame ℝ).ship).velocityX +
          ((driftGame ℝ).screenWidth : ℝ)) ((driftGame ℝ).screenWidth : ℝ) = 499 ∧
      g1.ship.x ≠
        mathMod ((driftGame ℝ).ship.x +
          0.99 * (shipControls realMath (noKeys 0) (driftGame ℝ).ship).velocityX +
          ((driftGame ℝ).screenWidth : ℝ)) ((driftGame ℝ).screenWidth : ℝ) := by
  refine ⟨rfl, ?_⟩
  obtain ⟨g1, rng1, hU, hship⟩ := Update_ship (noKeys 0) (zeroRng ℝ) (driftGame ℝ) rfl
  have h500 : mathMod ((500 : ℝ) + 1720) 1720 = 500 :=
    mathMod_add_self_of_range (by norm_num) (by norm_num) (by norm_num)
  have h499 : mathMod ((499 : ℝ) + 1720) 1720 = 499 :=
    mathMod_add_self_of_range (by norm_num) (by norm_num) (by norm_num)
  have hx : g1.ship.x = 500 := by
    rw [hship]
    have e : (400 : ℝ) + 100 = 500 := by norm_num
    simp [shipMove, shipControls, noKeys, driftGame, mkGame, e, h500]
  have hc : mathMod ((driftGame ℝ).ship.x +
      0.99 * (shipControls realMath (noKeys 0) (driftGame ℝ).ship).velocityX +
      ((driftGame ℝ).screenWidth : ℝ)) ((driftGame ℝ).screenWidth : ℝ) = 499 := by
    have e : (400 : ℝ) + 0.99 * 100 = 499 := by norm_num
    simp [shipControls, noKeys, driftGame, mkGame, e, h499]
  refine ⟨g1, rng1, hU, hx, hc, ?_⟩
  rw [hx, hc]; norm_num

/-- C12 (amended): in a `Update` of a game that is not over the ship steps
happen in this order: the velocity is updated by the thrust, the position is
integrated by that velocity (not yet damped), the velocity is damped by 0.99,
and the position is wrapped; so the new position is
`Mod (old position + (old velocity + thrust) + size, size)` and the new
velocity is `0.99 * (old velocity + thrust)`. -/
theorem C12_ship_step_order (inp : Input) (rng : Rng ℝ) (g : Game ℝ)
    (hg : g.isGameOver = false) :
    (shipControls realMath inp g.ship).x = g.ship.x ∧
    (shipControls realMath inp g.ship).y = g.ship.y ∧
    ∃ g1 rng1, Update realMath inp rng g = some (g1, rng1) ∧
      g1.ship.x = mathMod (g.ship.x + (shipControls realMath inp g.ship).velocityX +
        (g.screenWidth : ℝ)) (g.screenWidth : ℝ) ∧
      g1.ship.y = mathMod (g.ship.y + (shipControls realMath inp g.ship).velocityY +
        (g.screenHeight : ℝ)) (g.screenHeight : ℝ) ∧
      g1.ship.velocityX = 0.99 * (shipControls realMath inp g.ship).velocityX ∧
      g1.ship.velocityY = 0.99 * (shipControls realMath inp g.ship).velocityY := by
  have hx : (shipControls realMath inp g.ship).x = g.ship.x := by
    unfold shipControls; split_ifs <;> rfl
  have hy : (shipControls realMath inp g.ship).y = g.ship.y := by
    unfold shipControls; split_ifs <;> rfl
  obtain ⟨g1, rng1, hU, hship⟩ := Update_ship inp rng g hg
  refine ⟨hx, hy, g1, rng1, hU, ?_, ?_, ?_, ?_⟩
  · rw [hship, ← hx]; rfl
  · rw [hship, ← hy]; rfl
  · rw [hship]; simp only [shipMove]; ring
  · rw [hship]; simp only [shipMove]; ring

/-- C12, an instance: `driftGame` with no key pressed; the ship moves by the
full velocity 100 and the velocity becomes 99. -/
theorem C12_ship_step_order_witness :
    ∃ g1 rng1, Update realMath (noKeys 0) (zeroRng ℝ) (driftGame ℝ) = some (g1, rng1) ∧
      g1.ship.x = mathMod ((400 : ℝ) + 100 + 1720) 1720 ∧ g1.ship.velocityX = 99 := by
  obtain ⟨-, -, g1, rng1, hU, hx, -, hv, -⟩ :=
    C12_ship_step_order (noKeys 0) (zeroRng ℝ) (driftGame ℝ) rfl
  refine ⟨g1, rng1, hU, ?_, ?_⟩
  · rw [hx]; simp [shipControls, noKeys, driftGame, mkGame]
  · rw [hv]; simp [shipControls, noKeys, driftGame, mkGame]; norm_num

/-- The ship after a `UpdateR` of a game that is not over is the ship left by
the ship phase. -/
theorem UpdateR_ship (R : ℝ → ℝ) (M : MathLib ℝ) (inp : Input) (rng : Rng ℝ) (g : Game ℝ)
    (hg : g.isGameOver = false) :
    ∃ g1 rng1, UpdateR R M inp rng g = some (g1, rng1) ∧
      g1.ship = shipMoveR R g.screenWidth g.screenHeight (shipControlsR R M inp g.ship) := by
  obtain ⟨b1, -⟩ := beforeCollisionsR_fields R M inp rng g
  obtain ⟨c, -, hU, hship, -⟩ := UpdateR_playing R M inp rng g hg
  obtain ⟨f1, -⟩ := shipCollisionPhaseR_frame R M c.game
  exact ⟨_, _, hU, by rw [f1, hship, b1]⟩

/-- C13, refuted as stated, in float64 arithmetic.  With left and right
pressed together the angle 0.01 becomes (0.01 - 0.1) + 0.1, which rounds to
0.009999999999999995: the angle changes.  With up and down pressed together at
angle 0 the velocity 0.05 becomes ((0.05 + 0.2) - 0.2) * 0.99, which rounds to
0.04949999999999999: not the velocity times 0.99, rounded (0.0495) or not. -/
theorem C13_counterexample :
    ((turnGame ℝ).isGameOver = false ∧
      rnd64 (0.01 : ℝ) = (turnGame ℝ).ship.angle ∧
      ∃ g1 rng1, UpdateR rnd64 float64Math (bothTurns 0) (zeroRng ℝ) (turnGame ℝ) =
          some (g1, rng1) ∧
        g1.ship.angle = 720575940379279 / 72057594037927936 ∧
        g1.ship.angle ≠ (turnGame ℝ).ship.angle) ∧
    ((dampGame ℝ).isGameOver = false ∧
      rnd64 (0.05 : ℝ) = (dampGame ℝ).ship.velocityX ∧
      ∃ g1 rng1, UpdateR rnd64 float64Math (bothThrusts 0) (zeroRng ℝ) (dampGame ℝ) =
          some (g1, rng1) ∧
        g1.ship.velocityX = 445856363109679 / 9007199254740992 ∧
        g1.ship.velocityX ≠ rnd64 ((dampGame ℝ).ship.velocityX * rnd64 0.99) ∧
        g1.ship.velocityX ≠ 0.99 * (dampGame ℝ).ship.velocityX) := by
  constructor
  · obtain ⟨g1, rng1, hU, hship⟩ :=
      UpdateR_ship rnd64 float64Math (bothTurns 0) (zeroRng ℝ) (turnGame ℝ) rfl
    have ha : g1.ship.angle = 720575940379279 / 72057594037927936 := by
      rw [hship]
      simp only [shipMoveR, shipControlsR, bothTurns, turnGame, mkGame, if_true,
        Bool.false_eq_true, if_false]
      rw [fl_lit_01, fl_turn_left, fl_turn_right]
    refine ⟨rfl, ?_, g1, rng1, hU, ha, ?_⟩
    · show rnd64 (0.01 : ℝ) = 5764607523034235 / 576460752303423488
      apply rnd64_pos _ _ (-7) 5764607523034235 <;> norm_num
    · rw [ha]
      show (720575940379279 / 72057594037927936 : ℝ) ≠ 5764607523034235 / 576460752303423488
      norm_num
  · obtain ⟨g1, rng1, hU, hship⟩ :=
      UpdateR_ship rnd64 float64Math (bothThrusts 0) (zeroRng ℝ) (dampGame ℝ) rfl
    have hv : g1.ship.velocityX = 445856363109679 / 9007199254740992 := by
      rw [hship]
      simp only [shipMoveR, shipControlsR, bothThrusts, dampGame, mkGame, if_true,
        Bool.false_eq_true, if_false, float64Math, Real.cos_zero]
      rw [fl_lit_02, fl_one, fl_thrust_mul, fl_thrust_up, fl_thrust_down, fl_lit_099,
        fl_thrust_damp]
    refine ⟨rfl, ?_, g1, rng1, hU, hv, ?_, ?_⟩
    · show rnd64 (0.05 : ℝ) = 3602879701896397 / 72057594037927936
      apply rnd64_pos _ _ (-5) 7205759403792794 <;> norm_num
    · rw [hv]
      show (445856363109679 / 9007199254740992 : ℝ) ≠
        rnd64 ((3602879701896397 / 72057594037927936 : ℝ) * rnd64 0.99)
      rw [fl_lit_099, fl_pure_damp]
      norm_num
    · rw [hv]
      show (445856363109679 / 9007199254740992 : ℝ) ≠
        0.99 * (3602879701896397 / 72057594037927936 : ℝ)
      norm_num

/-- C13 (amended): in a `Update` of a game that is not over, in rounded
arithmetic with any rounding and any `math` library, for every combination of
the four direction keys: the new angle is the old one, with 0.1 subtracted if
left is pressed and then 0.1 added if right is pressed; each velocity component
is the old one, with `cos` (`sin`) of the new angle times 0.2 added if up is
pressed and then subtracted if down is pressed, and then multiplied by 0.99;
each of these operations is rounded.  With neither left nor right the angle is
unchanged; with neither up nor down each velocity component is the old one
times 0.99, rounded once. -/
theorem C13_angle_and_velocity (R : ℝ → ℝ) (M : MathLib ℝ) (inp : Input) (rng : Rng ℝ)
    (g : Game ℝ) (hg : g.isGameOver = false) :
    ∃ g1 rng1 a1 vx1 vy1 vx2 vy2,
      UpdateR R M inp rng g = some (g1, rng1) ∧
      a1 = (if inp.keyLeft then R (g.ship.angle - R 0.1) else g.ship.angle) ∧
      g1.ship.angle = (if inp.keyRight then R (a1 + R 0.1) else a1) ∧
      vx1 = (if inp.keyUp then R (g.ship.velocityX + R (M.cos g1.ship.angle * R 0.2))
        else g.ship.velocityX) ∧
      vy1 = (if inp.keyUp then R (g.ship.velocityY + R (M.sin g1.ship.angle * R 0.2))
        else g.ship.velocityY) ∧
      vx2 = (if inp.keyDown then R (vx1 - R (M.cos g1.ship.angle * R 0.2)) else vx1) ∧
      vy2 = (if inp.keyDown then R (vy1 - R (M.sin g1.ship.angle * R 0.2)) else vy1) ∧
      g1.ship.velocityX = R (vx2 * R 0.99) ∧
      g1.ship.velocityY = R (vy2 * R 0.99) ∧
      (inp.keyLeft = false → inp.keyRight = false → g1.ship.angle = g.ship.angle) ∧
      (inp.keyLeft = true → inp.keyRight = false → g1.ship.angle = R (g.ship.angle - R 0.1)) ∧
      (inp.keyLeft = false → inp.keyRight = true → g1.ship.angle = R (g.ship.angle + R 0.1)) ∧
      (inp.keyLeft = true → inp.keyRight = true →
        g1.ship.angle = R (R (g.ship.angle - R 0.1) + R 0.1)) ∧
      (inp.keyUp = false → inp.keyDown = false →
        g1.ship.velocityX = R (g.ship.velocityX * R 0.99) ∧
        g1.ship.velocityY = R (g.ship.velocityY * R 0.99)) := by
  obtain ⟨g1, rng1, hU, hship⟩ := UpdateR_ship R M inp rng g hg
  refine ⟨g1, rng1, _, _, _, _, _, hU, rfl, ?_, rfl, rfl, rfl, rfl, ?_, ?_, ?_, ?_, ?_, ?_, ?_⟩
  · rw [hship]
    rcases inp with ⟨l, r, u, d, sp, kr, now⟩
    cases l <;> cases r <;> cases u <;> cases d <;> simp [shipMoveR, shipControlsR]
  · rw [hship]
    rcases inp with ⟨l, r, u, d, sp, kr, now⟩
    cases l <;> cases r <;> cases u <;> cases d <;> simp [shipMoveR, shipControlsR]
  · rw [hship]
    rcases inp with ⟨l, r, u, d, sp, kr, now⟩
    cases l <;> cases r <;> cases u <;> cases d <;> simp [shipMoveR, shipControlsR]
  · intro hl hr
    rw [hship]
    rcases inp with ⟨l, r, u, d, sp, kr, now⟩
    cases hl; cases hr
    cases u <;> cases d <;> simp [shipMoveR, shipControlsR]
  · intro hl hr
    rw [hship]
    rcases inp with ⟨l, r, u, d, sp, kr, now⟩
    cases hl; cases hr
    cases u <;> cases d <;> simp [shipMoveR, shipControlsR]
  · intro hl hr
    rw [hship]
    rcases inp with ⟨l, r, u, d, sp, kr, now⟩
    cases hl; cases hr
    cases u <;> cases d <;> simp [shipMoveR, shipControlsR]
  · intro hl hr
    rw [hship]
    rcases inp with ⟨l, r, u, d, sp, kr, now⟩
    cases hl; cases hr
    cases u <;> cases d <;> simp [shipMoveR, shipControlsR]
  · intro hu hd
    rw [hship]
    rcases inp with ⟨l, r, u, d, sp, kr, now⟩
    cases hu; cases hd
    cases l <;> cases r <;> simp [shipMoveR, shipControlsR]

/-- C13, an instance, in float64 arithmetic: `driftGame` with no key pressed;
the angle stays 0 and the velocity (100, 0) becomes (99, 0). -/
theorem C13_angle_and_velocity_witness :
    ∃ g1 rng1, UpdateR rnd64 float64Math (noKeys 0) (zeroRng ℝ) (driftGame ℝ) =
        some (g1, rng1) ∧
      g1.ship.angle = 0 ∧ g1.ship.velocityX = 99 ∧ g1.ship.velocityY = 0 := by
  obtain ⟨g1, rng1, a1, vx1, vy1, vx2, vy2, hU, -, -, -, -, -, -, -, -, ha, -, -, -, hv⟩ :=
    C13_angle_and_velocity rnd64 float64Math (noKeys 0) (zeroRng ℝ) (driftGame ℝ) rfl
  refine ⟨g1, rng1, hU, ?_, ?_, ?_⟩
  · rw [ha rfl rfl]; rfl
  · rw [(hv rfl rfl).1]
    show rnd64 ((100 : ℝ) * rnd64 0.99) = 99
    rw [fl_lit_099, fl_drift_damp]
  · rw [(hv rfl rfl).2]
    show rnd64 ((0 : ℝ) * rnd64 0.99) = 0
    rw [zero_mul, rnd64_zero]

theorem fl_cast_3_1720 : rnd64 ((3 : ℝ) + ((1720 : Int) : ℝ)) = 3 + ((1720 : Int) : ℝ) := by
  push_cast
  apply rnd64_pos _ _ 10 7577834138632192 <;> norm_num

/-- C14, refuted as stated: `idleGame` has no asteroid and its last spawn is at
time 0; the `Update` at 4 s in float64 arithmetic, with the draws of `edgeRng`
(float64 values in `[0, 1)`), spawns one asteroid.  The draw `1 - 2^-53` makes
`rand * 2 + 1` round to 3, and the asteroid gets the velocity (3, 0): its speed
is 3, not less than 3. -/
theorem C14_counterexample :
    (idleGame ℝ).isGameOver = false ∧
    spawnDue.now - (idleGame ℝ).lastAsteroid > 3 * 1000000000 ∧
    (∀ n, 0 ≤ edgeRng ℝ n ∧ edgeRng ℝ n < 1 ∧ rnd64 (edgeRng ℝ n) = edgeRng ℝ n) ∧
    ∃ g1 rng1, UpdateR rnd64 float64Math spawnDue (edgeRng ℝ) (idleGame ℝ) =
        some (g1, rng1) ∧
      g1.asteroids = [{ x := 3, y := 0, dx := 3, dy := 0, radius := 30 }] ∧
      ¬ (Real.sqrt ((3 : ℝ) * 3 + 0 * 0) < 3) ∧
      ¬ (float64Math.sqrt (rnd64 (rnd64 ((3 : ℝ) * 3) + rnd64 (0 * 0))) < 3) := by
  obtain ⟨-, b2, b3, -⟩ :=
    beforeCollisionsR_fields rnd64 float64Math spawnDue (edgeRng ℝ) (idleGame ℝ)
  obtain ⟨c, -, hU, -, -, -, -, -, -, -, hnb⟩ :=
    UpdateR_playing rnd64 float64Math spawnDue (edgeRng ℝ) (idleGame ℝ) rfl
  obtain ⟨-, -, f3, -⟩ := shipCollisionPhaseR_frame rnd64 float64Math c.game
  have hb : (beforeCollisionsR rnd64 float64Math spawnDue (edgeRng ℝ)
      (idleGame ℝ)).1.bullets = [] := by
    rw [b2]
    simp [firePhaseR, shipPhaseR, spawnDue, noKeys, idleGame, mkGame, updateBulletsR]
  have hsp : (spawnPhaseR rnd64 float64Math spawnDue (edgeRng ℝ) (idleGame ℝ)).1.asteroids =
      [(newAsteroidR rnd64 float64Math (edgeRng ℝ) 1720 1060).1] := by
    have hdue : spawnDue.now - (idleGame ℝ).lastAsteroid > asteroidSpawnInterval := by decide
    simp only [spawnPhaseR, hdue, if_true]
    rfl
  have z0 : rnd64 ((0 : ℝ) + 0) = 0 := by rw [add_zero, rnd64_zero]
  have zh : rnd64 ((0 : ℝ) + ((1060 : Int) : ℝ)) = 0 + ((1060 : Int) : ℝ) := by
    rw [zero_add]; exact fl_cast_1060
  have hx : mathMod (rnd64 (rnd64 ((0 : ℝ) + 3) + rnd64 (((1720 : Int) : ℝ))))
      (rnd64 (((1720 : Int) : ℝ))) = 3 := by
    rw [fl_zero_three, fl_cast_1720, fl_cast_3_1720]
    exact mathMod_add_self_of_range (by norm_num) (by norm_num) (by norm_num)
  have hy := wrapR_rest 0 1060 z0 fl_cast_1060 zh (le_refl _) (by norm_num)
  have ha : (beforeCollisionsR rnd64 float64Math spawnDue (edgeRng ℝ)
      (idleGame ℝ)).1.asteroids = [{ x := 3, y := 0, dx := 3, dy := 0, radius := 30 }] := by
    rw [b3, hsp, edge_asteroid]
    simp only [List.map_cons, List.map_nil, moveAsteroidR, idleGame, mkGame, hx, hy]
  refine ⟨rfl, by decide, edgeRng_draws, _, _, hU, ?_, edge_speed.1, edge_speed.2⟩
  rw [f3, hnb hb]
  exact ha

/-- C14 (amended): in a `Update` of a game that is not over, in float64
arithmetic with any `math` library, on a screen of positive width and height
below `2^53` and for all float64 draws in `[0, 1)`, the spawn phase (which runs
after the bullet phase, on the asteroids and the spawn time of the game)
appends exactly one asteroid if `now - lastAsteroid > 3 s` and sets
`lastAsteroid` to `now`; the asteroid has radius 30, a position in
`[0, width) x [0, height)` and the velocity `speed * cos(angle)`,
`speed * sin(angle)`, each product rounded, for a heading
`angle = rand * 2 * Pi` and a speed factor `speed = rand * 2 + 1` in `[1, 3]`.
Otherwise the spawn phase changes nothing and draws nothing.  The returned game
has the `lastAsteroid` of the spawn phase. -/
theorem C14_spawn_rule (M : MathLib ℝ) (inp : Input) (rng : Rng ℝ) (g : Game ℝ)
    (hg : g.isGameOver = false)
    (hw : 0 < g.screenWidth) (hw' : g.screenWidth < 2 ^ 53)
    (hh : 0 < g.screenHeight) (hh' : g.screenHeight < 2 ^ 53)
    (hrng : ∀ n, 0 ≤ rng n ∧ rng n < 1 ∧ rnd64 (rng n) = rng n) :
    (bulletPhaseR rnd64 (firePhaseR rnd64 M inp (shipPhaseR rnd64 M inp g))).asteroids =
      g.asteroids ∧
    (bulletPhaseR rnd64 (firePhaseR rnd64 M inp (shipPhaseR rnd64 M inp g))).lastAsteroid =
      g.lastAsteroid ∧
    (inp.now - g.lastAsteroid > 3 * 1000000000 →
      ∃ a rng1,
        spawnPhaseR rnd64 M inp rng
            (bulletPhaseR rnd64 (firePhaseR rnd64 M inp (shipPhaseR rnd64 M inp g))) =
          ({ bulletPhaseR rnd64 (firePhaseR rnd64 M inp (shipPhaseR rnd64 M inp g)) with
             asteroids := g.asteroids ++ [a], lastAsteroid := inp.now }, rng1) ∧
        a.radius = 30 ∧
        (0 ≤ a.x ∧ a.x < (g.screenWidth : ℝ)) ∧ (0 ≤ a.y ∧ a.y < (g.screenHeight : ℝ)) ∧
        ∃ r0 r1 speed angle, (0 ≤ r0 ∧ r0 < 1) ∧ (0 ≤ r1 ∧ r1 < 1) ∧
          angle = rnd64 (rnd64 (r0 * 2) * M.pi) ∧ speed = rnd64 (rnd64 (r1 * 2) + 1) ∧
          1 ≤ speed ∧ speed ≤ 3 ∧
          a.dx = rnd64 (speed * M.cos angle) ∧ a.dy = rnd64 (speed * M.sin angle)) ∧
    (¬ (inp.now - g.lastAsteroid > 3 * 1000000000) →
      spawnPhaseR rnd64 M inp rng
          (bulletPhaseR rnd64 (firePhaseR rnd64 M inp (shipPhaseR rnd64 M inp g))) =
        (bulletPhaseR rnd64 (firePhaseR rnd64 M inp (shipPhaseR rnd64 M inp g)), rng)) ∧
    ∃ g1 rng1, UpdateR rnd64 M inp rng g = some (g1, rng1) ∧
      g1.lastAsteroid =
        (spawnPhaseR rnd64 M inp rng
          (bulletPhaseR rnd64 (firePhaseR rnd64 M inp
            (shipPhaseR rnd64 M inp g)))).1.lastAsteroid := by
  obtain ⟨-, f2, -, -, f5, f6, f7⟩ := firePhaseR_frame rnd64 M inp (shipPhaseR rnd64 M inp g)
  have e1 : (bulletPhaseR rnd64 (firePhaseR rnd64 M inp (shipPhaseR rnd64 M inp g))).asteroids =
      g.asteroids := f2.trans rfl
  have e2 : (bulletPhaseR rnd64 (firePhaseR rnd64 M inp
      (shipPhaseR rnd64 M inp g))).lastAsteroid = g.lastAsteroid := f7.trans rfl
  have e3 : (bulletPhaseR rnd64 (firePhaseR rnd64 M inp
      (shipPhaseR rnd64 M inp g))).screenWidth = g.screenWidth := f5.trans rfl
  have e4 : (bulletPhaseR rnd64 (firePhaseR rnd64 M inp
      (shipPhaseR rnd64 M inp g))).screenHeight = g.screenHeight := f6.trans rfl
  refine ⟨e1, e2, ?_, ?_, ?_⟩
  · intro hc
    obtain ⟨⟨n1, n2, n3, n4⟩, -⟩ :=
      newAsteroidR_spec M rng g.screenWidth g.screenHeight hw hw' hh hh' hrng
    refine ⟨(newAsteroidR rnd64 M rng g.screenWidth g.screenHeight).1,
      (newAsteroidR rnd64 M rng g.screenWidth g.screenHeight).2, ?_, n1, n2, n3, n4⟩
    have hc' : inp.now - g.lastAsteroid > asteroidSpawnInterval := hc
    simp only [spawnPhaseR, e1, e2, e3, e4, hc', if_true]
  · intro hc
    have hc' : ¬ (inp.now - g.lastAsteroid > asteroidSpawnInterval) := hc
    simp only [spawnPhaseR, e2, hc', if_false]
  · obtain ⟨-, -, -, -, -, -, -, -, b9, -⟩ := beforeCollisionsR_fields rnd64 M inp rng g
    obtain ⟨c, -, hU, -, -, -, hla, -⟩ := UpdateR_playing rnd64 M inp rng g hg
    obtain ⟨-, -, -, -, -, -, -, f8⟩ := shipCollisionPhaseR_frame rnd64 M c.game
    refine ⟨_, _, hU, ?_⟩
    rw [f8, hla]
    rfl

/-- C14, an instance, in float64 arithmetic: `crashGame` (last spawn at time
0) seen at `4 s`, all draws `0`: an asteroid of radius 30 is spawned and
`lastAsteroid` becomes `4 s`. -/
theorem C14_spawn_rule_witness :
    (∃ a rng1,
      spawnPhaseR rnd64 float64Math (spawnDue) (zeroRng ℝ)
          (bulletPhaseR rnd64 (firePhaseR rnd64 float64Math (spawnDue)
            (shipPhaseR rnd64 float64Math (spawnDue) (crashGame ℝ)))) =
        ({ bulletPhaseR rnd64 (firePhaseR rnd64 float64Math (spawnDue)
            (shipPhaseR rnd64 float64Math (spawnDue) (crashGame ℝ))) with
           asteroids := (crashGame ℝ).asteroids ++ [a], lastAsteroid := 4000000000 }, rng1) ∧
      a.radius = 30) ∧
    ∃ g1 rng1, UpdateR rnd64 float64Math (spawnDue) (zeroRng ℝ) (crashGame ℝ) =
        some (g1, rng1) ∧
      g1.lastAsteroid = 4000000000 := by
  obtain ⟨-, -, h3, -, g1, rng1, hU, hla⟩ :=
    C14_spawn_rule float64Math (spawnDue) (zeroRng ℝ) (crashGame ℝ) rfl
      (by decide) (by decide) (by decide) (by decide)
      (fun _ => ⟨le_refl _, by norm_num [zeroRng], rnd64_zero⟩)
  obtain ⟨a, rng2, hs, hr, -⟩ := h3 (by decide)
  refine ⟨⟨a, rng2, hs, hr⟩, g1, rng1, hU, ?_⟩
  rw [hla, hs]
  rfl

/-- The collision test without the square root. -/
theorem checkCollision_iff_sq (x1 y1 x2 y2 radius : ℝ) :
    checkCollision realMath x1 y1 x2 y2 radius = true ↔
      0 < radius ∧ (x1 - x2) ^ 2 + (y1 - y2) ^ 2 < radius ^ 2 := by
  simp only [checkCollision, realMath, decide_eq_true_eq, ← pow_two]
  constructor
  · intro h
    have hr : 0 < radius := lt_of_le_of_lt (Real.sqrt_nonneg _) h
    exact ⟨hr, (Real.sqrt_lt' hr).mp h⟩
  · rintro ⟨hr, h⟩
    exact (Real.sqrt_lt' hr).mpr h

/-- The asteroids after the spawn phase are the old ones, followed by at most
one new asteroid. -/
theorem spawnPhase_append (inp : Input) (rng : Rng ℝ) (g : Game ℝ) :
    ∃ fresh, (spawnPhase realMath inp rng g).1.asteroids = g.asteroids ++ fresh ∧
      fresh.length ≤ 1 := by
  unfold spawnPhase
  split_ifs
  · exact ⟨[(newAsteroid realMath rng g.screenWidth g.screenHeight).1], rfl, le_refl _⟩
  · exact ⟨[], by simp, by simp⟩

/-- C15: in a `Update` of a game that is not over, the asteroid-motion phase
keeps the number and the order of the asteroids it starts with (the old ones and
the one spawned in the frame, if any) and each one's `dx`, `dy` and `radius`,
and replaces `x`, `y` by the wrapped `x + dx`, `y + dy`.  The collision phase
then removes only asteroids on which it calls `splitAsteroid`, each of which
contains a bullet: every moved asteroid that contains no bullet is among the
asteroids at the end of the frame, in order, so every asteroid of the start of
the frame whose moved place contains no bullet ends the frame with the velocity
and the radius it started with; without any call the asteroids at the end are
the moved ones. -/
theorem C15_asteroids_keep_velocity (inp : Input) (rng : Rng ℝ) (g : Game ℝ)
    (hg : g.isGameOver = false) :
    ∃ c g1,
      collisionPhase realMath (beforeCollisions realMath inp rng g).2
        (beforeCollisions realMath inp rng g).1 = some c ∧
      Update realMath inp rng g = some (g1, c.rng) ∧
      (∃ fresh, (spawnPhase realMath inp rng g).1.asteroids = g.asteroids ++ fresh ∧
        fresh.length ≤ 1) ∧
      List.Forall₂
        (fun a0 a => a.dx = a0.dx ∧ a.dy = a0.dy ∧ a.radius = a0.radius ∧
          a.x = mathMod (a0.x + a0.dx + (g.screenWidth : ℝ)) (g.screenWidth : ℝ) ∧
          a.y = mathMod (a0.y + a0.dy + (g.screenHeight : ℝ)) (g.screenHeight : ℝ))
        (spawnPhase realMath inp rng g).1.asteroids
        (beforeCollisions realMath inp rng g).1.asteroids ∧
      hitChain realMath (beforeCollisions realMath inp rng g).1.bullets c.splits
        (beforeCollisions realMath inp rng g).1.asteroids g1.asteroids ∧
      ((beforeCollisions realMath inp rng g).1.asteroids.filter
        (holdsNone realMath (beforeCollisions realMath inp rng g).1.bullets)).Sublist
          g1.asteroids ∧
      (∀ a0 ∈ g.asteroids,
        holdsNone realMath (beforeCollisions realMath inp rng g).1.bullets
          (moveAsteroid g.screenWidth g.screenHeight a0) = true →
        ∃ a ∈ g1.asteroids, a.dx = a0.dx ∧ a.dy = a0.dy ∧ a.radius = a0.radius ∧
          a.x = mathMod (a0.x + a0.dx + (g.screenWidth : ℝ)) (g.screenWidth : ℝ) ∧
          a.y = mathMod (a0.y + a0.dy + (g.screenHeight : ℝ)) (g.screenHeight : ℝ)) ∧
      (c.splits = [] → g1.asteroids = (beforeCollisions realMath inp rng g).1.asteroids) := by
  obtain ⟨-, -, b3, -, -, -, -, -, -, -⟩ := beforeCollisions_fields realMath inp rng g
  obtain ⟨c, hc, hU, -⟩ := Update_playing realMath
    (fun _ => True) (fun _ _ _ _ _ => trivial) inp rng g hg (fun _ _ => trivial)
  obtain ⟨-, -, f3, -⟩ := shipCollisionPhase_frame realMath c.game
  obtain ⟨o1, -, o3⟩ := collisionPhase_outcome realMath _ _ c hc
  obtain ⟨fresh, hfresh, hlen⟩ := spawnPhase_append inp rng g
  refine ⟨c, _, hc, hU, ⟨fresh, hfresh, hlen⟩, ?_, ?_, ?_, ?_, ?_⟩
  · rw [b3, List.forall₂_map_right_iff]
    exact List.forall₂_same.mpr (fun a _ => ⟨rfl, rfl, rfl, rfl, rfl⟩)
  · rw [f3]; exact o1
  · rw [f3]; exact o3
  · intro a0 h0 hnone
    have hmem : moveAsteroid g.screenWidth g.screenHeight a0 ∈
        (beforeCollisions realMath inp rng g).1.asteroids := by
      rw [b3, hfresh]
      exact List.mem_map_of_mem _ (List.mem_append_left _ h0)
    have hin : moveAsteroid g.screenWidth g.screenHeight a0 ∈
        (shipCollisionPhase realMath c.game).asteroids := by
      rw [f3]
      exact o3.subset (List.mem_filter.mpr ⟨hmem, hnone⟩)
    exact ⟨_, hin, rfl, rfl, rfl, rfl, rfl⟩
  · intro hsp
    rw [hsp] at o1
    rw [f3]
    exact o1

/-- The state in which the collision loop starts in `passGame`. -/
theorem passGame_before :
    (beforeCollisions realMath (noKeys 0) (zeroRng ℝ) (passGame ℝ)).1.bullets =
      [{ x := 100, y := 100, dx := 5, dy := 0 }] := by
  obtain ⟨-, b2, -, -, -, -, -, -, -, -⟩ :=
    beforeCollisions_fields realMath (noKeys 0) (zeroRng ℝ) (passGame ℝ)
  rw [b2, updateBullets_eq]
  have e : firePhase realMath (noKeys 0) (shipPhase realMath (noKeys 0) (passGame ℝ)) =
      shipPhase realMath (noKeys 0) (passGame ℝ) :=
    firePhase_blocked _ _ (by simp [noKeys])
  rw [e]
  have hon : specOnScreen 1720 1060
      ({ x := 100, y := 100, dx := 5, dy := 0 } : Bullet ℝ) = true := by
    norm_num [specOnScreen]
  have h95 : (95 : ℝ) + 5 = 100 := by norm_num
  simp [specBulletMotion, shipPhase, passGame, mkGame, specAdvance, h95, hon]

/-- C15, an instance: in `passGame` the bullet reaches (100, 100), inside the
second asteroid; the first asteroid, which moves from (500, 500) to (503, 504),
contains no bullet and ends the frame with its velocity (3, 4) and radius 30. -/
theorem C15_asteroids_keep_velocity_witness :
    ∃ g1 rng1, Update realMath (noKeys 0) (zeroRng ℝ) (passGame ℝ) = some (g1, rng1) ∧
      ∃ a ∈ g1.asteroids, a.dx = 3 ∧ a.dy = 4 ∧ a.radius = 30 ∧ a.x = 503 ∧ a.y = 504 := by
  obtain ⟨c, g1, -, hU, -, -, -, -, hkeep, -⟩ :=
    C15_asteroids_keep_velocity (noKeys 0) (zeroRng ℝ) (passGame ℝ) rfl
  have hmx : mathMod ((500 : ℝ) + 3 + 1720) 1720 = 503 := by
    have := mathMod_add_self_of_range (x := (503 : ℝ)) (w := 1720) (by norm_num) (by norm_num)
      (by norm_num)
    have e : (500 : ℝ) + 3 + 1720 = 503 + 1720 := by norm_num
    rw [e]; exact this
  have hmy : mathMod ((500 : ℝ) + 4 + 1060) 1060 = 504 := by
    have := mathMod_add_self_of_range (x := (504 : ℝ)) (w := 1060) (by norm_num) (by norm_num)
      (by norm_num)
    have e : (500 : ℝ) + 4 + 1060 = 504 + 1060 := by norm_num
    rw [e]; exact this
  have hmove : moveAsteroid 1720 1060
      ({ x := 500, y := 500, dx := 3, dy := 4, radius := 30 } : Asteroid ℝ) =
      { x := 503, y := 504, dx := 3, dy := 4, radius := 30 } := by
    simp [moveAsteroid, hmx, hmy]
  have hfar : checkCollision realMath (100 : ℝ) 100 503 504 30 = false := by
    rw [Bool.eq_false_iff]
    intro h
    have := ((checkCollision_iff_sq _ _ _ _ _).mp h).2
    norm_num at this
  obtain ⟨a, ha, h1, h2, h3, h4, h5⟩ := hkeep
    { x := 500, y := 500, dx := 3, dy := 4, radius := 30 }
    (by simp [passGame, mkGame])
    (by
      have hw : (passGame ℝ).screenWidth = 1720 := rfl
      have hh : (passGame ℝ).screenHeight = 1060 := rfl
      rw [passGame_before, hw, hh, hmove]
      simp [holdsNone, hfar])
  refine ⟨g1, c.rng, hU, a, ha, h1, h2, h3, ?_, ?_⟩
  · rw [h4]; exact hmx
  · rw [h5]; exact hmy

/-- C16: with a single live bullet `b` at the start of the collision phase,
if the asteroid at index `j` contains `b` and no asteroid of a larger index
does, the phase removes the bullet, calls `splitAsteroid` exactly once, on
`j` (the scan runs from the end of the list), and adds one to the score; the
asteroids are then the old ones without the one at `j`, unchanged and in order
(those of index below `j` keep their place, also when they contain `b`),
followed by the children of `j` if its radius is above 10.  If no asteroid
contains `b` the phase changes nothing. -/
theorem C16_first_hit_only (rng : Rng ℝ) (g : Game ℝ) (b : Bullet ℝ)
    (hb : g.bullets = [b]) :
    (∀ (j : Nat) (hj : j < g.asteroids.length),
      checkCollision realMath b.x b.y (g.asteroids[j]).x (g.asteroids[j]).y
        (g.asteroids[j]).radius = true →
      (∀ k (hk : k < g.asteroids.length), j < k →
        checkCollision realMath b.x b.y (g.asteroids[k]).x (g.asteroids[k]).y
          (g.asteroids[k]).radius = false) →
      ∃ c, collisionPhase realMath rng g = some c ∧
        c.splits = [j] ∧ c.game.bullets = [] ∧
        c.game.score = wrapInt64 (g.score + 1) ∧
        c.game.asteroids = g.asteroids.eraseIdx j ++
          (if 10 < (g.asteroids[j]).radius then
            children realMath g.asteroids[j] (rng 0) (rng 1) else []) ∧
        (∀ k, k < j → c.game.asteroids[k]? = g.asteroids[k]?) ∧
        (∀ k, j ≤ k → k + 1 < g.asteroids.length →
          c.game.asteroids[k]? = g.asteroids[k + 1]?)) ∧
    ((∀ k (hk : k < g.asteroids.length),
        checkCollision realMath b.x b.y (g.asteroids[k]).x (g.asteroids[k]).y
          (g.asteroids[k]).radius = false) →
      collisionPhase realMath rng g = some { game := g, rng := rng, splits := [] }) := by
  have hi : 0 < ({ game := g, rng := rng, splits := [] } : Coll ℝ).game.bullets.length := by
    show 0 < g.bullets.length
    rw [hb]; exact Nat.zero_lt_one
  have hb0 : g.bullets[0]? = some b := by rw [hb]; rfl
  have hbget : (({ game := g, rng := rng, splits := [] } : Coll ℝ).game.bullets[0]) = b := by
    have : g.bullets[0]? = some (g.bullets[0]) := List.getElem?_eq_getElem _
    rw [hb0] at this
    exact (Option.some.inj this).symm
  have hcp : collisionPhase realMath rng g =
      innerLoop realMath 0 g.asteroids.length { game := g, rng := rng, splits := [] } := by
    unfold collisionPhase
    rw [hb]
    simp only [List.length_cons, List.length_nil, zero_add, outerLoop]
    cases innerLoop realMath 0 g.asteroids.length { game := g, rng := rng, splits := [] } <;> rfl
  constructor
  · intro j hj hhit hmiss
    have hskip := innerLoop_skip realMath 0 (j + 1) { game := g, rng := rng, splits := [] } hi
      g.asteroids.length hj (le_refl _)
      (fun k hk h1 _ => by rw [hbget]; exact hmiss k hk h1)
    obtain ⟨r, hr⟩ := splitAsteroid_total realMath j rng g.asteroids hj
    have hhit' := innerLoop_hit realMath 0 j { game := g, rng := rng, splits := [] } b
      g.asteroids[j] hb0 (List.getElem?_eq_getElem hj) hhit r hr
    have hr1 : r.1 = g.asteroids.eraseIdx j ++
        (if 10 < (g.asteroids[j]).radius then
          children realMath g.asteroids[j] (rng 0) (rng 1) else []) := by
      by_cases hrad : 10 < (g.asteroids[j]).radius
      · rw [splitAsteroid_big realMath j rng g.asteroids hj hrad] at hr
        rw [if_pos hrad, ← Option.some.inj hr]
      · rw [splitAsteroid_small realMath j rng g.asteroids hj (not_lt.mp hrad)] at hr
        rw [if_neg hrad, ← Option.some.inj hr]; simp
    have hlen : (g.asteroids.eraseIdx j).length = g.asteroids.length - 1 := by
      rw [List.length_eraseIdx, if_pos hj]
    refine ⟨_, by rw [hcp, hskip, hhit'], rfl, ?_, rfl, hr1, ?_, ?_⟩
    · show g.bullets.take 0 ++ g.bullets.drop (0 + 1) = []
      rw [hb]; rfl
    · intro k hk
      show r.1[k]? = g.asteroids[k]?
      rw [hr1, List.getElem?_append_left (by rw [hlen]; omega),
        List.getElem?_eraseIdx_of_lt _ _ _ hk]
    · intro k hk hk1
      show r.1[k]? = g.asteroids[k + 1]?
      rw [hr1, List.getElem?_append_left (by rw [hlen]; omega),
        List.getElem?_eraseIdx_of_ge _ _ _ hk]
  · intro hmiss
    have hskip := innerLoop_skip realMath 0 0 { game := g, rng := rng, splits := [] } hi
      g.asteroids.length (Nat.zero_le _) (le_refl _)
      (fun k hk _ _ => by rw [hbget]; exact hmiss k hk)
    rw [hcp, hskip]
    rfl

/-- C16, an instance: in `overlapGame` the bullet lies inside asteroids 0 and
1; only asteroid 1 (the larger index; radius 8, so no children) is removed, and
asteroid 0, which also contains the bullet, stays. -/
theorem C16_first_hit_only_witness :
    ∃ c, collisionPhase realMath (zeroRng ℝ) (overlapGame ℝ) = some c ∧
      c.splits = [1] ∧ c.game.bullets = [] ∧
      c.game.asteroids =
        [{ x := 100, y := 100, dx := 0, dy := 0, radius := 30 },
         { x := 500, y := 500, dx := 0, dy := 0, radius := 30 }] := by
  obtain ⟨c, hc, hs, hbul, -, hast, -⟩ :=
    (C16_first_hit_only (zeroRng ℝ) (overlapGame ℝ) { x := 100, y := 100, dx := 5, dy := 0 }
      rfl).1 1 (by simp [overlapGame, mkGame])
      (by
        rw [checkCollision_iff_sq]
        simp only [overlapGame, mkGame, List.getElem_cons_succ, List.getElem_cons_zero]
        norm_num)
      (by
        intro k hk hlt
        have hk3 : k < 3 := by simpa [overlapGame, mkGame] using hk
        have hk2 : k = 2 := by omega
        subst hk2
        rw [Bool.eq_false_iff, Ne, checkCollision_iff_sq]
        simp only [overlapGame, mkGame, List.getElem_cons_succ, List.getElem_cons_zero]
        norm_num)
  refine ⟨c, hc, hs, hbul, ?_⟩
  rw [hast]
  simp only [overlapGame, mkGame, List.getElem_cons_succ, List.getElem_cons_zero]
  norm_num [List.eraseIdx]

/-- The radii that occur: 30 for a new asteroid, 15 and 7.5 after splits. -/
theorem radius_splitClosed :
    SplitClosed (fun a : Asteroid ℝ => a.radius = 30 ∨ a.radius = 15 ∨ a.radius = 7.5) := by
  intro a dx dy h hr
  show a.radius / 2 = 30 ∨ a.radius / 2 = 15 ∨ a.radius / 2 = 7.5
  rcases h with h | h | h
  · right; left; rw [h]; norm_num
  · right; right; rw [h]; norm_num
  · rw [h] at hr; norm_num at hr

/-- Every asteroid appended by the loop of `resetGame` has radius 30. -/
theorem resetLoop_radius (w h : Int) :
    ∀ (n : Nat) (rng : Rng ℝ) (asteroids : List (Asteroid ℝ)),
      (∀ a ∈ asteroids, a.radius = 30) →
      ∀ a ∈ (resetLoop realMath w h n rng asteroids).1, a.radius = 30 := by
  intro n
  induction n with
  | zero => intro rng asteroids hall; exact hall
  | succ n ih =>
    intro rng asteroids hall
    have e : resetLoop realMath w h (n + 1) rng asteroids =
        resetLoop realMath w h n (newAsteroid realMath rng w h).2
          (asteroids ++ [(newAsteroid realMath rng w h).1]) := rfl
    rw [e]
    apply ih
    intro a ha
    rcases List.mem_append.mp ha with ha | ha
    · exact hall a ha
    · rw [List.mem_singleton.mp ha]; rfl

/-- C17: if every asteroid of a game has radius 30, 15 or 7.5, then `Update`
returns and every asteroid of the returned game has radius 30, 15 or 7.5, so a
positive radius; every `splitAsteroid` on the asteroids keeps this; a split of
an asteroid of radius 30 appends two of radius 15, a split of radius 15 two of
radius 7.5, and a hit on an asteroid of radius 7.5 removes it with nothing
appended (a lineage is split at most twice).  The asteroids made by `main` and
by `resetGame` all have radius 30. -/
theorem C17_radius_invariant (inp : Input) (rng : Rng ℝ) (g : Game ℝ)
    (hall : ∀ a ∈ g.asteroids, a.radius = 30 ∨ a.radius = 15 ∨ a.radius = 7.5) :
    (∃ g1 rng1, Update realMath inp rng g = some (g1, rng1) ∧
      ∀ a ∈ g1.asteroids, (a.radius = 30 ∨ a.radius = 15 ∨ a.radius = 7.5) ∧ 0 < a.radius) ∧
    (∀ (index : Nat) (rng0 : Rng ℝ) (r : List (Asteroid ℝ) × Rng ℝ),
      splitAsteroid realMath index rng0 g.asteroids = some r →
      ∀ a ∈ r.1, (a.radius = 30 ∨ a.radius = 15 ∨ a.radius = 7.5) ∧ 0 < a.radius) ∧
    (∀ (index : Nat) (rng0 : Rng ℝ) (h : index < g.asteroids.length),
      ((g.asteroids[index]).radius = 30 → ∃ c1 c2 rng1,
        splitAsteroid realMath index rng0 g.asteroids =
          some (g.asteroids.eraseIdx index ++ [c1, c2], rng1) ∧
        c1.radius = 15 ∧ c2.radius = 15) ∧
      ((g.asteroids[index]).radius = 15 → ∃ c1 c2 rng1,
        splitAsteroid realMath index rng0 g.asteroids =
          some (g.asteroids.eraseIdx index ++ [c1, c2], rng1) ∧
        c1.radius = 7.5 ∧ c2.radius = 7.5) ∧
      ((g.asteroids[index]).radius = 7.5 →
        splitAsteroid realMath index rng0 g.asteroids =
          some (g.asteroids.eraseIdx index, rng0))) ∧
    (∀ (rng0 : Rng ℝ) (zeroTime : Int),
      ∀ a ∈ (initGame realMath rng0 zeroTime).1.asteroids, a.radius = 30) ∧
    (∀ (rng0 : Rng ℝ) (g0 : Game ℝ),
      ∀ a ∈ (resetGame realMath rng0 g0).1.asteroids, a.radius = 30) := by
  have hpos : ∀ a : Asteroid ℝ, (a.radius = 30 ∨ a.radius = 15 ∨ a.radius = 7.5) →
      (a.radius = 30 ∨ a.radius = 15 ∨ a.radius = 7.5) ∧ 0 < a.radius := by
    intro a h
    refine ⟨h, ?_⟩
    rcases h with h | h | h <;> rw [h] <;> norm_num
  have hreset : ∀ (rng0 : Rng ℝ) (g0 : Game ℝ),
      ∀ a ∈ (resetGame realMath rng0 g0).1.asteroids, a.radius = 30 := by
    intro rng0 g0
    exact resetLoop_radius g0.screenWidth g0.screenHeight 10 rng0 [] (by simp)
  refine ⟨?_, ?_, ?_, ?_, hreset⟩
  · by_cases hg : g.isGameOver = true
    · by_cases hr : inp.keyR = true
      · refine ⟨(resetGame realMath rng g).1, (resetGame realMath rng g).2, ?_, ?_⟩
        · simp [Update, hg, hr]
        · intro a ha
          exact hpos a (Or.inl (hreset rng g a ha))
      · refine ⟨g, rng, ?_, fun a ha => hpos a (hall a ha)⟩
        simp [Update, hg, hr]
    · have hg' : g.isGameOver = false := by simpa using hg
      obtain ⟨-, -, b3, -⟩ := beforeCollisions_fields realMath inp rng g
      obtain ⟨c, -, hU, -, -, -, -, -, -, -, -, -, hP⟩ := Update_playing realMath _
        radius_splitClosed inp rng g hg'
        (by
          rw [b3]
          intro a ha
          obtain ⟨a0, h0, rfl⟩ := List.mem_map.mp ha
          show a0.radius = 30 ∨ a0.radius = 15 ∨ a0.radius = 7.5
          unfold spawnPhase at h0
          split_ifs at h0
          · rcases List.mem_append.mp h0 with h1 | h1
            · exact hall a0 h1
            · rw [List.mem_singleton.mp h1]; left; rfl
          · exact hall a0 h0)
      obtain ⟨-, -, f3, -⟩ := shipCollisionPhase_frame realMath c.game
      refine ⟨_, _, hU, ?_⟩
      rw [f3]
      exact fun a ha => hpos a (hP a ha)
  · intro index rng0 r hs a ha
    exact hpos a (splitAsteroid_preserves realMath _ radius_splitClosed index rng0
      g.asteroids r hall hs a ha)
  · intro index rng0 h
    refine ⟨?_, ?_, ?_⟩
    · intro hr
      refine ⟨_, _, _, splitAsteroid_big realMath index rng0 g.asteroids h
        (by rw [hr]; norm_num), ?_, ?_⟩
      · show (g.asteroids[index]).radius / 2 = 15
        rw [hr]; norm_num
      · show (g.asteroids[index]).radius / 2 = 15
        rw [hr]; norm_num
    · intro hr
      refine ⟨_, _, _, splitAsteroid_big realMath index rng0 g.asteroids h
        (by rw [hr]; norm_num), ?_, ?_⟩
      · show (g.asteroids[index]).radius / 2 = 7.5
        rw [hr]; norm_num
      · show (g.asteroids[index]).radius / 2 = 7.5
        rw [hr]; norm_num
    · intro hr
      exact splitAsteroid_small realMath index rng0 g.asteroids h (by rw [hr]; norm_num)
  · intro rng0 zeroTime
    exact resetLoop_radius 800 600 5 rng0 [] (by simp)

/-- C17, an instance: `crashGame`, whose only asteroid has radius 30. -/
theorem C17_radius_invariant_witness :
    ∃ g1 rng1, Update realMath (noKeys 0) (zeroRng ℝ) (crashGame ℝ) = some (g1, rng1) ∧
      ∀ a ∈ g1.asteroids, (a.radius = 30 ∨ a.radius = 15 ∨ a.radius = 7.5) ∧ 0 < a.radius :=
  (C17_radius_invariant (noKeys 0) (zeroRng ℝ) (crashGame ℝ)
    (by simp [crashGame, mkGame])).1

/-- The velocity after the controls: the old velocity plus the thrust along the
new heading. -/
theorem shipControls_velocity (inp : Input) (s : Ship ℝ) :
    (shipControls realMath inp s).x = s.x ∧ (shipControls realMath inp s).y = s.y ∧
    (shipControls realMath inp s).velocityX = s.velocityX +
      0.2 * ((if inp.keyUp then 1 else 0) - (if inp.keyDown then 1 else 0)) *
        Real.cos (shipControls realMath inp s).angle ∧
    (shipControls realMath inp s).velocityY = s.velocityY +
      0.2 * ((if inp.keyUp then 1 else 0) - (if inp.keyDown then 1 else 0)) *
        Real.sin (shipControls realMath inp s).angle := by
  rcases inp with ⟨l, r, u, d, sp, kr, now⟩
  refine ⟨?_, ?_, ?_, ?_⟩ <;>
    cases l <;> cases r <;> cases u <;> cases d <;>
      simp [shipControls, realMath] <;> ring

/-- A thrust of at most 0.2 raises a speed of at most 20 to at most 20.2. -/
theorem speed_bound_step (vx vy c s t : ℝ) (hv : vx * vx + vy * vy ≤ 400)
    (hcs : c ^ 2 + s ^ 2 = 1) (ht1 : -0.2 ≤ t) (ht2 : t ≤ 0.2) :
    (vx + t * c) ^ 2 + (vy + t * s) ^ 2 ≤ 408.04 := by
  have hp : (vx * c + vy * s) ^ 2 ≤ 400 := by
    nlinarith [sq_nonneg (vx * s - vy * c)]
  have hp1 : vx * c + vy * s ≤ 20 := by nlinarith [sq_nonneg (vx * c + vy * s - 20)]
  have hp2 : -20 ≤ vx * c + vy * s := by nlinarith [sq_nonneg (vx * c + vy * s + 20)]
  have htp : t * (vx * c + vy * s) ≤ 4 := by
    nlinarith [mul_nonneg (sub_nonneg.mpr ht2) (sub_nonneg.mpr hp2),
      mul_nonneg (sub_nonneg.mpr ht1) (sub_nonneg.mpr hp1)]
  have ht : t ^ 2 ≤ 0.04 := by nlinarith
  have e : (vx + t * c) ^ 2 + (vy + t * s) ^ 2 =
      (vx * vx + vy * vy) + 2 * (t * (vx * c + vy * s)) + t ^ 2 * (c ^ 2 + s ^ 2) := by ring
  rw [e, hcs]
  norm_num
  linarith

/-- The ship phase keeps the bound. -/
theorem shipMove_bound (inp : Input) (w h : Int) (s : Ship ℝ) (hw : 21 ≤ w) (hh : 21 ≤ h)
    (hx : 0 ≤ s.x ∧ s.x < (w : ℝ)) (hy : 0 ≤ s.y ∧ s.y < (h : ℝ))
    (hv : Real.sqrt (s.velocityX * s.velocityX + s.velocityY * s.velocityY) ≤ 20) :
    (0 ≤ (shipMove w h (shipControls realMath inp s)).x ∧
      (shipMove w h (shipControls realMath inp s)).x < (w : ℝ)) ∧
    (0 ≤ (shipMove w h (shipControls realMath inp s)).y ∧
      (shipMove w h (shipControls realMath inp s)).y < (h : ℝ)) ∧
    Real.sqrt ((shipMove w h (shipControls realMath inp s)).velocityX *
        (shipMove w h (shipControls realMath inp s)).velocityX +
      (shipMove w h (shipControls realMath inp s)).velocityY *
        (shipMove w h (shipControls realMath inp s)).velocityY) ≤ 20 := by
  obtain ⟨cx, cy, cvx, cvy⟩ := shipControls_velocity inp s
  have hv' : s.velocityX * s.velocityX + s.velocityY * s.velocityY ≤ 400 := by
    have := (Real.sqrt_le_left (by norm_num : (0 : ℝ) ≤ 20)).mp hv
    linarith
  have ht1 : (-0.2 : ℝ) ≤
      0.2 * ((if inp.keyUp then 1 else 0) - (if inp.keyDown then 1 else 0)) := by
    split_ifs <;> norm_num
  have ht2 : 0.2 * ((if inp.keyUp then (1 : ℝ) else 0) - (if inp.keyDown then 1 else 0)) ≤
      0.2 := by
    split_ifs <;> norm_num
  have hu := speed_bound_step s.velocityX s.velocityY
    (Real.cos (shipControls realMath inp s).angle)
    (Real.sin (shipControls realMath inp s).angle) _ hv'
    (Real.cos_sq_add_sin_sq _) ht1 ht2
  rw [← cvx, ← cvy] at hu
  have hw' : (21 : ℝ) ≤ (w : ℝ) := by exact_mod_cast hw
  have hh' : (21 : ℝ) ≤ (h : ℝ) := by exact_mod_cast hh
  have hux : -20.2 ≤ (shipControls realMath inp s).velocityX := by
    nlinarith [sq_nonneg ((shipControls realMath inp s).velocityY),
      sq_nonneg ((shipControls realMath inp s).velocityX + 20.2)]
  have huy : -20.2 ≤ (shipControls realMath inp s).velocityY := by
    nlinarith [sq_nonneg ((shipControls realMath inp s).velocityX),
      sq_nonneg ((shipControls realMath inp s).velocityY + 20.2)]
  refine ⟨?_, ?_, ?_⟩
  · exact wrap_in_range (by linarith) (by rw [cx]; linarith [hx.1])
  · exact wrap_in_range (by linarith) (by rw [cy]; linarith [hy.1])
  · rw [Real.sqrt_le_left (by norm_num)]
    simp only [shipMove]
    nlinarith [hu]

/-- One `Update` keeps the bound on the ship and the screen, whatever the state. -/
theorem shipBound_Update (inp : Input) (rng : Rng ℝ) (g : Game ℝ)
    (hb : shipBound realMath g) :
    ∃ g1 rng1, Update realMath inp rng g = some (g1, rng1) ∧
      g1.screenWidth = g.screenWidth ∧ g1.screenHeight = g.screenHeight ∧
      shipBound realMath g1 := by
  obtain ⟨hw, hh, hx, hy, hv⟩ := hb
  have hw' : (21 : ℝ) ≤ (g.screenWidth : ℝ) := by exact_mod_cast hw
  have hh' : (21 : ℝ) ≤ (g.screenHeight : ℝ) := by exact_mod_cast hh
  by_cases hg : g.isGameOver = true
  · by_cases hr : inp.keyR = true
    · refine ⟨(resetGame realMath rng g).1, (resetGame realMath rng g).2, ?_, rfl, rfl,
        hw, hh, ?_, ?_, ?_⟩
      · simp [Update, hg, hr]
      · show 0 ≤ (g.screenWidth : ℝ) / 2 ∧ (g.screenWidth : ℝ) / 2 < (g.screenWidth : ℝ)
        constructor <;> linarith
      · show 0 ≤ (g.screenHeight : ℝ) / 2 ∧ (g.screenHeight : ℝ) / 2 < (g.screenHeight : ℝ)
        constructor <;> linarith
      · show Real.sqrt ((0 : ℝ) * 0 + 0 * 0) ≤ 20
        norm_num
    · exact ⟨g, rng, by simp [Update, hg, hr], rfl, rfl, hw, hh, hx, hy, hv⟩
  · have hg' : g.isGameOver = false := by simpa using hg
    obtain ⟨b1, -⟩ := beforeCollisions_fields realMath inp rng g
    obtain ⟨c, -, hU, hship, -, -, -, hcw, hch, -⟩ := Update_playing realMath
      (fun _ => True) (fun _ _ _ _ _ => trivial) inp rng g hg' (fun _ _ => trivial)
    obtain ⟨f1, -, -, -, f5, f6, -, -⟩ := shipCollisionPhase_frame realMath c.game
    obtain ⟨m1, m2, m3⟩ := shipMove_bound inp g.screenWidth g.screenHeight g.ship hw hh hx hy hv
    have es : (shipCollisionPhase realMath c.game).ship =
        shipMove g.screenWidth g.screenHeight (shipControls realMath inp g.ship) := by
      rw [f1, hship, b1]
    have ew := f5.trans hcw
    have eh := f6.trans hch
    refine ⟨_, _, hU, ew, eh, ?_⟩
    unfold shipBound
    rw [ew, eh, es]
    exact ⟨hw, hh, m1, m2, m3⟩

/-- Any number of frames keeps the bound on the ship and the screen. -/
theorem shipBound_runFrames :
    ∀ (inputs : List Input) (rng : Rng ℝ) (g : Game ℝ), shipBound realMath g →
      ∃ gn rngn, runFrames realMath inputs rng g = some (gn, rngn) ∧
        gn.screenWidth = g.screenWidth ∧ gn.screenHeight = g.screenHeight ∧
        shipBound realMath gn := by
  intro inputs
  induction inputs with
  | nil => intro rng g hb; exact ⟨g, rng, rfl, rfl, rfl, hb⟩
  | cons inp rest ih =>
    intro rng g hb
    obtain ⟨g1, rng1, hU, hw, hh, hb1⟩ := shipBound_Update inp rng g hb
    obtain ⟨gn, rngn, hR, hwn, hhn, hbn⟩ := ih rng1 g1 hb1
    refine ⟨gn, rngn, ?_, hwn.trans hw, hhn.trans hh, hbn⟩
    simp only [runFrames, hU]
    exact hR

/-- C18: for a game that is not over, on a screen of at least 21 x 21, with
the ship in `[0, width) x [0, height)` and a ship speed of at most 20, and for
every input, after one `Update` the ship speed is again at most 20 and the
ship position, `Mod (x + vx + width, width)` and `Mod (y + vy + height, height)`
for the velocity after the controls, is again on the screen.  So after any
number of frames the ship is on the screen with a speed of at most 20, and
this holds from the state built by `main` and from every reset state. -/
theorem C18_ship_stays_on_screen (inp : Input) (rng : Rng ℝ) (g : Game ℝ)
    (hg : g.isGameOver = false) (hw : 21 ≤ g.screenWidth) (hh : 21 ≤ g.screenHeight)
    (hx : 0 ≤ g.ship.x ∧ g.ship.x < (g.screenWidth : ℝ))
    (hy : 0 ≤ g.ship.y ∧ g.ship.y < (g.screenHeight : ℝ))
    (hv : Real.sqrt (g.ship.velocityX * g.ship.velocityX +
      g.ship.velocityY * g.ship.velocityY) ≤ 20) :
    (∃ g1 rng1, Update realMath inp rng g = some (g1, rng1) ∧
      g1.screenWidth = g.screenWidth ∧ g1.screenHeight = g.screenHeight ∧
      Real.sqrt (g1.ship.velocityX * g1.ship.velocityX +
        g1.ship.velocityY * g1.ship.velocityY) ≤ 20 ∧
      g1.ship.x = mathMod (g.ship.x + (shipControls realMath inp g.ship).velocityX +
        (g.screenWidth : ℝ)) (g.screenWidth : ℝ) ∧
      g1.ship.y = mathMod (g.ship.y + (shipControls realMath inp g.ship).velocityY +
        (g.screenHeight : ℝ)) (g.screenHeight : ℝ) ∧
      (0 ≤ g1.ship.x ∧ g1.ship.x < (g.screenWidth : ℝ)) ∧
      (0 ≤ g1.ship.y ∧ g1.ship.y < (g.screenHeight : ℝ))) ∧
    (∀ inputs : List Input, ∃ gn rngn,
      runFrames realMath inputs rng g = some (gn, rngn) ∧
      (0 ≤ gn.ship.x ∧ gn.ship.x < (g.screenWidth : ℝ)) ∧
      (0 ≤ gn.ship.y ∧ gn.ship.y < (g.screenHeight : ℝ)) ∧
      Real.sqrt (gn.ship.velocityX * gn.ship.velocityX +
        gn.ship.velocityY * gn.ship.velocityY) ≤ 20) ∧
    (∀ (rng0 : Rng ℝ) (zeroTime : Int) (inputs : List Input), ∃ gn rngn,
      runFrames realMath inputs (initGame realMath rng0 zeroTime).2
        (initGame realMath rng0 zeroTime).1 = some (gn, rngn) ∧
      (0 ≤ gn.ship.x ∧ gn.ship.x < 1720) ∧ (0 ≤ gn.ship.y ∧ gn.ship.y < 1060)) ∧
    (∀ (rng0 : Rng ℝ) (inputs : List Input), ∃ gn rngn,
      runFrames realMath inputs (resetGame realMath rng0 g).2
        (resetGame realMath rng0 g).1 = some (gn, rngn) ∧
      (0 ≤ gn.ship.x ∧ gn.ship.x < (g.screenWidth : ℝ)) ∧
      (0 ≤ gn.ship.y ∧ gn.ship.y < (g.screenHeight : ℝ))) := by
  have hw' : (21 : ℝ) ≤ (g.screenWidth : ℝ) := by exact_mod_cast hw
  have hh' : (21 : ℝ) ≤ (g.screenHeight : ℝ) := by exact_mod_cast hh
  have hb : shipBound realMath g := ⟨hw, hh, hx, hy, hv⟩
  refine ⟨?_, ?_, ?_, ?_⟩
  · obtain ⟨b1, -⟩ := beforeCollisions_fields realMath inp rng g
    obtain ⟨c, -, hU, hship, -, -, -, hcw, hch, -⟩ := Update_playing realMath
      (fun _ => True) (fun _ _ _ _ _ => trivial) inp rng g hg (fun _ _ => trivial)
    obtain ⟨f1, -, -, -, f5, f6, -, -⟩ := shipCollisionPhase_frame realMath c.game
    obtain ⟨m1, m2, m3⟩ := shipMove_bound inp g.screenWidth g.screenHeight g.ship hw hh hx hy hv
    obtain ⟨cx, cy, -, -⟩ := shipControls_velocity inp g.ship
    have es : (shipCollisionPhase realMath c.game).ship =
        shipMove g.screenWidth g.screenHeight (shipControls realMath inp g.ship) := by
      rw [f1, hship, b1]
    refine ⟨_, _, hU, f5.trans hcw, f6.trans hch, ?_, ?_, ?_, ?_, ?_⟩
    · rw [es]; exact m3
    · rw [es, ← cx]; rfl
    · rw [es, ← cy]; rfl
    · rw [es]; exact m1
    · rw [es]; exact m2
  · intro inputs
    obtain ⟨gn, rngn, hR, hwn, hhn, -, -, hxn, hyn, hvn⟩ :=
      shipBound_runFrames inputs rng g hb
    rw [hwn] at hxn
    rw [hhn] at hyn
    exact ⟨gn, rngn, hR, hxn, hyn, hvn⟩
  · intro rng0 zeroTime inputs
    have hb0 : shipBound realMath (initGame realMath rng0 zeroTime).1 := by
      refine ⟨show (21 : Int) ≤ 1720 by decide, show (21 : Int) ≤ 1060 by decide, ?_, ?_, ?_⟩
      · show (0 : ℝ) ≤ 400 ∧ (400 : ℝ) < ((1720 : Int) : ℝ)
        norm_num
      · show (0 : ℝ) ≤ 300 ∧ (300 : ℝ) < ((1060 : Int) : ℝ)
        norm_num
      · show Real.sqrt ((0 : ℝ) * 0 + 0 * 0) ≤ 20
        norm_num
    obtain ⟨gn, rngn, hR, hwn, hhn, -, -, hxn, hyn, -⟩ :=
      shipBound_runFrames inputs _ _ hb0
    rw [hwn] at hxn
    rw [hhn] at hyn
    refine ⟨gn, rngn, hR, ?_, ?_⟩
    · have e : (((initGame realMath rng0 zeroTime).1.screenWidth : Int) : ℝ) = 1720 := by
        show ((1720 : Int) : ℝ) = 1720
        norm_num
      rw [e] at hxn; exact hxn
    · have e : (((initGame realMath rng0 zeroTime).1.screenHeight : Int) : ℝ) = 1060 := by
        show ((1060 : Int) : ℝ) = 1060
        norm_num
      rw [e] at hyn; exact hyn
  · intro rng0 inputs
    have hb0 : shipBound realMath (resetGame realMath rng0 g).1 := by
      refine ⟨hw, hh, ?_, ?_, ?_⟩
      · show 0 ≤ (g.screenWidth : ℝ) / 2 ∧ (g.screenWidth : ℝ) / 2 < (g.screenWidth : ℝ)
        constructor <;> linarith
      · show 0 ≤ (g.screenHeight : ℝ) / 2 ∧ (g.screenHeight : ℝ) / 2 < (g.screenHeight : ℝ)
        constructor <;> linarith
      · show Real.sqrt ((0 : ℝ) * 0 + 0 * 0) ≤ 20
        norm_num
    obtain ⟨gn, rngn, hR, hwn, hhn, -, -, hxn, hyn, -⟩ :=
      shipBound_runFrames inputs _ _ hb0
    rw [hwn] at hxn
    rw [hhn] at hyn
    exact ⟨gn, rngn, hR, hxn, hyn⟩

/-- C18, an instance: `edgeGame` (ship at rest at (1718, 500), two units from
the right edge of the 1720 x 1060 screen, facing right) with the thrust key:
the ship is on the screen after the frame and after three frames. -/
theorem C18_ship_stays_on_screen_witness :
    (∃ g1 rng1, Update realMath (thrustKey 0) (zeroRng ℝ) (edgeGame ℝ) = some (g1, rng1) ∧
      (0 ≤ g1.ship.x ∧ g1.ship.x < 1720) ∧ (0 ≤ g1.ship.y ∧ g1.ship.y < 1060)) ∧
    ∃ gn rngn, runFrames realMath [thrustKey 0, thrustKey 1, thrustKey 2] (zeroRng ℝ)
        (edgeGame ℝ) = some (gn, rngn) ∧
      (0 ≤ gn.ship.x ∧ gn.ship.x < 1720) ∧ (0 ≤ gn.ship.y ∧ gn.ship.y < 1060) := by
  have h := C18_ship_stays_on_screen (thrustKey 0) (zeroRng ℝ) (edgeGame ℝ) rfl
    (by decide) (by decide)
    (by norm_num [edgeGame, mkGame]) (by norm_num [edgeGame, mkGame])
    (by norm_num [edgeGame, mkGame])
  obtain ⟨⟨g1, rng1, hU, -, -, -, -, -, hx1, hy1⟩, hrun, -, -⟩ := h
  obtain ⟨gn, rngn, hR, hxn, hyn, -⟩ := hrun [thrustKey 0, thrustKey 1, thrustKey 2]
  have ew : (((edgeGame ℝ).screenWidth : Int) : ℝ) = 1720 := by
    show ((1720 : Int) : ℝ) = 1720
    norm_num
  have eh : (((edgeGame ℝ).screenHeight : Int) : ℝ) = 1060 := by
    show ((1060 : Int) : ℝ) = 1060
    norm_num
  rw [ew] at hx1 hxn
  rw [eh] at hy1 hyn
  exact ⟨⟨g1, rng1, hU, hx1, hy1⟩, gn, rngn, hR, hxn, hyn⟩

/-- C19: for every bullet list and asteroid list (empty ones included) the
nested reverse loops of the collision phase return a state, so no index of
`g.bullets` or `g.asteroids` is out of range although both slices change during
the iteration, and `Update` returns in every state.  The phase equals the
resolution `specResolve` of the bullets present at its start, taken last
first, which tests each of them exactly once: the bullets left are the kept
ones in their original order, a part of the bullets of the start, and the
number of calls of `splitAsteroid` is the number of bullets removed.  A test
is one scan `specScan`, whose result, if any, is a valid index of an asteroid
that contains the bullet. -/
theorem C19_collision_index_safe (rng : Rng ℝ) (g : Game ℝ) :
    (∃ c, collisionPhase realMath rng g = some c ∧
      c = withBullets
        (specResolve realMath g.bullets.reverse
          { game := g, rng := rng, splits := [] }).1.reverse
        (specResolve realMath g.bullets.reverse { game := g, rng := rng, splits := [] }).2 ∧
      c.game.bullets.Sublist g.bullets ∧
      c.splits.length + c.game.bullets.length = g.bullets.length) ∧
    (∀ inp : Input, ∃ r, Update realMath inp rng g = some r) ∧
    (∀ c : Coll ℝ, specResolve realMath [] c = ([], c)) ∧
    (∀ (b : Bullet ℝ) (rest : List (Bullet ℝ)) (c : Coll ℝ),
      (specScan realMath b c.game.asteroids c.game.asteroids.length = none →
        specResolve realMath (b :: rest) c =
          (b :: (specResolve realMath rest c).1, (specResolve realMath rest c).2)) ∧
      (∀ j, specScan realMath b c.game.asteroids c.game.asteroids.length = some j →
        specResolve realMath (b :: rest) c =
          specResolve realMath rest (specHit realMath j c))) ∧
    (∀ (b : Bullet ℝ) (asteroids : List (Asteroid ℝ)) (j : Nat),
      specScan realMath b asteroids asteroids.length = some j →
      ∃ h : j < asteroids.length,
        checkCollision realMath b.x b.y (asteroids[j]).x (asteroids[j]).y
          (asteroids[j]).radius = true) := by
  have hsafe : ∃ c, collisionPhase realMath rng g = some c ∧
      c = withBullets
        (specResolve realMath g.bullets.reverse
          { game := g, rng := rng, splits := [] }).1.reverse
        (specResolve realMath g.bullets.reverse { game := g, rng := rng, splits := [] }).2 ∧
      c.game.bullets.Sublist g.bullets ∧
      c.splits.length + c.game.bullets.length = g.bullets.length := by
    have href := outerLoop_refines realMath g.bullets.length
      { game := g, rng := rng, splits := [] } (le_refl _)
    obtain ⟨c, hc, -, -, -, -, -, -, hsub, ⟨calls, hc1, hc2, -, -⟩, -⟩ :=
      outerLoop_spec realMath (fun _ => True) (fun _ _ _ _ _ => trivial) g.bullets.length
        { game := g, rng := rng, splits := [] } (le_refl _) (fun _ _ => trivial)
    have hcalls : c.splits = calls := by simpa using hc1
    refine ⟨c, hc, ?_, hsub, by rw [hcalls]; exact hc2⟩
    have e := Option.some.inj (hc.symm.trans href)
    rw [e]
    simp only [List.take_length, List.drop_length, List.append_nil]
  refine ⟨hsafe, ?_, fun _ => rfl, ?_, ?_⟩
  · intro inp
    by_cases hg : g.isGameOver = true
    · by_cases hr : inp.keyR = true
      · exact ⟨resetGame realMath rng g, by simp [Update, hg, hr]⟩
      · exact ⟨(g, rng), by simp [Update, hg, hr]⟩
    · obtain ⟨c, -, hU, -⟩ := Update_playing realMath (fun _ => True)
        (fun _ _ _ _ _ => trivial) inp rng g (by simpa using hg) (fun _ _ => trivial)
      exact ⟨_, hU⟩
  · intro b rest c
    constructor
    · intro h
      simp only [specResolve, h]
    · intro j h
      simp only [specResolve, h]
  · intro b asteroids
    have key : ∀ n, n ≤ asteroids.length → ∀ j, specScan realMath b asteroids n = some j →
        ∃ h : j < asteroids.length,
          checkCollision realMath b.x b.y (asteroids[j]).x (asteroids[j]).y
            (asteroids[j]).radius = true := by
      intro n
      induction n with
      | zero => intro _ j h; simp [specScan] at h
      | succ m ih =>
        intro hn j h
        have hm : m < asteroids.length := hn
        by_cases hc : checkCollision realMath b.x b.y (asteroids[m]).x (asteroids[m]).y
            (asteroids[m]).radius = true
        · have hscan : specScan realMath b asteroids (m + 1) = some m := by
            simp only [specScan, List.getElem?_eq_getElem hm, hc, if_true]
          rw [hscan] at h
          have hj : m = j := Option.some.inj h
          subst hj
          exact ⟨hm, hc⟩
        · have hscan : specScan realMath b asteroids (m + 1) =
              specScan realMath b asteroids m := by
            simp only [specScan, List.getElem?_eq_getElem hm, hc, Bool.false_eq_true,
              if_false]
          rw [hscan] at h
          exact ih (Nat.le_of_succ_le hn) j h
    exact key asteroids.length (le_refl _)

end Claims

end Asteroids
